import Mathlib

/-!
# Custom UDP communication and authentication suite

A shallow embedding of the two protocol profiles of the repository:

* `Assignment_1/server.c` and `Assignment_1/Assignment_1/client.c`: the transfer profile
  (numbered data segments, ACK / REJECT replies, retransmission on timeout);
* `Assignment_2/Assignment_2/server.c` and the retry loop of
  `Assignment_2/Assignment_2/client.c`: the authorization profile (subscriber lookup).

Modelling conventions.

* The fixed-width unsigned fields of the packets (`uint8_t`, `uint16_t`, `unsigned long`)
  are natural numbers; the predicate `inRange` states the bounds of the C types.
* The `int` counters of the receiver (`expectedPackNum`, the entries of `seq_buffer`) are
  mathematical integers: signed overflow is undefined in C and needs `2 ^ 31 - 1` packets.
* A field that the source never assigns has an indeterminate content; it is an `Option`
  whose value `none` stands for "never assigned". The sender's `initializeDataPacket`,
  whose unassigned fields are assigned later, takes their indeterminate content as an
  argument instead. Arithmetic of the sender on a `uint8_t` field is reduced modulo 256.
* An access outside an array has no defined behaviour: the step that performs it
  returns `none`. The one exception is the receiver's `strlen(dataPacket.pload)`, which
  runs past a payload without NUL byte into the rest of the struct: the byte that follows
  the array is part of the datagram and of the model (`DataPacket.padding`), see
  `Server.payloadLength`.
-/

namespace Transfer

/-! ## Protocol constants (identical in `server.c` and `client.c`) -/

def START_PACKET_IDENTIFIER : Nat := 0xFFFF
def END_PACKET_IDENTIFIER : Nat := 0xFFFF
def CLIENT_ID : Nat := 0xFF
def MAX_LEN_DATA : Nat := 255

def DATA : Nat := 0xFF1
def ACK : Nat := 0xFFF2
def REJECT : Nat := 0xFFF3

def REJECT_OUT_OF_SEQUENCE : Nat := 0xFFF4
def REJECT_LENGTH_MISMATCH : Nat := 0xFFF5
def REJECT_END_OF_PACKET_MISSING : Nat := 0xFFF6
def REJECT_DUPLICATE_PACKET : Nat := 0xFFF7

def MAX_TRIES : Nat := 3

/-! ## Packet structures -/

/-- The `DataPacket` struct. `pload` holds the bytes of the `char pload[255]` array
(offsets 8 to 262 of the 266-byte struct). `padding` is the byte at offset 263 that aligns
`end_packet_identifier`: the source never names it, but `sendto` and `recvfrom` copy the
whole struct, so it travels in the datagram, and it is the first byte behind the array. -/
structure DataPacket where
  start_packet_identifier : Nat
  client_id : Nat
  packet_type : Nat
  seg_no : Nat
  plen : Nat
  pload : List Nat
  padding : Nat
  end_packet_identifier : Nat
deriving DecidableEq, Repr

/-- The bounds that the C field types put on a `DataPacket`. -/
def DataPacket.inRange (p : DataPacket) : Prop :=
  p.start_packet_identifier < 2 ^ 16 ∧ p.client_id < 2 ^ 8 ∧ p.packet_type < 2 ^ 16 ∧
  p.seg_no < 2 ^ 8 ∧ p.plen < 2 ^ 8 ∧ p.pload.length = 255 ∧ (∀ c ∈ p.pload, c < 2 ^ 8) ∧
  p.padding < 2 ^ 8 ∧ p.end_packet_identifier < 2 ^ 16

instance (p : DataPacket) : Decidable p.inRange := by
  unfold DataPacket.inRange; infer_instance

/-- The `AckPacket` struct. `received_segment_no` is `none` while it has not been assigned. -/
structure AckPacket where
  start_packet_identifier : Nat
  client_id : Nat
  packet_type : Nat
  received_segment_no : Option Nat
  end_packet_identifier : Nat
deriving DecidableEq, Repr

/-- The `RejectPacket` struct. `rej_sub_code` and `received_segment_no` are `none` while
they have not been assigned. -/
structure RejectPacket where
  start_packet_identifier : Nat
  client_id : Nat
  packet_type : Nat
  rej_sub_code : Option Nat
  received_segment_no : Option Nat
  end_packet_identifier : Nat
deriving DecidableEq, Repr

/-- A datagram the receiver hands to `sendto`: an `AckPacket` or a `RejectPacket`. -/
inductive Reply where
  | ack (ackPacket : AckPacket)
  | reject (rejectPacket : RejectPacket)
deriving DecidableEq, Repr

/-- The `packet_type` field of a reply. -/
def Reply.packet_type : Reply → Nat
  | .ack a => a.packet_type
  | .reject r => r.packet_type

/-- The `rej_sub_code` field of a reply; an `AckPacket` has none. -/
def Reply.rej_sub_code : Reply → Option Nat
  | .ack _ => none
  | .reject r => r.rej_sub_code

/-- The `(packet_type, rej_sub_code)` pair that classifies a reply. -/
def Reply.codes (r : Reply) : Nat × Option Nat := (r.packet_type, r.rej_sub_code)

/-- C `strlen` on a list of bytes that holds a NUL: the number of bytes before the first
NUL. For a list without a NUL byte it is the length of the list; C reads on behind the
array in that case, which the receiver's call `Server.payloadLength` accounts for. -/
def strlen : List Nat → Nat
  | [] => 0
  | c :: cs => if c = 0 then 0 else strlen cs + 1

namespace Server

/-! ## The receiver, `Assignment_1/server.c` -/

/-- `initializeAck` of `server.c`: copies three fields, sets the type, and leaves
`received_segment_no` unassigned. -/
def initializeAck (dataPacket : DataPacket) : AckPacket :=
  { start_packet_identifier := dataPacket.start_packet_identifier
    client_id := dataPacket.client_id
    packet_type := ACK
    received_segment_no := none
    end_packet_identifier := dataPacket.end_packet_identifier }

/-- `initializeReject` of `server.c`: copies three fields, sets the type, and leaves
`rej_sub_code` and `received_segment_no` unassigned. -/
def initializeReject (dataPacket : DataPacket) : RejectPacket :=
  { start_packet_identifier := dataPacket.start_packet_identifier
    client_id := dataPacket.client_id
    packet_type := REJECT
    rej_sub_code := none
    received_segment_no := none
    end_packet_identifier := dataPacket.end_packet_identifier }

/-- The locals of `main` that live across iterations of the receive loop:
`int expectedPackNum` and `int seq_buffer[50]`. -/
structure State where
  expectedPackNum : Int
  seq_buffer : Fin 50 → Int

/-- The state at the first iteration: `expectedPackNum = 1`, `seq_buffer = {0}`. -/
def State.init : State :=
  { expectedPackNum := 1, seq_buffer := fun _ => 0 }

/-- The statement `seq_buffer[i] += 1`. -/
def bump (seq_buffer : Fin 50 → Int) (i : Fin 50) : Fin 50 → Int :=
  fun j => if j = i then seq_buffer j + 1 else seq_buffer j

/-- The arm of the `if` / `else if` chain of the receive loop that is taken.
`fallThrough` is the case in which no condition of the chain holds. -/
inductive Branch where
  | duplicate
  | outOfSequence
  | lengthMismatch
  | endMissing
  | accept
  | fallThrough
deriving DecidableEq, Repr

/-- The value of `strlen(dataPacket.pload)` at line 206. When the 255 bytes of the array
hold a NUL it is the number of bytes before the first NUL. When they hold none, `strlen`
reads on: if the byte behind the array, `padding`, is 0 the value is the length of the
array, 255; if not, `strlen` runs on into the end marker and the memory behind the
struct, and its value is 256 or more and not determined by the packet: `none`. -/
def payloadLength (dataPacket : DataPacket) : Option Nat :=
  if 0 ∈ dataPacket.pload ∨ dataPacket.padding = 0 then some (strlen dataPacket.pload)
  else none

/-- The conditions of the chain (lines 217, 229, 238, 247, 255), tested in the source's
order. `count` is `seq_buffer[dataPacket.seg_no]` after the increment of line 209,
`payloadLength` is the value of line 206; a value of 256 or more (`none`) differs from
every `uint8_t` declared length. -/
def chain (count expectedPackNum : Int) (payloadLength : Option Nat)
    (dataPacket : DataPacket) : Branch :=
  if count ≠ 1 then .duplicate
  else if (dataPacket.seg_no : Int) ≠ expectedPackNum then .outOfSequence
  else if payloadLength ≠ some dataPacket.plen then .lengthMismatch
  else if dataPacket.end_packet_identifier ≠ END_PACKET_IDENTIFIER then .endMissing
  else if (dataPacket.seg_no : Int) = expectedPackNum then .accept
  else .fallThrough

/-- What one iteration of the receive loop leaves behind: the next state, the arm taken
and the datagrams passed to `sendto`. -/
structure Outcome where
  state : State
  branch : Branch
  sent : List Reply

/-- The three statements of a rejecting arm before `expectedPackNum++`:
`initializeReject`, the assignment of `rej_sub_code`, and `sendto`. -/
def rejectWith (dataPacket : DataPacket) (code : Nat) : Reply :=
  .reject { initializeReject dataPacket with rej_sub_code := some code }

/-- One iteration of `while(10)` in `main` (lines 200 to 262) on the received
`dataPacket`. The result is `none` when `seq_buffer[dataPacket.seg_no]` is outside the
50-entry array. -/
def main_iteration (st : State) (dataPacket : DataPacket) : Option Outcome :=
  let payloadLength : Option Nat := Server.payloadLength dataPacket
  if h : dataPacket.seg_no < 50 then
    let seq_buffer := bump st.seq_buffer ⟨dataPacket.seg_no, h⟩
    let e := st.expectedPackNum
    match chain (seq_buffer ⟨dataPacket.seg_no, h⟩) e payloadLength dataPacket with
    | .duplicate =>
      some { state := { expectedPackNum := e + 1, seq_buffer := seq_buffer }
             branch := .duplicate
             sent := [rejectWith dataPacket REJECT_DUPLICATE_PACKET] }
    | .outOfSequence =>
      some { state := { expectedPackNum := e + 1, seq_buffer := seq_buffer }
             branch := .outOfSequence
             sent := [rejectWith dataPacket REJECT_OUT_OF_SEQUENCE] }
    | .lengthMismatch =>
      some { state := { expectedPackNum := e + 1, seq_buffer := seq_buffer }
             branch := .lengthMismatch
             sent := [rejectWith dataPacket REJECT_LENGTH_MISMATCH] }
    | .endMissing =>
      some { state := { expectedPackNum := e + 1, seq_buffer := seq_buffer }
             branch := .endMissing
             sent := [rejectWith dataPacket REJECT_END_OF_PACKET_MISSING] }
    | .accept =>
      some { state := { expectedPackNum := e + 1, seq_buffer := seq_buffer }
             branch := .accept
             sent := [.ack (initializeAck dataPacket)] }
    | .fallThrough =>
      some { state := { expectedPackNum := e, seq_buffer := seq_buffer }
             branch := .fallThrough
             sent := [] }
  else none

/-- The `(packet_type, rej_sub_code)` pairs of the datagrams sent in one iteration. -/
def Outcome.codes (o : Outcome) : List (Nat × Option Nat) := o.sent.map Reply.codes

/-- The receive loop run on a finite stream of inbound packets: the final state and the
datagrams sent, in order. -/
def main_loop : State → List DataPacket → Option (State × List Reply)
  | st, [] => some (st, [])
  | st, dataPacket :: rest =>
    match main_iteration st dataPacket with
    | none => none
    | some o =>
      match main_loop o.state rest with
      | none => none
      | some (st', replies) => some (st', o.sent ++ replies)

end Server

namespace Client

/-! ## The sender's retry loop, `Assignment_1/Assignment_1/client.c` -/

/-- The message the sender prints for a datagram it has read (lines 225 to 245).
`silent` is the case in which no condition of the chain holds and nothing is printed. -/
inductive Message where
  | ackReceived
  | outOfSequence
  | lengthMismatch
  | endOfPacketMissing
  | duplicatePacket
  | silent
deriving DecidableEq, Repr

/-- The `else if` chain of lines 225 to 245 on `packetReceived`. -/
def classify (packetReceived : Reply) : Message :=
  if packetReceived.packet_type = ACK then .ackReceived
  else if packetReceived.packet_type = REJECT ∧
      packetReceived.rej_sub_code = some REJECT_OUT_OF_SEQUENCE then .outOfSequence
  else if packetReceived.packet_type = REJECT ∧
      packetReceived.rej_sub_code = some REJECT_LENGTH_MISMATCH then .lengthMismatch
  else if packetReceived.packet_type = REJECT ∧
      packetReceived.rej_sub_code = some REJECT_END_OF_PACKET_MISSING then .endOfPacketMissing
  else if packetReceived.packet_type = REJECT ∧
      packetReceived.rej_sub_code = some REJECT_DUPLICATE_PACKET then .duplicatePacket
  else .silent

/-- What the network does with one `sendto` of the sender followed by one `recvfrom`:
from its own state and the datagram sent it yields its next state, the return value of
`recvfrom` (`time_temp`) and the datagram read, if one was read (a positive count comes
with a datagram). `none`: the peer has no defined behaviour on this datagram. -/
abbrev Network (σ : Type) : Type := σ → DataPacket → Option (σ × Int × Option Reply)

/-- The record of the work done for one unit. -/
structure UnitReport where
  /-- The datagrams passed to `sendto`, in order. -/
  transmitted : List DataPacket
  /-- The final value of `resendCt`. -/
  resendCt : Nat
  /-- The datagrams read by a `recvfrom` that returned a positive count, in order. -/
  seen : List Reply
  /-- The messages printed for the datagrams read. -/
  messages : List Message
  /-- Whether `exit(0)` of line 250 was reached. -/
  exited : Bool
deriving DecidableEq, Repr

/-- The `while (time_temp <= 0 && resendCt < MAX_TRIES)` loop of lines 202 to 253 for one
prepared `dataPacket`. `fuel` bounds the number of iterations; `none` is returned when it
runs out or when the network has no defined behaviour. -/
def retry_loop {σ : Type} (network : Network σ) (dataPacket : DataPacket) :
    Nat → σ → Int → Nat → UnitReport → Option (σ × UnitReport)
  | fuel, net, time_temp, resendCt, report =>
    if time_temp ≤ 0 ∧ resendCt < MAX_TRIES then
      match fuel with
      | 0 => none
      | fuel + 1 =>
        match network net dataPacket with
        | none => none
        | some (net', time_temp', datagram) =>
          let resendCt' := if time_temp' ≤ 0 then resendCt + 1 else resendCt
          let read := if time_temp' ≤ 0 then [] else datagram.toList
          let report' : UnitReport :=
            { transmitted := report.transmitted ++ [dataPacket]
              resendCt := resendCt'
              seen := report.seen ++ read
              messages := report.messages ++ read.map classify
              exited := decide (resendCt' ≥ MAX_TRIES) }
          if resendCt' ≥ MAX_TRIES then some (net', report')
          else retry_loop network dataPacket fuel net' time_temp' resendCt' report'
    else some (net, report)

/-- The work done for one unit: `resendCt = 0`, `time_temp = 0` (lines 166, 167), then
the retry loop. -/
def send_unit {σ : Type} (network : Network σ) (net : σ) (dataPacket : DataPacket) :
    Option (σ × UnitReport) :=
  retry_loop network dataPacket MAX_TRIES net 0 0
    { transmitted := [], resendCt := 0, seen := [], messages := [], exited := false }

/-- The `for` loop of `main` on a list of prepared packets (the preparation of each
packet, lines 165 to 198, is done by the caller): one `send_unit` per packet, stopping
at the first `exit(0)`. -/
def send_units {σ : Type} (network : Network σ) : σ → List DataPacket →
    Option (σ × List UnitReport)
  | net, [] => some (net, [])
  | net, dataPacket :: rest =>
    match send_unit network net dataPacket with
    | none => none
    | some (net', report) =>
      if report.exited then some (net', [report])
      else
        match send_units network net' rest with
        | none => none
        | some (net'', reports) => some (net'', report :: reports)

end Client

/-! ## Sender and receiver joined by a channel without loss -/

/-- The size in bytes of the datagram passed to `sendto`: `sizeof(AckPacket)` is 10 and
`sizeof(RejectPacket)` is 12. -/
def Reply.size : Reply → Int
  | .ack _ => 10
  | .reject _ => 12

/-- The network in which every datagram of the sender reaches the receiver of
`server.c` and the receiver's reply reaches the sender before the timeout. When the
receiver sends nothing, `recvfrom` times out and returns `-1`. -/
def lossless : Client.Network Server.State := fun st dataPacket =>
  match Server.main_iteration st dataPacket with
  | none => none
  | some o =>
    match o.sent with
    | [] => some (o.state, -1, none)
    | reply :: _ => some (o.state, reply.size, some reply)

/-- A unit as the claims call well-formed: end marker `0xFFFF` and declared length equal
to the string length of the payload, the value that `strlen(dataPacket.pload)` has at the
receiver. -/
def WellFormedUnit (p : DataPacket) : Prop :=
  p.end_packet_identifier = 0xFFFF ∧ Server.payloadLength p = some p.plen

instance (p : DataPacket) : Decidable (WellFormedUnit p) := by
  unfold WellFormedUnit; infer_instance

end Transfer

namespace Auth

/-! ## The authorization receiver, `Assignment_2/Assignment_2/server.c` -/

def NUM_OF_SUBS : Nat := 10

def ACCESS_PERM : Nat := 0xFFF8
def NOT_PAID : Nat := 0xFFF9
def NOT_EXIST : Nat := 0xFFFA
def ACCESS_OK : Nat := 0xFFFB

/-- The `PermissionPacket` struct. `permission` is `none` while it has not been
assigned. -/
structure PermissionPacket where
  start_packet_identifier : Nat
  client_id : Nat
  permission : Option Nat
  seg_no : Nat
  plen : Nat
  technology : Nat
  src_sub_no : Nat
  end_packet_identifier : Nat
deriving DecidableEq, Repr

/-- The `ServerData` struct: one record of the verification database. -/
structure ServerData where
  sub_info : Nat
  technology : Nat
  status : Int
deriving DecidableEq, Repr

/-- `initializingPermissionPacket` of `server.c`: copies seven fields and leaves
`permission` unassigned. -/
def initializingPermissionPacket (receivedPacket : PermissionPacket) : PermissionPacket :=
  { start_packet_identifier := receivedPacket.start_packet_identifier
    client_id := receivedPacket.client_id
    permission := none
    seg_no := receivedPacket.seg_no
    plen := receivedPacket.plen
    technology := receivedPacket.technology
    src_sub_no := receivedPacket.src_sub_no
    end_packet_identifier := receivedPacket.end_packet_identifier }

/-- The `for (int i = 0; i < NUM_OF_SUBS; i++)` loop of `verifyUser`, entered at index
`i` with `verify = -1`. `fuel` bounds the number of iterations. -/
def verifyUser_loop (serverData : Fin NUM_OF_SUBS → ServerData) (src_sub_no technology : Nat) :
    Nat → Nat → Int
  | 0, _ => -1
  | fuel + 1, i =>
    if h : i < NUM_OF_SUBS then
      if (serverData ⟨i, h⟩).sub_info = src_sub_no ∧
          (serverData ⟨i, h⟩).technology = technology then
        (serverData ⟨i, h⟩).status
      else verifyUser_loop serverData src_sub_no technology fuel (i + 1)
    else -1

/-- `verifyUser` of `server.c` on the array `ServerData serverData[NUM_OF_SUBS]`. -/
def verifyUser (serverData : Fin NUM_OF_SUBS → ServerData) (src_sub_no technology : Nat) :
    Int :=
  verifyUser_loop serverData src_sub_no technology NUM_OF_SUBS 0

/-- One iteration of `while (1)` in `main` (lines 136 to 156). `sendPacket` is the
content of the local of that name when the iteration starts (`none` before its first
assignment), `time_temp` the return value of `recvfrom`. The result is the content of
`sendPacket` afterwards and the datagrams passed to `sendto`. -/
def main_iteration (serverData : Fin NUM_OF_SUBS → ServerData)
    (sendPacket : Option PermissionPacket) (time_temp : Int)
    (receivedPacket : PermissionPacket) :
    Option PermissionPacket × List PermissionPacket :=
  if time_temp ≥ 0 ∧ receivedPacket.permission = some ACCESS_PERM then
    let sendPacket := initializingPermissionPacket receivedPacket
    let verify := verifyUser serverData receivedPacket.src_sub_no receivedPacket.technology
    let sendPacket :=
      if verify = -1 then { sendPacket with permission := some NOT_EXIST }
      else if verify = 0 then { sendPacket with permission := some NOT_PAID }
      else if verify = 1 then { sendPacket with permission := some ACCESS_OK }
      else sendPacket
    (some sendPacket, [sendPacket])
  else (sendPacket, [])

/-- The receive loop run on a finite stream of `recvfrom` results: the final content of
`sendPacket` and the datagrams sent, in order. -/
def main_loop (serverData : Fin NUM_OF_SUBS → ServerData) :
    Option PermissionPacket → List (Int × PermissionPacket) →
    Option PermissionPacket × List PermissionPacket
  | sendPacket, [] => (sendPacket, [])
  | sendPacket, (time_temp, receivedPacket) :: rest =>
    let r := main_iteration serverData sendPacket time_temp receivedPacket
    let r' := main_loop serverData r.1 rest
    (r'.1, r.2 ++ r'.2)

/-- The table whose first records are those of `records` and whose remaining records
are `filler`. -/
def tableOf (records : List ServerData) (filler : ServerData) :
    Fin NUM_OF_SUBS → ServerData :=
  fun i => records.getD i.val filler

end Auth

namespace Transfer

/-- A packet carrying the fixed header fields that the sender's `initializeDataPacket`
sets, the given sequence number, declared length and end marker, the bytes `text`
followed by NUL bytes up to the 255 bytes of `pload`, and a zero alignment byte. -/
def packetOf (seg_no plen : Nat) (text : List Nat) (end_packet_identifier : Nat) :
    DataPacket :=
  { start_packet_identifier := START_PACKET_IDENTIFIER
    client_id := CLIENT_ID
    packet_type := DATA
    seg_no := seg_no
    plen := plen
    pload := text ++ List.replicate (255 - text.length) 0
    padding := 0
    end_packet_identifier := end_packet_identifier }

end Transfer

namespace Transfer

namespace Client

/-! ## The sender's `main`, `Assignment_1/Assignment_1/client.c` -/

/-- The network that answers the successive `recvfrom` calls of the sender with the
outcomes of a script, each a return value and the datagram read, if any. When the script
is used up nothing arrives any more: `recvfrom` returns `-1`. -/
def scripted : Network (List (Int × Option Reply)) := fun script _ =>
  match script with
  | [] => some ([], -1, none)
  | (time_temp, datagram) :: rest => some (rest, time_temp, datagram)

/-- `initializeDataPacket` of `client.c`. The local it returns is not initialized:
`uninit` is its indeterminate content, of which `seg_no`, `plen`, `pload` and the
alignment byte `padding` remain. -/
def initializeDataPacket (uninit : DataPacket) : DataPacket :=
  { uninit with
    start_packet_identifier := START_PACKET_IDENTIFIER
    client_id := CLIENT_ID
    packet_type := DATA
    end_packet_identifier := END_PACKET_IDENTIFIER }

/-- The characters that `fgets` with room for `n` more characters stores from `file`,
and the rest of the file: it stops after a newline (byte 10) and at the end of file. -/
def fgets_chars : Nat → List Nat → List Nat × List Nat
  | 0, file => ([], file)
  | _ + 1, [] => ([], [])
  | n + 1, c :: cs =>
    if c = 10 then ([c], cs)
    else ((fgets_chars n cs).1.cons c, (fgets_chars n cs).2)

/-- C `fgets(buffer, size, file)` on the unread bytes of an open file: `none` (NULL) at
the end of file, otherwise the characters stored before the terminating NUL, at most
`size - 1` of them, and the bytes left unread. -/
def fgets (size : Nat) (file : List Nat) : Option (List Nat × List Nat) :=
  if file = [] then none else some (fgets_chars (size - 1) file)

/-- C `strcpy(dst, src)`: the bytes of `src` before its first NUL and one NUL byte are
written at the start of `dst`; the bytes of `dst` behind them stay. -/
def strcpy (dst src : List Nat) : List Nat :=
  src.takeWhile (fun c => c ≠ 0) ++ [0] ++ dst.drop ((src.takeWhile (fun c => c ≠ 0)).length + 1)

/-- Lines 169 to 198 of the `for` loop: the packet of the unit with counter `seqNo`
(already incremented at line 165), from the packet of the unit before and the result
`fpload` of `fgets` (`none` when it returned NULL). The `uint8_t` fields are reduced
modulo 256. `strlen` at line 174 is applied to an array that holds a NUL as soon as one
line has been read: `strcpy` writes it. When `fgets` returns NULL from the first unit on,
the array is the indeterminate content of `initializeDataPacket`; for such a content
without NUL the C value is not determined by the packet, and the model takes the length of
the list. -/
def prepare (seqNo : Nat) (dataPacket : DataPacket) (fpload : Option (List Nat)) :
    DataPacket :=
  let dataPacket : DataPacket :=
    match fpload with
    | some src => { dataPacket with pload := strcpy dataPacket.pload src }
    | none => dataPacket
  let dataPacket : DataPacket := { dataPacket with plen := strlen dataPacket.pload % 256 }
  let dataPacket : DataPacket := { dataPacket with seg_no := seqNo % 256 }
  let dataPacket : DataPacket :=
    if seqNo = 7 then { dataPacket with seg_no := (dataPacket.seg_no + 8) % 256 }
    else if seqNo = 8 then { dataPacket with plen := (dataPacket.plen + 6) % 256 }
    else if seqNo = 9 then { dataPacket with end_packet_identifier := 0 }
    else if seqNo = 10 then { dataPacket with seg_no := 1 }
    else dataPacket
  if seqNo ≠ 9 then { dataPacket with end_packet_identifier := END_PACKET_IDENTIFIER }
  else dataPacket

/-- The packets that the `for (int i = 0; i < 10; i++)` loop prepares when it runs to
its end, in order: `n` is the number of iterations left, `seqNo` and `dataPacket` are
the locals of those names before the iteration, `file` is the unread part of
`payload.txt`. -/
def main_units : Nat → Nat → DataPacket → List Nat → List DataPacket
  | 0, _, _, _ => []
  | n + 1, seqNo, dataPacket, file =>
    match fgets 255 file with
    | some (fpload, rest) =>
      (prepare (seqNo + 1) dataPacket (some fpload)) ::
        main_units n (seqNo + 1) (prepare (seqNo + 1) dataPacket (some fpload)) rest
    | none =>
      (prepare (seqNo + 1) dataPacket none) ::
        main_units n (seqNo + 1) (prepare (seqNo + 1) dataPacket none) file

/-- The sender's `main` with `payload.txt` open on the bytes `file`: the ten units are
prepared from `seqNo = 0` and the packet of `initializeDataPacket`, and each is sent by
the retry loop until the first `exit(0)`. -/
def main {σ : Type} (network : Network σ) (net : σ) (uninit : DataPacket) (file : List Nat) :
    Option (σ × List UnitReport) :=
  send_units network net (main_units 10 0 (initializeDataPacket uninit) file)

end Client

namespace Server

/-- The duplicate condition in the words of the specification: the count of the
sequence number, after the increment, is greater than 1. -/
def spec_duplicate (seen_count : Int) : Prop := seen_count > 1

instance (seen_count : Int) : Decidable (spec_duplicate seen_count) := by
  unfold spec_duplicate; infer_instance

end Server

end Transfer

namespace Auth

namespace Client

/-! ## The sender's retry loop, `Assignment_2/Assignment_2/client.c`

The sender's `PermissionPacket` has the layout of the receiver's; its fields `pk_start_id`,
`cid`, `tech` and `pk_end_id` are the receiver's `start_packet_identifier`, `client_id`,
`technology` and `end_packet_identifier`. -/

def MAX_TRIES : Nat := 3

/-- The message the sender prints for a datagram it has read (lines 156 to 162).
`silent` is the case in which no condition of the chain holds and nothing is printed. -/
inductive Message where
  | notPaid
  | notExist
  | accessOk
  | silent
deriving DecidableEq, Repr

/-- The `else if` chain of lines 156 to 162 on `returnedPacket`. -/
def classify (returnedPacket : PermissionPacket) : Message :=
  if returnedPacket.permission = some NOT_PAID then .notPaid
  else if returnedPacket.permission = some NOT_EXIST then .notExist
  else if returnedPacket.permission = some ACCESS_OK then .accessOk
  else .silent

/-- What the network does with one `sendto` of the sender followed by one `recvfrom`:
its next state, the return value of `recvfrom` (`time_temp`) and the datagram read, if
one was read. `none`: the peer has no defined behaviour on this datagram. -/
abbrev Network (σ : Type) : Type :=
  σ → PermissionPacket → Option (σ × Int × Option PermissionPacket)

/-- The record of the work done for one unit. -/
structure UnitReport where
  /-- The datagrams passed to `sendto`, in order. -/
  transmitted : List PermissionPacket
  /-- The final value of `resendCt`. -/
  resendCt : Nat
  /-- The datagrams read by a `recvfrom` that returned a positive count, in order. -/
  seen : List PermissionPacket
  /-- The messages printed for the datagrams read. -/
  messages : List Message
  /-- Whether `exit(0)` of line 167 was reached. -/
  exited : Bool
deriving DecidableEq, Repr

/-- The `while (time_temp <= 0 && resendCt < MAX_TRIES)` loop of lines 139 to 169 for one
prepared `permissionRequestPacket`. `fuel` bounds the number of iterations; `none` is
returned when it runs out or when the network has no defined behaviour. -/
def retry_loop {σ : Type} (network : Network σ) (permissionRequestPacket : PermissionPacket) :
    Nat → σ → Int → Nat → UnitReport → Option (σ × UnitReport)
  | fuel, net, time_temp, resendCt, report =>
    if time_temp ≤ 0 ∧ resendCt < MAX_TRIES then
      match fuel with
      | 0 => none
      | fuel + 1 =>
        match network net permissionRequestPacket with
        | none => none
        | some (net', time_temp', datagram) =>
          let resendCt' := if time_temp' ≤ 0 then resendCt + 1 else resendCt
          let read := if time_temp' ≤ 0 then [] else datagram.toList
          let report' : UnitReport :=
            { transmitted := report.transmitted ++ [permissionRequestPacket]
              resendCt := resendCt'
              seen := report.seen ++ read
              messages := report.messages ++ read.map classify
              exited := decide (resendCt' ≥ MAX_TRIES) }
          if resendCt' ≥ MAX_TRIES then some (net', report')
          else retry_loop network permissionRequestPacket fuel net' time_temp' resendCt' report'
    else some (net, report)

/-- The work done for one unit: `resendCt = 0`, `time_temp = 0` (lines 117, 118), then
the retry loop. -/
def send_unit {σ : Type} (network : Network σ) (net : σ)
    (permissionRequestPacket : PermissionPacket) : Option (σ × UnitReport) :=
  retry_loop network permissionRequestPacket MAX_TRIES net 0 0
    { transmitted := [], resendCt := 0, seen := [], messages := [], exited := false }

/-- The `for` loop of `main` on a list of prepared packets (the preparation of each
packet, lines 116 to 136, is done by the caller): one `send_unit` per packet, stopping
at the first `exit(0)`. -/
def send_units {σ : Type} (network : Network σ) : σ → List PermissionPacket →
    Option (σ × List UnitReport)
  | net, [] => some (net, [])
  | net, permissionRequestPacket :: rest =>
    match send_unit network net permissionRequestPacket with
    | none => none
    | some (net', report) =>
      if report.exited then some (net', [report])
      else
        match send_units network net' rest with
        | none => none
        | some (net'', reports) => some (net'', report :: reports)

/-- The network that answers the successive `recvfrom` calls of the sender with the
outcomes of a script, each a return value and the datagram read, if any. When the script
is used up nothing arrives any more: `recvfrom` returns `-1`. -/
def scripted : Network (List (Int × Option PermissionPacket)) := fun script _ =>
  match script with
  | [] => some ([], -1, none)
  | (time_temp, datagram) :: rest => some (rest, time_temp, datagram)

end Client

end Auth

namespace Transfer

namespace Server

/-- The sequence numbers, in order, of the packets of a stream whose reply, at the same
position of `replies`, has packet type ACK. -/
def acknowledged (pkts : List DataPacket) (replies : List Reply) : List Nat :=
  ((pkts.zip replies).filter (fun x => x.2.packet_type = ACK)).map (fun x => x.1.seg_no)

end Server

end Transfer

/-! # Theorems -/

namespace Transfer

namespace Server

theorem bump_self (buf : Fin 50 → Int) (i : Fin 50) : bump buf i i = buf i + 1 := by
  simp [bump]

theorem bump_other (buf : Fin 50 → Int) {i j : Fin 50} (hne : j ≠ i) :
    bump buf i j = buf j := by
  simp [bump, hne]

/-- The last condition of the chain is the negation of the second one: the chain never
ends in `fallThrough`. -/
theorem chain_ne_fallThrough (count e : Int) (len : Option Nat) (p : DataPacket) :
    chain count e len p ≠ .fallThrough := by
  unfold chain
  split_ifs <;> simp_all

/-- With an index inside the table, an iteration is defined, increments the entry of the
packet's sequence number, and its arm is the one `chain` selects. -/
theorem main_iteration_spec (st : State) (p : DataPacket) (h : p.seg_no < 50) :
    ∃ o, main_iteration st p = some o ∧
      o.state.seq_buffer = bump st.seq_buffer ⟨p.seg_no, h⟩ ∧
      o.branch = chain (st.seq_buffer ⟨p.seg_no, h⟩ + 1) st.expectedPackNum
        (Server.payloadLength p) p ∧
      o.state.expectedPackNum = st.expectedPackNum + 1 ∧
      o.sent = (match o.branch with
        | .duplicate => [rejectWith p REJECT_DUPLICATE_PACKET]
        | .outOfSequence => [rejectWith p REJECT_OUT_OF_SEQUENCE]
        | .lengthMismatch => [rejectWith p REJECT_LENGTH_MISMATCH]
        | .endMissing => [rejectWith p REJECT_END_OF_PACKET_MISSING]
        | .accept => [.ack (initializeAck p)]
        | .fallThrough => []) := by
  have hne := chain_ne_fallThrough (st.seq_buffer ⟨p.seg_no, h⟩ + 1) st.expectedPackNum
    (Server.payloadLength p) p
  simp only [main_iteration, h, dite_true, bump_self]
  cases hc : chain (st.seq_buffer ⟨p.seg_no, h⟩ + 1) st.expectedPackNum
    (Server.payloadLength p) p <;> simp_all

/-- The reply codes of one iteration: `none` when the iteration is undefined, otherwise
the `(packet_type, rej_sub_code)` pairs of the datagrams sent. -/
theorem answer_eq (st : State) (p : DataPacket) (h : p.seg_no < 50) :
    (main_iteration st p).map Outcome.codes =
      some (match chain (st.seq_buffer ⟨p.seg_no, h⟩ + 1) st.expectedPackNum
          (Server.payloadLength p) p with
        | .duplicate => [(REJECT, some REJECT_DUPLICATE_PACKET)]
        | .outOfSequence => [(REJECT, some REJECT_OUT_OF_SEQUENCE)]
        | .lengthMismatch => [(REJECT, some REJECT_LENGTH_MISMATCH)]
        | .endMissing => [(REJECT, some REJECT_END_OF_PACKET_MISSING)]
        | .accept => [(ACK, none)]
        | .fallThrough => []) := by
  obtain ⟨o, ho, -, hb, -, hs⟩ := main_iteration_spec st p h
  rw [ho, ← hb]
  simp only [Option.map_some', Outcome.codes, hs]
  cases o.branch <;> rfl

/-- A payload that holds its NUL has the string length that `strlen` of the list gives. -/
theorem payloadLength_of_mem (p : DataPacket) (h : 0 ∈ p.pload) :
    payloadLength p = some (strlen p.pload) := by
  simp [payloadLength, h]

/-- When the string length of the payload bytes is not the declared length, neither is
the value that the receiver computes. -/
theorem payloadLength_ne (p : DataPacket) (h : strlen p.pload ≠ p.plen) :
    payloadLength p ≠ some p.plen := by
  unfold payloadLength
  split_ifs
  · simpa using h
  · simp

set_option maxRecDepth 10000 in
/-- C1. Classification order of the transfer receiver. For every receiver state and
every inbound packet with sequence number below 50, exactly one datagram is sent and it
is decided by the first condition that holds, in the order: seen before (count after the
increment is not 1) gives REJECT 0xFFF3 with subcode 0xFFF7; sequence number different
from the expected one gives subcode 0xFFF4; the value of `strlen(dataPacket.pload)`
different from the declared length gives subcode 0xFFF5; end marker different from 0xFFFF
gives subcode 0xFFF6; otherwise ACK 0xFFF2. Conjuncts six and seven are the two
co-occurrence cases: duplicate and out of sequence gives DUPLICATE; out of sequence with
wrong length and bad end marker gives OUT_OF_SEQUENCE. The last two conjuncts are the
first packet with a payload of 255 bytes 97, hence without NUL, and declared length 255:
with alignment byte 0 `strlen` stops there at 255 and the reply is ACK; with alignment
byte 1 it runs on and the reply is LENGTH_MISMATCH. -/
theorem C1_classification_order (st : State) (p : DataPacket) (h : p.seg_no < 50) :
    (st.seq_buffer ⟨p.seg_no, h⟩ + 1 ≠ 1 →
      (main_iteration st p).map Outcome.codes = some [(0xFFF3, some 0xFFF7)]) ∧
    (st.seq_buffer ⟨p.seg_no, h⟩ + 1 = 1 → (p.seg_no : Int) ≠ st.expectedPackNum →
      (main_iteration st p).map Outcome.codes = some [(0xFFF3, some 0xFFF4)]) ∧
    (st.seq_buffer ⟨p.seg_no, h⟩ + 1 = 1 → (p.seg_no : Int) = st.expectedPackNum →
      payloadLength p ≠ some p.plen →
      (main_iteration st p).map Outcome.codes = some [(0xFFF3, some 0xFFF5)]) ∧
    (st.seq_buffer ⟨p.seg_no, h⟩ + 1 = 1 → (p.seg_no : Int) = st.expectedPackNum →
      payloadLength p = some p.plen → p.end_packet_identifier ≠ 0xFFFF →
      (main_iteration st p).map Outcome.codes = some [(0xFFF3, some 0xFFF6)]) ∧
    (st.seq_buffer ⟨p.seg_no, h⟩ + 1 = 1 → (p.seg_no : Int) = st.expectedPackNum →
      payloadLength p = some p.plen → p.end_packet_identifier = 0xFFFF →
      (main_iteration st p).map Outcome.codes = some [(0xFFF2, none)]) ∧
    (st.seq_buffer ⟨p.seg_no, h⟩ + 1 ≠ 1 → (p.seg_no : Int) ≠ st.expectedPackNum →
      (main_iteration st p).map Outcome.codes = some [(0xFFF3, some 0xFFF7)]) ∧
    (st.seq_buffer ⟨p.seg_no, h⟩ + 1 = 1 → (p.seg_no : Int) ≠ st.expectedPackNum →
      payloadLength p ≠ some p.plen → p.end_packet_identifier ≠ 0xFFFF →
      (main_iteration st p).map Outcome.codes = some [(0xFFF3, some 0xFFF4)]) ∧
    (main_iteration State.init (packetOf 1 255 (List.replicate 255 97) 0xFFFF)).map
      Outcome.codes = some [(0xFFF2, none)] ∧
    (main_iteration State.init
      { packetOf 1 255 (List.replicate 255 97) 0xFFFF with padding := 1 }).map
      Outcome.codes = some [(0xFFF3, some 0xFFF5)] := by
  refine ⟨?_, ?_, ?_, ?_, ?_, ?_, ?_, by decide, by decide⟩ <;>
    (rw [answer_eq st p h]; intros;
     simp_all [chain, END_PACKET_IDENTIFIER, REJECT, ACK, REJECT_DUPLICATE_PACKET,
      REJECT_OUT_OF_SEQUENCE, REJECT_LENGTH_MISMATCH, REJECT_END_OF_PACKET_MISSING])

/-- Witness of C1 at the fresh receiver and a well-formed first packet. -/
theorem C1_classification_order_witness :
    (packetOf 1 2 [104, 105] 0xFFFF).seg_no < 50 ∧
    (main_iteration State.init (packetOf 1 2 [104, 105] 0xFFFF)).map Outcome.codes =
      some [(0xFFF2, none)] :=
  ⟨by decide,
   (C1_classification_order State.init (packetOf 1 2 [104, 105] 0xFFFF) (by decide)).2.2.2.2.1
     (by decide) (by decide) (by decide) (by decide)⟩

/-- The receive loop on a stream whose sequence numbers are all below 50: it is defined,
the expected number has grown by the number of packets, one datagram was sent for each
packet, and every table entry has grown by the number of packets that carry its index. -/
theorem main_loop_spec (pkts : List DataPacket) (hs : ∀ q ∈ pkts, q.seg_no < 50) :
    ∀ st : State, ∃ st' replies, main_loop st pkts = some (st', replies) ∧
      st'.expectedPackNum = st.expectedPackNum + pkts.length ∧
      replies.length = pkts.length ∧
      ∀ i : Fin 50, st'.seq_buffer i =
        st.seq_buffer i + (pkts.filter (fun q => q.seg_no = i.val)).length := by
  induction pkts with
  | nil => intro st; exact ⟨st, [], rfl, by simp, rfl, by simp⟩
  | cons p rest ih =>
    intro st
    have hp : p.seg_no < 50 := hs p (List.mem_cons_self _ _)
    obtain ⟨o, ho, hbuf, hb, he, hsent⟩ := main_iteration_spec st p hp
    obtain ⟨st', replies, hrun, hexp, hlen, hcnt⟩ :=
      ih (fun q hq => hs q (List.mem_cons_of_mem _ hq)) o.state
    have hne := chain_ne_fallThrough (st.seq_buffer ⟨p.seg_no, hp⟩ + 1) st.expectedPackNum
      (Server.payloadLength p) p
    have hone : o.sent.length = 1 := by
      rw [hsent]; rw [← hb] at hne
      cases hbr : o.branch <;> simp_all
    refine ⟨st', o.sent ++ replies, by simp [main_loop, ho, hrun], ?_, ?_, ?_⟩
    · rw [hexp, he, List.length_cons]; push_cast; ring
    · simp [hone, hlen]; omega
    · intro i
      rw [hcnt i, hbuf]
      by_cases hi : i = ⟨p.seg_no, hp⟩
      · subst hi
        simp [bump_self, List.filter_cons]; ring
      · have hv : ¬ p.seg_no = i.val := fun hv => hi (Fin.ext hv.symm)
        simp [bump_other _ hi, List.filter_cons, hv]

/-- C2. Always-advance rule of the transfer receiver. Every processed inbound packet
(sequence number below 50) leaves `expectedPackNum` exactly one higher, whichever of
the five arms (ACK or one of the four rejections) is taken; and the receive loop started
in the initial state (expected number 1) on any stream of `n` packets with sequence
numbers below 50 ends with expected number `n + 1`. -/
theorem C2_always_advance (st : State) (p : DataPacket) (pkts : List DataPacket)
    (hp : p.seg_no < 50) (hs : ∀ q ∈ pkts, q.seg_no < 50) :
    (∃ o, main_iteration st p = some o ∧
      o.branch ∈ [Branch.duplicate, .outOfSequence, .lengthMismatch, .endMissing, .accept] ∧
      o.state.expectedPackNum = st.expectedPackNum + 1) ∧
    (∃ st' replies, main_loop State.init pkts = some (st', replies) ∧
      st'.expectedPackNum = (pkts.length : Int) + 1) := by
  constructor
  · obtain ⟨o, ho, -, hb, he, -⟩ := main_iteration_spec st p hp
    have hne := chain_ne_fallThrough (st.seq_buffer ⟨p.seg_no, hp⟩ + 1) st.expectedPackNum
      (Server.payloadLength p) p
    rw [← hb] at hne
    refine ⟨o, ho, ?_, he⟩
    cases hbr : o.branch <;> simp_all
  · obtain ⟨st', replies, hrun, hexp, -, -⟩ := main_loop_spec pkts hs State.init
    exact ⟨st', replies, hrun, by rw [hexp]; simp [State.init]; ring⟩

/-- Witness of C2: a rejected packet in a state that expects 1, and a stream of three
packets answered ACK, OUT_OF_SEQUENCE and DUPLICATE. -/
theorem C2_always_advance_witness :
    (packetOf 7 2 [104, 105] 0xFFFF).seg_no < 50 ∧
    (∀ q ∈ [packetOf 1 1 [97] 0xFFFF, packetOf 7 1 [98] 0xFFFF, packetOf 1 1 [97] 0xFFFF],
      q.seg_no < 50) ∧
    (∃ o, main_iteration State.init (packetOf 7 2 [104, 105] 0xFFFF) = some o ∧
      o.branch ∈ [Branch.duplicate, .outOfSequence, .lengthMismatch, .endMissing, .accept] ∧
      o.state.expectedPackNum = State.init.expectedPackNum + 1) ∧
    (∃ st' replies, main_loop State.init
        [packetOf 1 1 [97] 0xFFFF, packetOf 7 1 [98] 0xFFFF, packetOf 1 1 [97] 0xFFFF] =
          some (st', replies) ∧
      st'.expectedPackNum =
        (([packetOf 1 1 [97] 0xFFFF, packetOf 7 1 [98] 0xFFFF,
          packetOf 1 1 [97] 0xFFFF].length : Nat) : Int) + 1) :=
  ⟨by decide, by decide,
   C2_always_advance State.init (packetOf 7 2 [104, 105] 0xFFFF)
     [packetOf 1 1 [97] 0xFFFF, packetOf 7 1 [98] 0xFFFF, packetOf 1 1 [97] 0xFFFF]
     (by decide) (by decide)⟩

/-- C3. Exactly one outcome. For every receiver state and every inbound packet with
sequence number below 50 the iteration is defined, takes exactly one of the five arms
of the chain, never the fall-through case (the final guard `seg_no == expectedPackNum`
holds whenever the four conditions before it fail), and sends exactly one datagram,
which is an ACK exactly in the accepting arm and a REJECT in the four others. -/
theorem C3_exactly_one_outcome (st : State) (p : DataPacket) (h : p.seg_no < 50) :
    ∃ o r, main_iteration st p = some o ∧
      (∃! b, b ∈ [Branch.duplicate, .outOfSequence, .lengthMismatch, .endMissing, .accept] ∧
        o.branch = b) ∧
      o.branch ≠ .fallThrough ∧
      (st.seq_buffer ⟨p.seg_no, h⟩ + 1 = 1 → ¬ ((p.seg_no : Int) ≠ st.expectedPackNum) →
        ¬ ((strlen p.pload : Int) ≠ p.plen) →
        ¬ (p.end_packet_identifier ≠ END_PACKET_IDENTIFIER) →
        (p.seg_no : Int) = st.expectedPackNum) ∧
      o.sent = [r] ∧
      (o.branch = .accept → r.packet_type = ACK) ∧
      (o.branch ≠ .accept → r.packet_type = REJECT) := by
  obtain ⟨o, ho, -, hb, -, hsent⟩ := main_iteration_spec st p h
  have hne := chain_ne_fallThrough (st.seq_buffer ⟨p.seg_no, h⟩ + 1) st.expectedPackNum
    (Server.payloadLength p) p
  rw [← hb] at hne
  have huniq : ∃! b, b ∈ [Branch.duplicate, .outOfSequence, .lengthMismatch, .endMissing,
      .accept] ∧ o.branch = b := by
    refine ⟨o.branch, ⟨?_, rfl⟩, fun b hb' => hb'.2.symm⟩
    cases hbr : o.branch <;> simp_all
  have hguard : st.seq_buffer ⟨p.seg_no, h⟩ + 1 = 1 →
      ¬ ((p.seg_no : Int) ≠ st.expectedPackNum) → ¬ ((strlen p.pload : Int) ≠ p.plen) →
      ¬ (p.end_packet_identifier ≠ END_PACKET_IDENTIFIER) →
      (p.seg_no : Int) = st.expectedPackNum := fun _ h2 _ _ => not_not.mp h2
  cases hbr : o.branch with
  | fallThrough => exact absurd hbr hne
  | duplicate =>
    exact ⟨o, rejectWith p REJECT_DUPLICATE_PACKET, ho, huniq, hne, hguard,
      by simp [hsent, hbr], by simp [hbr], by intro; rfl⟩
  | outOfSequence =>
    exact ⟨o, rejectWith p REJECT_OUT_OF_SEQUENCE, ho, huniq, hne, hguard,
      by simp [hsent, hbr], by simp [hbr], by intro; rfl⟩
  | lengthMismatch =>
    exact ⟨o, rejectWith p REJECT_LENGTH_MISMATCH, ho, huniq, hne, hguard,
      by simp [hsent, hbr], by simp [hbr], by intro; rfl⟩
  | endMissing =>
    exact ⟨o, rejectWith p REJECT_END_OF_PACKET_MISSING, ho, huniq, hne, hguard,
      by simp [hsent, hbr], by simp [hbr], by intro; rfl⟩
  | accept =>
    exact ⟨o, .ack (initializeAck p), ho, huniq, hne, hguard,
      by simp [hsent, hbr], by intro; rfl, by simp [hbr]⟩

/-- Witness of C3: a packet with sequence number 3 and end marker 0 at the fresh
receiver is answered by exactly one datagram. -/
theorem C3_exactly_one_outcome_witness :
    (packetOf 3 1 [97] 0).seg_no < 50 ∧
    ∃ o r, main_iteration State.init (packetOf 3 1 [97] 0) = some o ∧ o.sent = [r] ∧
      o.branch ≠ .fallThrough :=
  ⟨by decide,
   match C3_exactly_one_outcome State.init (packetOf 3 1 [97] 0) (by decide) with
   | ⟨o, r, ho, _, hne, _, hs, _, _⟩ => ⟨o, r, ho, hs, hne⟩⟩

end Server

end Transfer

namespace Transfer

/-- An iteration with an index inside the table sends exactly one datagram. -/
theorem Server.main_iteration_one (st : Server.State) (p : DataPacket) (h : p.seg_no < 50) :
    ∃ o r, Server.main_iteration st p = some o ∧ o.sent = [r] ∧
      o.state.expectedPackNum = st.expectedPackNum + 1 ∧
      o.state.seq_buffer = Server.bump st.seq_buffer ⟨p.seg_no, h⟩ := by
  obtain ⟨o, ho, hbuf, hb, he, hsent⟩ := Server.main_iteration_spec st p h
  have hne := Server.chain_ne_fallThrough (st.seq_buffer ⟨p.seg_no, h⟩ + 1)
    st.expectedPackNum (Server.payloadLength p) p
  rw [← hb] at hne
  have hone : ∃ r, o.sent = [r] := by
    rw [hsent]
    cases hbr : o.branch with
    | fallThrough => exact absurd hbr hne
    | _ => exact ⟨_, rfl⟩
  obtain ⟨r, hr⟩ := hone
  exact ⟨o, r, ho, hr, he, hbuf⟩

/-- On the channel without loss, a unit with sequence number below 50 is transmitted
once: the receiver's single reply is read at the first `recvfrom`, `resendCt` stays 0 and
the loop ends without `exit`. -/
theorem send_unit_lossless (st : Server.State) (u : DataPacket) (h : u.seg_no < 50) :
    ∃ o r, Server.main_iteration st u = some o ∧ o.sent = [r] ∧
      Client.send_unit lossless st u = some (o.state,
        { transmitted := [u], resendCt := 0, seen := [r], messages := [Client.classify r],
          exited := false }) := by
  obtain ⟨o, r, ho, hs, -, -⟩ := Server.main_iteration_one st u h
  refine ⟨o, r, ho, hs, ?_⟩
  have hsize : ¬ r.size ≤ 0 := by cases r <;> simp [Reply.size]
  have hl : lossless st u = some (o.state, r.size, some r) := by
    simp [lossless, ho, hs]
  unfold Client.send_unit
  rw [Client.retry_loop.eq_def]
  simp only [MAX_TRIES, hl]
  simp [hsize]
  rw [Client.retry_loop.eq_def]
  simp [hsize]

end Transfer

namespace Transfer

/-- A well-formed packet that carries the expected number and has not been seen is
acknowledged. -/
theorem Server.accept_step (st : Server.State) (p : DataPacket) (h : p.seg_no < 50)
    (h0 : st.seq_buffer ⟨p.seg_no, h⟩ = 0) (he : (p.seg_no : Int) = st.expectedPackNum)
    (hw : WellFormedUnit p) :
    ∃ o, Server.main_iteration st p = some o ∧ o.sent = [.ack (Server.initializeAck p)] ∧
      o.state.expectedPackNum = st.expectedPackNum + 1 ∧
      o.state.seq_buffer = Server.bump st.seq_buffer ⟨p.seg_no, h⟩ := by
  obtain ⟨o, ho, hbuf, hb, hexp, hsent⟩ := Server.main_iteration_spec st p h
  have hc : o.branch = .accept := by
    rw [hb]
    simp [Server.chain, h0, he, hw.1, hw.2, END_PACKET_IDENTIFIER]
  rw [hc] at hsent
  exact ⟨o, ho, hsent, hexp, hbuf⟩

/-- The stream `k, k + 1, ...` of well-formed units, delivered without loss to a receiver
that expects `k` and has seen no number from `k` on: every unit is acknowledged, and the
sender transmits each unit once and reads one ACK for it. -/
theorem in_order_run (units : List DataPacket) :
    ∀ (st : Server.State) (k : Nat), st.expectedPackNum = (k : Int) →
      (∀ i : Fin 50, k ≤ i.val → st.seq_buffer i = 0) →
      (∀ u ∈ units, WellFormedUnit u) →
      units.map (fun u => u.seg_no) = List.range' k units.length →
      k + units.length ≤ 50 →
      (∃ st', Server.main_loop st units =
        some (st', units.map (fun u => Reply.ack (Server.initializeAck u)))) ∧
      (∃ net, Client.send_units lossless st units =
        some (net, units.map (fun u =>
          { transmitted := [u], resendCt := 0, seen := [Reply.ack (Server.initializeAck u)],
            messages := [Client.Message.ackReceived], exited := false }))) := by
  induction units with
  | nil => intro st k _ _ _ _ _; exact ⟨⟨st, rfl⟩, ⟨st, rfl⟩⟩
  | cons u rest ih =>
    intro st k hk hzero hwf hseq hlen
    simp only [List.map_cons, List.length_cons, List.range'_succ, List.cons.injEq] at hseq
    simp only [List.length_cons] at hlen
    have hu : u.seg_no < 50 := by omega
    have h0 : st.seq_buffer ⟨u.seg_no, hu⟩ = 0 := hzero _ (by simp [hseq.1])
    have he : (u.seg_no : Int) = st.expectedPackNum := by rw [hk, hseq.1]
    obtain ⟨o, ho, hsent, hexp, hbuf⟩ :=
      Server.accept_step st u hu h0 he (hwf u (List.mem_cons_self _ _))
    obtain ⟨o', r, ho', hs', hsend⟩ := send_unit_lossless st u hu
    rw [ho] at ho'
    cases ho'
    rw [hsent] at hs'
    cases hs'
    have hzero' : ∀ i : Fin 50, k + 1 ≤ i.val → o.state.seq_buffer i = 0 := by
      intro i hi
      have hne : i ≠ ⟨u.seg_no, hu⟩ := by
        intro heq
        have := congrArg Fin.val heq
        simp at this
        omega
      rw [hbuf, Server.bump_other _ hne]
      exact hzero i (by omega)
    obtain ⟨⟨st', hrun⟩, ⟨net, hsess⟩⟩ :=
      ih o.state (k + 1) (by rw [hexp, hk]; push_cast; ring) hzero'
        (fun v hv => hwf v (List.mem_cons_of_mem _ hv)) hseq.2 (by omega)
    refine ⟨⟨st', ?_⟩, ⟨net, ?_⟩⟩
    · simp [Server.main_loop, ho, hrun, hsent]
    · have hcl : Client.classify (Reply.ack (Server.initializeAck u)) =
          Client.Message.ackReceived := by
        simp [Client.classify, Reply.packet_type, Server.initializeAck]
      simp [Client.send_units, hsend, hsess, hcl]

/-- C4, as amended. For every list of well-formed units (end marker 0xFFFF, declared
length equal to the string length that `strlen(dataPacket.pload)` finds at the receiver)
whose sequence numbers are 1, 2, ..., n in this order (n at most 49), delivered without
loss to a freshly started receiver, the receiver answers every unit with ACK, and the
sender transmits each unit exactly once, with retry counter 0, reads exactly one ACK for
it and does not exit. -/
theorem C4_in_order_stream_acknowledged (units : List DataPacket)
    (hwf : ∀ u ∈ units, WellFormedUnit u)
    (hseq : units.map (fun u => u.seg_no) = List.range' 1 units.length)
    (hlen : units.length ≤ 49) :
    (∃ st', Server.main_loop Server.State.init units =
      some (st', units.map (fun u => Reply.ack (Server.initializeAck u)))) ∧
    (∃ net, Client.send_units lossless Server.State.init units =
      some (net, units.map (fun u =>
        { transmitted := [u], resendCt := 0, seen := [Reply.ack (Server.initializeAck u)],
          messages := [Client.Message.ackReceived], exited := false }))) :=
  in_order_run units Server.State.init 1 rfl (fun _ _ => rfl) hwf hseq (by omega)

/-- Witness of C4 as amended: the units 1 and 2. -/
theorem C4_in_order_stream_acknowledged_witness :
    (∀ u ∈ [packetOf 1 1 [97] 0xFFFF, packetOf 2 2 [104, 105] 0xFFFF], WellFormedUnit u) ∧
    (∃ net, Client.send_units lossless Server.State.init
        [packetOf 1 1 [97] 0xFFFF, packetOf 2 2 [104, 105] 0xFFFF] =
      some (net, [packetOf 1 1 [97] 0xFFFF, packetOf 2 2 [104, 105] 0xFFFF].map (fun u =>
        { transmitted := [u], resendCt := 0, seen := [Reply.ack (Server.initializeAck u)],
          messages := [Client.Message.ackReceived], exited := false }))) :=
  ⟨by decide,
   (C4_in_order_stream_acknowledged
     [packetOf 1 1 [97] 0xFFFF, packetOf 2 2 [104, 105] 0xFFFF]
     (by decide) (by decide) (by decide)).2⟩

set_option maxRecDepth 10000 in
/-- Counterexample to C4 as stated: the well-formed units 1 and 3 (each payload holds its
NUL) have strictly increasing sequence numbers, yet the fresh receiver answers the second
one with REJECT / OUT_OF_SEQUENCE, and that is what the sender reads for it. Besides, a
first unit with end marker 0xFFFF, 255 payload bytes none of which is NUL and declared
length 255 is answered REJECT / LENGTH_MISMATCH when the alignment byte behind the
payload array is not 0: `strlen` runs past the array. -/
theorem C4_counterexample :
    (∀ u ∈ [packetOf 1 1 [97] 0xFFFF, packetOf 3 1 [98] 0xFFFF],
      WellFormedUnit u ∧ 0 ∈ u.pload ∧ u.plen = strlen u.pload ∧ u.inRange) ∧
    List.Pairwise (fun a b : DataPacket => a.seg_no < b.seg_no)
      [packetOf 1 1 [97] 0xFFFF, packetOf 3 1 [98] 0xFFFF] ∧
    (Server.main_loop Server.State.init
        [packetOf 1 1 [97] 0xFFFF, packetOf 3 1 [98] 0xFFFF]).map
      (fun r => r.2.map Reply.codes) = some [(0xFFF2, none), (0xFFF3, some 0xFFF4)] ∧
    (Client.send_units lossless Server.State.init
        [packetOf 1 1 [97] 0xFFFF, packetOf 3 1 [98] 0xFFFF]).map
      (fun r => r.2.map (fun report => report.messages)) =
        some [[Client.Message.ackReceived], [Client.Message.outOfSequence]] ∧
    ({ packetOf 1 255 (List.replicate 255 97) 0xFFFF with padding := 1 } : DataPacket).inRange ∧
    ({ packetOf 1 255 (List.replicate 255 97) 0xFFFF with padding := 1 } :
      DataPacket).pload.length = 255 ∧
    0 ∉ ({ packetOf 1 255 (List.replicate 255 97) 0xFFFF with padding := 1 } :
      DataPacket).pload ∧
    (Server.main_loop Server.State.init
        [{ packetOf 1 255 (List.replicate 255 97) 0xFFFF with padding := 1 }]).map
      (fun r => r.2.map Reply.codes) = some [(0xFFF3, some 0xFFF5)] := by
  refine ⟨by decide, by decide, by decide, by decide, by decide, by decide, by decide,
    by decide⟩

end Transfer

namespace Transfer

namespace Server

/-- C5. Duplicate rejection. In the state the receiver reaches from its initial state on
any stream (sequence numbers below 50) that contains a packet with sequence number `s`,
every further packet that carries `s` is answered by exactly one datagram, REJECT 0xFFF3
with subcode DUPLICATE 0xFFF7, whatever its payload, declared length and end marker are
and whatever the expected number is. -/
theorem C5_duplicate_rejected (pre : List DataPacket) (p : DataPacket)
    (hs : ∀ q ∈ pre, q.seg_no < 50) (hp : p.seg_no < 50)
    (hseen : ∃ q ∈ pre, q.seg_no = p.seg_no) :
    ∃ st replies, main_loop State.init pre = some (st, replies) ∧
      (main_iteration st p).map Outcome.codes = some [(0xFFF3, some 0xFFF7)] := by
  obtain ⟨st, replies, hrun, -, -, hcnt⟩ := main_loop_spec pre hs State.init
  refine ⟨st, replies, hrun, ?_⟩
  obtain ⟨q, hq, hqs⟩ := hseen
  have hpos : 0 < (pre.filter (fun q => q.seg_no = (⟨p.seg_no, hp⟩ : Fin 50).val)).length :=
    List.length_pos_of_mem (List.mem_filter.mpr ⟨hq, by simpa using hqs⟩)
  have hc : st.seq_buffer ⟨p.seg_no, hp⟩ + 1 ≠ 1 := by
    have hz : State.init.seq_buffer ⟨p.seg_no, hp⟩ = 0 := rfl
    rw [hcnt ⟨p.seg_no, hp⟩, hz]
    omega
  rw [answer_eq st p hp]
  simp [chain, hc, REJECT, REJECT_DUPLICATE_PACKET]

/-- Witness of C5: sequence number 1 arrives, then 2, then 1 again with another payload,
another declared length and a zero end marker. -/
theorem C5_duplicate_rejected_witness :
    (∃ q ∈ [packetOf 1 1 [97] 0xFFFF, packetOf 2 1 [98] 0xFFFF],
      q.seg_no = (packetOf 1 9 [120, 121] 0).seg_no) ∧
    ∃ st replies, main_loop State.init [packetOf 1 1 [97] 0xFFFF, packetOf 2 1 [98] 0xFFFF] =
        some (st, replies) ∧
      (main_iteration st (packetOf 1 9 [120, 121] 0)).map Outcome.codes =
        some [(0xFFF3, some 0xFFF7)] :=
  ⟨by decide,
   C5_duplicate_rejected [packetOf 1 1 [97] 0xFFFF, packetOf 2 1 [98] 0xFFFF]
     (packetOf 1 9 [120, 121] 0) (by decide) (by decide) (by decide)⟩

/-- C6, as amended. Skip-ahead rejection. For every receiver state and every inbound unit
whose sequence number is below 50, has not been seen before (its table entry is 0) and is
greater than the expected number, the single reply is REJECT 0xFFF3 with subcode
OUT_OF_SEQUENCE 0xFFF4 and the expected number afterwards is the old one plus 1. -/
theorem C6_skip_ahead_rejected (st : State) (p : DataPacket) (h : p.seg_no < 50)
    (hnew : st.seq_buffer ⟨p.seg_no, h⟩ = 0) (hgt : st.expectedPackNum < (p.seg_no : Int)) :
    ∃ o, main_iteration st p = some o ∧ o.codes = [(0xFFF3, some 0xFFF4)] ∧
      o.state.expectedPackNum = st.expectedPackNum + 1 := by
  obtain ⟨o, ho, -, -, he, -⟩ := main_iteration_spec st p h
  have ha := answer_eq st p h
  rw [ho] at ha
  have hne : ¬ (p.seg_no : Int) = st.expectedPackNum := by omega
  simp [chain, hnew, hne, REJECT, REJECT_OUT_OF_SEQUENCE] at ha
  exact ⟨o, ho, ha, he⟩

/-- Witness of C6 as amended: sequence number 15 at the fresh receiver, which
expects 1. -/
theorem C6_skip_ahead_rejected_witness :
    State.init.expectedPackNum < ((packetOf 15 1 [97] 0xFFFF).seg_no : Int) ∧
    ∃ o, main_iteration State.init (packetOf 15 1 [97] 0xFFFF) = some o ∧
      o.codes = [(0xFFF3, some 0xFFF4)] ∧
      o.state.expectedPackNum = State.init.expectedPackNum + 1 :=
  ⟨by decide,
   C6_skip_ahead_rejected State.init (packetOf 15 1 [97] 0xFFFF) (by decide) (by decide)
     (by decide)⟩

set_option maxRecDepth 10000 in
/-- Counterexample to C6 as stated: after the fresh receiver has got sequence number 5
once it expects 2; a second packet with sequence number 5 skips ahead of 2, and it is
answered DUPLICATE 0xFFF7, not OUT_OF_SEQUENCE 0xFFF4. -/
theorem C6_counterexample :
    (packetOf 5 1 [97] 0xFFFF).inRange ∧
    (main_loop State.init [packetOf 5 1 [97] 0xFFFF]).bind (fun r =>
      (main_iteration r.1 (packetOf 5 1 [97] 0xFFFF)).map (fun o =>
        (r.1.expectedPackNum, decide (r.1.expectedPackNum < 5), o.codes))) =
      some (2, true, [(0xFFF3, some 0xFFF7)]) := by
  refine ⟨by decide, by decide⟩

/-- C7, as amended. Length-mismatch rejection. For every receiver state and every
inbound unit whose sequence number is below 50, has not been seen before (its table
entry is 0) and equals the expected number, and whose payload string length differs from
its declared length, the single reply is REJECT 0xFFF3 with subcode LENGTH_MISMATCH
0xFFF5. -/
theorem C7_length_mismatch_rejected (st : State) (p : DataPacket) (h : p.seg_no < 50)
    (hnew : st.seq_buffer ⟨p.seg_no, h⟩ = 0) (he : (p.seg_no : Int) = st.expectedPackNum)
    (hlen : strlen p.pload ≠ p.plen) :
    (main_iteration st p).map Outcome.codes = some [(0xFFF3, some 0xFFF5)] := by
  rw [answer_eq st p h]
  have hl : ¬ payloadLength p = some p.plen := payloadLength_ne p hlen
  simp [chain, hnew, he, hl, REJECT, REJECT_LENGTH_MISMATCH]

/-- Witness of C7 as amended: the first packet declares length 7 for a payload of
length 1. -/
theorem C7_length_mismatch_rejected_witness :
    strlen (packetOf 1 7 [97] 0xFFFF).pload ≠ (packetOf 1 7 [97] 0xFFFF).plen ∧
    (main_iteration State.init (packetOf 1 7 [97] 0xFFFF)).map Outcome.codes =
      some [(0xFFF3, some 0xFFF5)] :=
  ⟨by decide,
   C7_length_mismatch_rejected State.init (packetOf 1 7 [97] 0xFFFF) (by decide)
     (by decide) (by decide) (by decide)⟩

set_option maxRecDepth 10000 in
/-- Counterexample to C7 as stated: at the fresh receiver a packet with sequence number
2 whose payload has length 1 and whose declared length is 7 is answered OUT_OF_SEQUENCE
0xFFF4, not LENGTH_MISMATCH 0xFFF5. -/
theorem C7_counterexample :
    (packetOf 2 7 [97] 0xFFFF).inRange ∧
    strlen (packetOf 2 7 [97] 0xFFFF).pload ≠ (packetOf 2 7 [97] 0xFFFF).plen ∧
    (main_iteration State.init (packetOf 2 7 [97] 0xFFFF)).map Outcome.codes =
      some [(0xFFF3, some 0xFFF4)] := by
  refine ⟨by decide, by decide, by decide⟩

/-- C8, as amended. Framing rejection. For every receiver state and every inbound unit
whose sequence number is below 50, has not been seen before (its table entry is 0) and
equals the expected number, whose payload string length, the value that
`strlen(dataPacket.pload)` has at the receiver, equals its declared length and whose end
marker is not 0xFFFF, the single reply is REJECT 0xFFF3 with subcode FRAMING_INVALID
0xFFF6. -/
theorem C8_framing_rejected (st : State) (p : DataPacket) (h : p.seg_no < 50)
    (hnew : st.seq_buffer ⟨p.seg_no, h⟩ = 0) (he : (p.seg_no : Int) = st.expectedPackNum)
    (hlen : payloadLength p = some p.plen) (hend : p.end_packet_identifier ≠ 0xFFFF) :
    (main_iteration st p).map Outcome.codes = some [(0xFFF3, some 0xFFF6)] := by
  rw [answer_eq st p h]
  simp [chain, hnew, he, hlen, hend, END_PACKET_IDENTIFIER, REJECT,
    REJECT_END_OF_PACKET_MISSING]

/-- Witness of C8 as amended: the first packet, consistent in length, with end
marker 0. -/
theorem C8_framing_rejected_witness :
    payloadLength (packetOf 1 1 [97] 0) = some (packetOf 1 1 [97] 0).plen ∧
    (packetOf 1 1 [97] 0).end_packet_identifier ≠ 0xFFFF ∧
    (main_iteration State.init (packetOf 1 1 [97] 0)).map Outcome.codes =
      some [(0xFFF3, some 0xFFF6)] :=
  ⟨by decide, by decide,
   C8_framing_rejected State.init (packetOf 1 1 [97] 0) (by decide) (by decide) (by decide)
     (by decide) (by decide)⟩

set_option maxRecDepth 10000 in
/-- Counterexample to C8 as stated: at the fresh receiver the first packet with end
marker 0 and declared length 7 for a payload of length 1 is answered LENGTH_MISMATCH
0xFFF5, not FRAMING_INVALID 0xFFF6. -/
theorem C8_counterexample :
    (packetOf 1 7 [97] 0).inRange ∧
    (packetOf 1 7 [97] 0).end_packet_identifier ≠ 0xFFFF ∧
    (main_iteration State.init (packetOf 1 7 [97] 0)).map Outcome.codes =
      some [(0xFFF3, some 0xFFF5)] := by
  refine ⟨by decide, by decide, by decide⟩

end Server

end Transfer

namespace Auth

/-- The loop of `verifyUser` entered at index `i` with enough fuel to reach the end of
the table: it returns the status of the first record from `i` on that matches both
fields, and `-1` when no record from `i` on matches. -/
theorem verifyUser_loop_spec (serverData : Fin NUM_OF_SUBS → ServerData)
    (src_sub_no technology : Nat) :
    ∀ (fuel i : Nat), NUM_OF_SUBS ≤ fuel + i →
      (∀ k : Fin NUM_OF_SUBS, i ≤ k.val →
        ((serverData k).sub_info = src_sub_no ∧ (serverData k).technology = technology) →
        (∀ j : Fin NUM_OF_SUBS, i ≤ j.val → j < k →
          ¬ ((serverData j).sub_info = src_sub_no ∧ (serverData j).technology = technology)) →
        verifyUser_loop serverData src_sub_no technology fuel i = (serverData k).status) ∧
      ((∀ k : Fin NUM_OF_SUBS, i ≤ k.val →
          ¬ ((serverData k).sub_info = src_sub_no ∧ (serverData k).technology = technology)) →
        verifyUser_loop serverData src_sub_no technology fuel i = -1) := by
  intro fuel
  induction fuel with
  | zero =>
    intro i hi
    constructor
    · intro k hk _ _
      have := k.isLt
      omega
    · intro _; rfl
  | succ fuel ih =>
    intro i hi
    by_cases hlt : i < NUM_OF_SUBS
    · by_cases hm : (serverData ⟨i, hlt⟩).sub_info = src_sub_no ∧
          (serverData ⟨i, hlt⟩).technology = technology
      · constructor
        · intro k hk hkm hfirst
          have hki : k = ⟨i, hlt⟩ := by
            by_contra hne
            have hlt' : (⟨i, hlt⟩ : Fin NUM_OF_SUBS) < k := by
              rw [Fin.lt_def]
              have : k.val ≠ i := fun hv => hne (Fin.ext hv)
              simp only
              omega
            exact hfirst ⟨i, hlt⟩ (le_refl _) hlt' hm
          subst hki
          simp [verifyUser_loop, hlt, hm]
        · intro hnone
          exact absurd hm (hnone ⟨i, hlt⟩ (le_refl _))
      · obtain ⟨ih1, ih2⟩ := ih (i + 1) (by omega)
        have hstep : verifyUser_loop serverData src_sub_no technology (fuel + 1) i =
            verifyUser_loop serverData src_sub_no technology fuel (i + 1) := by
          simp only [verifyUser_loop, hlt, dite_true, hm, if_false]
        rw [hstep]
        constructor
        · intro k hk hkm hfirst
          have hki : k.val ≠ i := by
            intro hv
            have : k = ⟨i, hlt⟩ := Fin.ext hv
            subst this
            exact hm hkm
          exact ih1 k (by omega) hkm (fun j hj hjk => hfirst j (by omega) hjk)
        · intro hnone
          exact ih2 (fun k hk => hnone k (by omega))
    · constructor
      · intro k hk _ _
        have := k.isLt
        omega
      · intro _
        simp [verifyUser_loop, hlt]

/-- The result of `verifyUser` is `-1` or the status of a record of the table. -/
theorem verifyUser_range (serverData : Fin NUM_OF_SUBS → ServerData)
    (src_sub_no technology : Nat) :
    verifyUser serverData src_sub_no technology = -1 ∨
      ∃ k, verifyUser serverData src_sub_no technology = (serverData k).status := by
  have hloop : ∀ fuel i : Nat,
      verifyUser_loop serverData src_sub_no technology fuel i = -1 ∨
        ∃ k, verifyUser_loop serverData src_sub_no technology fuel i =
          (serverData k).status := by
    intro fuel
    induction fuel with
    | zero => intro i; exact Or.inl rfl
    | succ fuel ih =>
      intro i
      by_cases hlt : i < NUM_OF_SUBS
      · by_cases hm : (serverData ⟨i, hlt⟩).sub_info = src_sub_no ∧
            (serverData ⟨i, hlt⟩).technology = technology
        · exact Or.inr ⟨⟨i, hlt⟩, by simp [verifyUser_loop, hlt, hm]⟩
        · have hstep : verifyUser_loop serverData src_sub_no technology (fuel + 1) i =
              verifyUser_loop serverData src_sub_no technology fuel (i + 1) := by
            simp only [verifyUser_loop, hlt, dite_true, hm, if_false]
          rw [hstep]
          exact ih (i + 1)
      · exact Or.inl (by simp [verifyUser_loop, hlt])
  exact hloop NUM_OF_SUBS 0

end Auth

namespace Auth

/-- Among the records that satisfy a property there is one of lowest index. -/
theorem exists_first {P : Fin NUM_OF_SUBS → Prop} (h : ∃ k, P k) :
    ∃ k, P k ∧ ∀ j, j < k → ¬ P j := by
  obtain ⟨k, hk⟩ := h
  obtain ⟨m, hm, hmin⟩ :=
    (wellFounded_lt : WellFounded (fun a b : Fin NUM_OF_SUBS => a < b)).has_min
      {k | P k} ⟨k, hk⟩
  exact ⟨m, hm, fun j hj hP => hmin j hP hj⟩

/-- The datagrams sent on a stream followed by one more `recvfrom` result. -/
theorem main_loop_append (serverData : Fin NUM_OF_SUBS → ServerData)
    (earlier : List (Int × PermissionPacket)) (last : Int × PermissionPacket) :
    ∀ sendPacket : Option PermissionPacket,
      (main_loop serverData sendPacket (earlier ++ [last])).2 =
        (main_loop serverData sendPacket earlier).2 ++
          (main_iteration serverData (main_loop serverData sendPacket earlier).1
            last.1 last.2).2 := by
  induction earlier with
  | nil => intro s; simp [main_loop]
  | cons x rest ih =>
    intro s
    obtain ⟨t, q⟩ := x
    simp [main_loop, ih]

/-- C9, as amended. Authorization lookup. For every 10-record table, subscriber number
and technology code, `verifyUser` returns the status of the lowest-index record whose
subscriber number and technology both equal the query, and returns -1 when no record
matches both fields (so a record that matches the subscriber with another technology
never counts); it returns -1 exactly when no record matches both fields or the
lowest-index matching record has status -1. With the records (1001, 4, 1) and
(2002, 2, 0), the query (1001, 4) gives 1 (granted), (1001, 3) gives -1 (not found) and
(2002, 2) gives 0 (not paid). -/
theorem C9_authorization_lookup (serverData : Fin NUM_OF_SUBS → ServerData)
    (src_sub_no technology : Nat) :
    (∀ k : Fin NUM_OF_SUBS,
      ((serverData k).sub_info = src_sub_no ∧ (serverData k).technology = technology) →
      (∀ j, j < k →
        ¬ ((serverData j).sub_info = src_sub_no ∧ (serverData j).technology = technology)) →
      verifyUser serverData src_sub_no technology = (serverData k).status) ∧
    ((∀ k : Fin NUM_OF_SUBS,
        ¬ ((serverData k).sub_info = src_sub_no ∧ (serverData k).technology = technology)) →
      verifyUser serverData src_sub_no technology = -1) ∧
    (verifyUser serverData src_sub_no technology = -1 ↔
      ((∀ k : Fin NUM_OF_SUBS,
        ¬ ((serverData k).sub_info = src_sub_no ∧ (serverData k).technology = technology)) ∨
      ∃ k : Fin NUM_OF_SUBS,
        ((serverData k).sub_info = src_sub_no ∧ (serverData k).technology = technology) ∧
        (∀ j, j < k →
          ¬ ((serverData j).sub_info = src_sub_no ∧
            (serverData j).technology = technology)) ∧
        (serverData k).status = -1)) ∧
    verifyUser (tableOf [⟨1001, 4, 1⟩, ⟨2002, 2, 0⟩] ⟨0, 0, 0⟩) 1001 4 = 1 ∧
    verifyUser (tableOf [⟨1001, 4, 1⟩, ⟨2002, 2, 0⟩] ⟨0, 0, 0⟩) 1001 3 = -1 ∧
    verifyUser (tableOf [⟨1001, 4, 1⟩, ⟨2002, 2, 0⟩] ⟨0, 0, 0⟩) 2002 2 = 0 := by
  obtain ⟨h1, h2⟩ := verifyUser_loop_spec serverData src_sub_no technology NUM_OF_SUBS 0
    (by simp)
  have hfirst : ∀ k : Fin NUM_OF_SUBS,
      ((serverData k).sub_info = src_sub_no ∧ (serverData k).technology = technology) →
      (∀ j, j < k →
        ¬ ((serverData j).sub_info = src_sub_no ∧ (serverData j).technology = technology)) →
      verifyUser serverData src_sub_no technology = (serverData k).status :=
    fun k hk hmin => h1 k (Nat.zero_le _) hk (fun j _ hjk => hmin j hjk)
  have hnone : (∀ k : Fin NUM_OF_SUBS,
        ¬ ((serverData k).sub_info = src_sub_no ∧ (serverData k).technology = technology)) →
      verifyUser serverData src_sub_no technology = -1 :=
    fun hn => h2 (fun k _ => hn k)
  refine ⟨hfirst, hnone, ⟨?_, ?_⟩, by decide, by decide, by decide⟩
  · intro hv
    by_cases hex : ∃ k : Fin NUM_OF_SUBS,
        (serverData k).sub_info = src_sub_no ∧ (serverData k).technology = technology
    · obtain ⟨k, hk, hmin⟩ := exists_first hex
      exact Or.inr ⟨k, hk, hmin, by rw [← hfirst k hk hmin]; exact hv⟩
    · exact Or.inl (fun k hk => hex ⟨k, hk⟩)
  · rintro (hn | ⟨k, hk, hmin, hs⟩)
    · exact hnone hn
    · rw [hfirst k hk hmin, hs]

/-- Counterexample to C9 as stated: in the table whose first record is (1001, 4, -1)
the query (1001, 4) matches that record in both fields, and `verifyUser` returns -1. -/
theorem C9_counterexample :
    ((tableOf [⟨1001, 4, -1⟩] ⟨0, 0, 0⟩) ⟨0, by decide⟩).sub_info = 1001 ∧
    ((tableOf [⟨1001, 4, -1⟩] ⟨0, 0, 0⟩) ⟨0, by decide⟩).technology = 4 ∧
    verifyUser (tableOf [⟨1001, 4, -1⟩] ⟨0, 0, 0⟩) 1001 4 = -1 := by
  decide

/-- C10. Authorization response. For every table whose statuses lie in {-1, 0, 1},
every content of the local `sendPacket` left by earlier iterations, and every inbound
packet (`recvfrom` returned a count that is not negative) whose permission field is
ACCESS_PERM 0xFFF8, exactly one datagram is sent; it equals the request in every field
except `permission`, which is NOT_EXIST 0xFFFA, NOT_PAID 0xFFF9 or ACCESS_OK 0xFFFB
according as `verifyUser` returns -1, 0 or 1. The same datagram is the reply when the
request follows any stream of earlier packets. -/
theorem C10_authorization_response (serverData : Fin NUM_OF_SUBS → ServerData)
    (sendPacket : Option PermissionPacket) (time_temp : Int)
    (receivedPacket : PermissionPacket) (earlier : List (Int × PermissionPacket))
    (hst : ∀ i, (serverData i).status = -1 ∨ (serverData i).status = 0 ∨
      (serverData i).status = 1)
    (ht : 0 ≤ time_temp) (hperm : receivedPacket.permission = some ACCESS_PERM) :
    ∃ code : Nat,
      ((verifyUser serverData receivedPacket.src_sub_no receivedPacket.technology = -1 ∧
          code = 0xFFFA) ∨
        (verifyUser serverData receivedPacket.src_sub_no receivedPacket.technology = 0 ∧
          code = 0xFFF9) ∨
        (verifyUser serverData receivedPacket.src_sub_no receivedPacket.technology = 1 ∧
          code = 0xFFFB)) ∧
      (main_iteration serverData sendPacket time_temp receivedPacket).2 =
        [{ receivedPacket with permission := some code }] ∧
      (main_loop serverData sendPacket (earlier ++ [(time_temp, receivedPacket)])).2 =
        (main_loop serverData sendPacket earlier).2 ++
          [{ receivedPacket with permission := some code }] := by
  have hiter : ∀ s : Option PermissionPacket, ∀ code : Nat,
      ((verifyUser serverData receivedPacket.src_sub_no receivedPacket.technology = -1 ∧
          code = 0xFFFA) ∨
        (verifyUser serverData receivedPacket.src_sub_no receivedPacket.technology = 0 ∧
          code = 0xFFF9) ∨
        (verifyUser serverData receivedPacket.src_sub_no receivedPacket.technology = 1 ∧
          code = 0xFFFB)) →
      (main_iteration serverData s time_temp receivedPacket).2 =
        [{ receivedPacket with permission := some code }] := by
    intro s code hc
    rcases hc with ⟨hv, rfl⟩ | ⟨hv, rfl⟩ | ⟨hv, rfl⟩ <;>
      simp [main_iteration, ht, hperm, hv, initializingPermissionPacket, NOT_EXIST,
        NOT_PAID, ACCESS_OK]
  have hrange : verifyUser serverData receivedPacket.src_sub_no receivedPacket.technology = -1 ∨
      verifyUser serverData receivedPacket.src_sub_no receivedPacket.technology = 0 ∨
      verifyUser serverData receivedPacket.src_sub_no receivedPacket.technology = 1 := by
    rcases verifyUser_range serverData receivedPacket.src_sub_no receivedPacket.technology
      with h | ⟨k, hk⟩
    · exact Or.inl h
    · rw [hk]; exact hst k
  have hcode : ∃ code : Nat,
      ((verifyUser serverData receivedPacket.src_sub_no receivedPacket.technology = -1 ∧
          code = 0xFFFA) ∨
        (verifyUser serverData receivedPacket.src_sub_no receivedPacket.technology = 0 ∧
          code = 0xFFF9) ∨
        (verifyUser serverData receivedPacket.src_sub_no receivedPacket.technology = 1 ∧
          code = 0xFFFB)) := by
    rcases hrange with h | h | h
    · exact ⟨0xFFFA, Or.inl ⟨h, rfl⟩⟩
    · exact ⟨0xFFF9, Or.inr (Or.inl ⟨h, rfl⟩)⟩
    · exact ⟨0xFFFB, Or.inr (Or.inr ⟨h, rfl⟩)⟩
  obtain ⟨code, hc⟩ := hcode
  refine ⟨code, hc, hiter sendPacket code hc, ?_⟩
  rw [main_loop_append, hiter _ code hc]

/-- Witness of C10: the request for subscriber 2002 on technology 2 against the table
with the records (1001, 4, 1) and (2002, 2, 0), after one earlier request. -/
theorem C10_authorization_response_witness :
    (∀ i, ((tableOf [⟨1001, 4, 1⟩, ⟨2002, 2, 0⟩] ⟨0, 0, 0⟩) i).status = -1 ∨
      ((tableOf [⟨1001, 4, 1⟩, ⟨2002, 2, 0⟩] ⟨0, 0, 0⟩) i).status = 0 ∨
      ((tableOf [⟨1001, 4, 1⟩, ⟨2002, 2, 0⟩] ⟨0, 0, 0⟩) i).status = 1) ∧
    ∃ code : Nat,
      ((verifyUser (tableOf [⟨1001, 4, 1⟩, ⟨2002, 2, 0⟩] ⟨0, 0, 0⟩) 2002 2 = -1 ∧
          code = 0xFFFA) ∨
        (verifyUser (tableOf [⟨1001, 4, 1⟩, ⟨2002, 2, 0⟩] ⟨0, 0, 0⟩) 2002 2 = 0 ∧
          code = 0xFFF9) ∨
        (verifyUser (tableOf [⟨1001, 4, 1⟩, ⟨2002, 2, 0⟩] ⟨0, 0, 0⟩) 2002 2 = 1 ∧
          code = 0xFFFB)) ∧
      (main_iteration (tableOf [⟨1001, 4, 1⟩, ⟨2002, 2, 0⟩] ⟨0, 0, 0⟩) none 20
          ⟨0xFFFF, 0xFF, some 0xFFF8, 2, 9, 2, 2002, 0xFFFF⟩).2 =
        [⟨0xFFFF, 0xFF, some code, 2, 9, 2, 2002, 0xFFFF⟩] ∧
      (main_loop (tableOf [⟨1001, 4, 1⟩, ⟨2002, 2, 0⟩] ⟨0, 0, 0⟩) none
          ([(20, ⟨0xFFFF, 0xFF, some 0xFFF8, 1, 9, 4, 1001, 0xFFFF⟩)] ++
            [(20, ⟨0xFFFF, 0xFF, some 0xFFF8, 2, 9, 2, 2002, 0xFFFF⟩)])).2 =
        (main_loop (tableOf [⟨1001, 4, 1⟩, ⟨2002, 2, 0⟩] ⟨0, 0, 0⟩) none
          [(20, ⟨0xFFFF, 0xFF, some 0xFFF8, 1, 9, 4, 1001, 0xFFFF⟩)]).2 ++
          [⟨0xFFFF, 0xFF, some code, 2, 9, 2, 2002, 0xFFFF⟩] :=
  ⟨by decide,
   C10_authorization_response (tableOf [⟨1001, 4, 1⟩, ⟨2002, 2, 0⟩] ⟨0, 0, 0⟩) none 20
     ⟨0xFFFF, 0xFF, some 0xFFF8, 2, 9, 2, 2002, 0xFFFF⟩
     [(20, ⟨0xFFFF, 0xFF, some 0xFFF8, 1, 9, 4, 1001, 0xFFFF⟩)]
     (by decide) (by decide) (by decide)⟩

end Auth

namespace Auth

/-- C11, as amended. The authorization receiver applies no framing check. A datagram is
looked up and answered exactly when `recvfrom` did not fail and the permission field is
ACCESS_PERM 0xFFF8; the end marker and the declared length play no part: a request
with any other end marker and declared length gets a reply with the same permission
code, and the reply echoes the end marker and the declared length as received. -/
theorem C11_no_framing_check (serverData : Fin NUM_OF_SUBS → ServerData)
    (sendPacket : Option PermissionPacket) (time_temp : Int)
    (receivedPacket : PermissionPacket) (end_packet_identifier plen : Nat) :
    ((main_iteration serverData sendPacket time_temp receivedPacket).2.length = 1 ↔
      (0 ≤ time_temp ∧ receivedPacket.permission = some ACCESS_PERM)) ∧
    ((main_iteration serverData sendPacket time_temp receivedPacket).2 = [] ↔
      ¬ (0 ≤ time_temp ∧ receivedPacket.permission = some ACCESS_PERM)) ∧
    (main_iteration serverData sendPacket time_temp
        { receivedPacket with end_packet_identifier := end_packet_identifier,
                              plen := plen }).2.map (fun r => r.permission) =
      (main_iteration serverData sendPacket time_temp receivedPacket).2.map
        (fun r => r.permission) ∧
    (main_iteration serverData sendPacket time_temp
        { receivedPacket with end_packet_identifier := end_packet_identifier,
                              plen := plen }).2.map
        (fun r => (r.end_packet_identifier, r.plen)) =
      (main_iteration serverData sendPacket time_temp receivedPacket).2.map
        (fun _ => (end_packet_identifier, plen)) := by
  by_cases hc : 0 ≤ time_temp ∧ receivedPacket.permission = some ACCESS_PERM
  · refine ⟨?_, ?_, ?_, ?_⟩
    · simp [main_iteration, hc]
    · simp [main_iteration, hc]
    · simp only [main_iteration, ge_iff_le, hc, and_self, if_true, List.map_cons, List.map_nil]
      split_ifs <;> rfl
    · simp only [main_iteration, ge_iff_le, hc, and_self, if_true, List.map_cons, List.map_nil]
      split_ifs <;> rfl
  · refine ⟨?_, ?_, ?_, ?_⟩ <;> simp [main_iteration, hc]

/-- Counterexample to C11 as stated: with the record (1001, 4, 1) in the table, a
permission request for subscriber 1001 on technology 4 whose end marker is 0 and whose
declared length is 200 is answered with ACCESS_OK 0xFFFB. -/
theorem C11_counterexample :
    (⟨0xFFFF, 0xFF, some 0xFFF8, 1, 200, 4, 1001, 0⟩ : PermissionPacket).end_packet_identifier
      ≠ 0xFFFF ∧
    (main_iteration (tableOf [⟨1001, 4, 1⟩, ⟨2002, 2, 0⟩] ⟨0, 0, 0⟩) none 24
        ⟨0xFFFF, 0xFF, some 0xFFF8, 1, 200, 4, 1001, 0⟩).2 =
      [⟨0xFFFF, 0xFF, some 0xFFFB, 1, 200, 4, 1001, 0⟩] := by
  decide

end Auth

namespace Transfer

namespace Server

/-- C15, evaluated on the code. Neither `initializeAck` nor `initializeReject` nor the
arms of the chain assign `received_segment_no`: in every reply of the receiver (sequence
number below 50) the field is unassigned, and in particular it is not set to the
sequence number of the inbound packet. At the fresh receiver the packets with sequence
numbers 1 and 3 get an ACK and a REJECT whose field is unassigned. -/
theorem C15_received_segment_no_unassigned (st : State) (p : DataPacket)
    (h : p.seg_no < 50) :
    (∃ o r, main_iteration st p = some o ∧ o.sent = [r] ∧
      (match r with
        | .ack a => a.received_segment_no
        | .reject j => j.received_segment_no) = none) ∧
    (main_iteration State.init (packetOf 1 1 [97] 0xFFFF)).map (fun o => o.sent) =
      some [.ack ⟨0xFFFF, 0xFF, 0xFFF2, none, 0xFFFF⟩] ∧
    (main_iteration State.init (packetOf 3 1 [97] 0xFFFF)).map (fun o => o.sent) =
      some [.reject ⟨0xFFFF, 0xFF, 0xFFF3, some 0xFFF4, none, 0xFFFF⟩] := by
  refine ⟨?_, by decide, by decide⟩
  obtain ⟨o, ho, -, hb, -, hsent⟩ := main_iteration_spec st p h
  have hne := chain_ne_fallThrough (st.seq_buffer ⟨p.seg_no, h⟩ + 1) st.expectedPackNum
    (Server.payloadLength p) p
  rw [← hb] at hne
  cases hbr : o.branch with
  | fallThrough => exact absurd hbr hne
  | accept => exact ⟨o, _, ho, by rw [hsent, hbr], rfl⟩
  | duplicate => exact ⟨o, _, ho, by rw [hsent, hbr], rfl⟩
  | outOfSequence => exact ⟨o, _, ho, by rw [hsent, hbr], rfl⟩
  | lengthMismatch => exact ⟨o, _, ho, by rw [hsent, hbr], rfl⟩
  | endMissing => exact ⟨o, _, ho, by rw [hsent, hbr], rfl⟩

/-- Witness of C15: the first packet at the fresh receiver. -/
theorem C15_received_segment_no_unassigned_witness :
    (packetOf 1 1 [97] 0xFFFF).seg_no < 50 ∧
    ∃ o r, main_iteration State.init (packetOf 1 1 [97] 0xFFFF) = some o ∧ o.sent = [r] ∧
      (match r with
        | .ack a => a.received_segment_no
        | .reject j => j.received_segment_no) = none :=
  ⟨by decide,
   (C15_received_segment_no_unassigned State.init (packetOf 1 1 [97] 0xFFFF) (by decide)).1⟩

/-- C17. Seen-count bookkeeping. Every processed packet (sequence number below 50)
increments the table entry of its own sequence number by exactly 1, leaves every other
entry unchanged and lowers no entry; and after any stream of packets with sequence
numbers below 50, started from the all-zero table, every entry equals the number of
packets of the stream that carry its index. -/
theorem C17_seen_counts (st : State) (p : DataPacket) (pkts : List DataPacket)
    (hp : p.seg_no < 50) (hs : ∀ q ∈ pkts, q.seg_no < 50) :
    (∃ o, main_iteration st p = some o ∧
      o.state.seq_buffer ⟨p.seg_no, hp⟩ = st.seq_buffer ⟨p.seg_no, hp⟩ + 1 ∧
      (∀ i : Fin 50, i ≠ ⟨p.seg_no, hp⟩ → o.state.seq_buffer i = st.seq_buffer i) ∧
      (∀ i : Fin 50, st.seq_buffer i ≤ o.state.seq_buffer i)) ∧
    (∃ st' replies, main_loop State.init pkts = some (st', replies) ∧
      ∀ s : Fin 50, st'.seq_buffer s =
        ((pkts.filter (fun q => q.seg_no = s.val)).length : Int)) := by
  constructor
  · obtain ⟨o, ho, hbuf, -, -, -⟩ := main_iteration_spec st p hp
    refine ⟨o, ho, by rw [hbuf, bump_self], fun i hi => by rw [hbuf, bump_other _ hi], ?_⟩
    intro i
    rw [hbuf]
    by_cases hi : i = ⟨p.seg_no, hp⟩
    · subst hi; rw [bump_self]; omega
    · rw [bump_other _ hi]
  · obtain ⟨st', replies, hrun, -, -, hcnt⟩ := main_loop_spec pkts hs State.init
    refine ⟨st', replies, hrun, fun s => ?_⟩
    have hz : State.init.seq_buffer s = 0 := rfl
    rw [hcnt s, hz, zero_add]

/-- Witness of C17: the stream 1, 7, 1 from the fresh receiver, then a packet with
sequence number 7. -/
theorem C17_seen_counts_witness :
    (∀ q ∈ [packetOf 1 1 [97] 0xFFFF, packetOf 7 1 [98] 0xFFFF, packetOf 1 1 [97] 0xFFFF],
      q.seg_no < 50) ∧
    ∃ st' replies, main_loop State.init
        [packetOf 1 1 [97] 0xFFFF, packetOf 7 1 [98] 0xFFFF, packetOf 1 1 [97] 0xFFFF] =
          some (st', replies) ∧
      ∀ s : Fin 50, st'.seq_buffer s =
        (([packetOf 1 1 [97] 0xFFFF, packetOf 7 1 [98] 0xFFFF,
          packetOf 1 1 [97] 0xFFFF].filter (fun q => q.seg_no = s.val)).length : Int) :=
  ⟨by decide,
   (C17_seen_counts State.init (packetOf 7 1 [98] 0xFFFF)
     [packetOf 1 1 [97] 0xFFFF, packetOf 7 1 [98] 0xFFFF, packetOf 1 1 [97] 0xFFFF]
     (by decide) (by decide)).2⟩

/-- C18. Duplicate test equivalence. In every state that the receiver reaches from the
all-zero table on a stream of packets with sequence numbers below 50, and for every
further packet with sequence number below 50, the count of its sequence number after
the increment is at least 1, so the test of the code, count different from 1, holds
exactly when the test of the specification, count greater than 1, holds; the chain takes
its duplicate arm exactly when the test of the specification holds. -/
theorem C18_duplicate_test_equivalence (pre : List DataPacket) (p : DataPacket)
    (hs : ∀ q ∈ pre, q.seg_no < 50) (hp : p.seg_no < 50) :
    ∃ st replies, main_loop State.init pre = some (st, replies) ∧
      1 ≤ bump st.seq_buffer ⟨p.seg_no, hp⟩ ⟨p.seg_no, hp⟩ ∧
      (bump st.seq_buffer ⟨p.seg_no, hp⟩ ⟨p.seg_no, hp⟩ ≠ 1 ↔
        spec_duplicate (bump st.seq_buffer ⟨p.seg_no, hp⟩ ⟨p.seg_no, hp⟩)) ∧
      (chain (bump st.seq_buffer ⟨p.seg_no, hp⟩ ⟨p.seg_no, hp⟩) st.expectedPackNum
          (Server.payloadLength p) p = .duplicate ↔
        spec_duplicate (bump st.seq_buffer ⟨p.seg_no, hp⟩ ⟨p.seg_no, hp⟩)) ∧
      ∃ o, main_iteration st p = some o ∧
        (o.branch = .duplicate ↔ spec_duplicate (o.state.seq_buffer ⟨p.seg_no, hp⟩)) := by
  obtain ⟨st, replies, hrun, -, -, hcnt⟩ := main_loop_spec pre hs State.init
  have hz : State.init.seq_buffer ⟨p.seg_no, hp⟩ = 0 := rfl
  have hge : 1 ≤ bump st.seq_buffer ⟨p.seg_no, hp⟩ ⟨p.seg_no, hp⟩ := by
    rw [bump_self, hcnt, hz]; omega
  have hiff : bump st.seq_buffer ⟨p.seg_no, hp⟩ ⟨p.seg_no, hp⟩ ≠ 1 ↔
      spec_duplicate (bump st.seq_buffer ⟨p.seg_no, hp⟩ ⟨p.seg_no, hp⟩) := by
    unfold spec_duplicate; omega
  have hchain : chain (bump st.seq_buffer ⟨p.seg_no, hp⟩ ⟨p.seg_no, hp⟩) st.expectedPackNum
      (Server.payloadLength p) p = .duplicate ↔
      spec_duplicate (bump st.seq_buffer ⟨p.seg_no, hp⟩ ⟨p.seg_no, hp⟩) := by
    rw [← hiff]
    unfold chain
    split_ifs <;> simp_all
  obtain ⟨o, ho, hbuf, hb, -, -⟩ := main_iteration_spec st p hp
  refine ⟨st, replies, hrun, hge, hiff, hchain, o, ho, ?_⟩
  rw [hb, hbuf, ← bump_self]
  exact hchain

/-- Witness of C18: the stream 1, 2 from the fresh receiver, then sequence number 2
again. -/
theorem C18_duplicate_test_equivalence_witness :
    (∀ q ∈ [packetOf 1 1 [97] 0xFFFF, packetOf 2 1 [98] 0xFFFF], q.seg_no < 50) ∧
    ∃ st replies, main_loop State.init
        [packetOf 1 1 [97] 0xFFFF, packetOf 2 1 [98] 0xFFFF] = some (st, replies) ∧
      ∃ o, main_iteration st (packetOf 2 1 [98] 0xFFFF) = some o ∧
        (o.branch = .duplicate ↔ spec_duplicate (o.state.seq_buffer ⟨2, by decide⟩)) :=
  ⟨by decide,
   match C18_duplicate_test_equivalence
     [packetOf 1 1 [97] 0xFFFF, packetOf 2 1 [98] 0xFFFF] (packetOf 2 1 [98] 0xFFFF)
     (by decide) (by decide) with
   | ⟨st, replies, hrun, _, _, _, o, ho, hiff⟩ => ⟨st, replies, hrun, o, ho, hiff⟩⟩

end Server

end Transfer

namespace Transfer

namespace Client

/-- One iteration of the retry loop entered with its condition true, on a network that
answers: after a timeout the counter grows and the loop exits at `MAX_TRIES` or goes
on; after a positive count the loop ends with the datagram read. -/
theorem retry_loop_step {σ : Type} (network : Network σ) (u : DataPacket) (fuel : Nat)
    (net net' : σ) (tt t' : Int) (rc : Nat) (rep : UnitReport) (d : Option Reply)
    (htt : tt ≤ 0) (hrc : rc < MAX_TRIES) (hn : network net u = some (net', t', d)) :
    retry_loop network u (fuel + 1) net tt rc rep =
      if t' ≤ 0 then
        if rc + 1 ≥ MAX_TRIES then
          some (net', { transmitted := rep.transmitted ++ [u], resendCt := rc + 1,
                        seen := rep.seen, messages := rep.messages, exited := true })
        else
          retry_loop network u fuel net' t' (rc + 1)
            { transmitted := rep.transmitted ++ [u], resendCt := rc + 1,
              seen := rep.seen, messages := rep.messages, exited := false }
      else
        some (net', { transmitted := rep.transmitted ++ [u], resendCt := rc,
                      seen := rep.seen ++ d.toList,
                      messages := rep.messages ++ d.toList.map classify,
                      exited := false }) := by
  rw [retry_loop.eq_def]
  simp only [htt, hrc, and_self, if_true, hn]
  by_cases ht : t' ≤ 0
  · by_cases hx : rc + 1 ≥ MAX_TRIES
    · simp [ht, hx]
    · simp [ht, hx]
  · have hx : ¬ rc ≥ MAX_TRIES := by omega
    simp only [ht, if_false, hx]
    rw [retry_loop.eq_def]
    simp [ht, hx]

/-- On a scripted network, a unit whose first positive count comes after the timeouts
`timeouts`, fewer than the tries left, is transmitted once per timeout and once more;
the loop ends with the datagram read and does not exit. -/
theorem retry_loop_reply (u : DataPacket) (t : Int) (d : Option Reply)
    (tail : List (Int × Option Reply)) (ht : 0 < t) :
    ∀ (timeouts : List (Int × Option Reply)) (fuel : Nat) (tt : Int) (rc : Nat)
      (rep : UnitReport), tt ≤ 0 → (∀ o ∈ timeouts, o.1 ≤ 0) →
      rc + timeouts.length < MAX_TRIES → timeouts.length < fuel →
      retry_loop scripted u fuel (timeouts ++ (t, d) :: tail) tt rc rep =
        some (tail, { transmitted := rep.transmitted ++ List.replicate (timeouts.length + 1) u,
                      resendCt := rc + timeouts.length,
                      seen := rep.seen ++ d.toList,
                      messages := rep.messages ++ d.toList.map classify,
                      exited := false }) := by
  intro timeouts
  induction timeouts with
  | nil =>
    intro fuel tt rc rep htt _ hrc hfuel
    obtain ⟨f, rfl⟩ : ∃ f, fuel = f + 1 := ⟨fuel - 1, by simp at hfuel; omega⟩
    have hn : scripted ((t, d) :: tail) u = some (tail, t, d) := rfl
    rw [List.nil_append, retry_loop_step scripted u f _ _ tt t rc rep d htt
      (by simpa using hrc) hn]
    have : ¬ t ≤ 0 := by omega
    simp [this]
  | cons o rest ih =>
    intro fuel tt rc rep htt hto hrc hfuel
    obtain ⟨t0, d0⟩ := o
    simp only [List.length_cons] at hrc hfuel
    obtain ⟨f, rfl⟩ : ∃ f, fuel = f + 1 := ⟨fuel - 1, by omega⟩
    have ht0 : t0 ≤ 0 := hto (t0, d0) (List.mem_cons_self _ _)
    have hn : scripted ((t0, d0) :: (rest ++ (t, d) :: tail)) u =
        some (rest ++ (t, d) :: tail, t0, d0) := rfl
    rw [List.cons_append, retry_loop_step scripted u f _ _ tt t0 rc rep d0 htt
      (by omega) hn]
    have hx : ¬ rc + 1 ≥ MAX_TRIES := by omega
    simp only [ht0, if_true, hx, if_false]
    rw [ih f t0 (rc + 1) _ ht0 (fun o ho => hto o (List.mem_cons_of_mem _ ho)) (by omega)
      (by omega)]
    simp only [List.length_cons, List.append_assoc, List.singleton_append, Option.some.injEq,
      Prod.mk.injEq, true_and]
    have h1 : u :: List.replicate (rest.length + 1) u =
        List.replicate (rest.length + 1 + 1) u := by simp [List.replicate_succ]
    have h2 : rc + 1 + rest.length = rc + (rest.length + 1) := by omega
    rw [h1, h2]

/-- On a scripted network, when the next outcomes are timeouts for all the tries that
are left, the unit is transmitted once per try left, nothing is read and the loop ends
in `exit(0)`. -/
theorem retry_loop_exhaust (u : DataPacket) :
    ∀ (n : Nat) (script : List (Int × Option Reply)) (fuel : Nat) (tt : Int) (rc : Nat)
      (rep : UnitReport), tt ≤ 0 → 0 < n → rc + n = MAX_TRIES → n ≤ fuel →
      (∀ o ∈ script.take n, o.1 ≤ 0) →
      retry_loop scripted u fuel script tt rc rep =
        some (script.drop n, { transmitted := rep.transmitted ++ List.replicate n u,
                               resendCt := MAX_TRIES,
                               seen := rep.seen,
                               messages := rep.messages,
                               exited := true }) := by
  intro n
  induction n with
  | zero => intro _ _ _ _ _ _ h0; omega
  | succ n ih =>
    intro script fuel tt rc rep htt _ hrc hfuel hto
    obtain ⟨f, rfl⟩ : ∃ f, fuel = f + 1 := ⟨fuel - 1, by omega⟩
    obtain ⟨net', t', d, hn, ht', hdrop, htake⟩ :
        ∃ net' t' d, scripted script u = some (net', t', d) ∧ t' ≤ 0 ∧
          script.drop (n + 1) = net'.drop n ∧ (∀ o ∈ net'.take n, o.1 ≤ 0) := by
      cases script with
      | nil => exact ⟨[], -1, none, rfl, by omega, by simp, by simp⟩
      | cons o rest =>
        obtain ⟨t0, d0⟩ := o
        refine ⟨rest, t0, d0, rfl, hto (t0, d0) (by simp), by simp, ?_⟩
        intro o ho
        exact hto o (by simp [ho])
    rw [retry_loop_step scripted u f _ _ tt t' rc rep d htt (by omega) hn]
    by_cases hlast : n = 0
    · subst hlast
      have hx : rc + 1 ≥ MAX_TRIES := by omega
      simp only [ht', if_true, hx]
      simp [hdrop, hrc]
    · have hx : ¬ rc + 1 ≥ MAX_TRIES := by omega
      simp only [ht', if_true, hx, if_false]
      rw [ih net' f t' (rc + 1) _ ht' (by omega) (by omega) (by omega) htake, hdrop]
      simp [List.replicate_succ]

/-- The retry loop on a scripted network, entered with its condition true and fuel for
the tries that are left, returns; the counter ends at most at `MAX_TRIES`, every datagram
transmitted is the unit, and their number is the counter, plus one unless the loop
ended in `exit(0)`. -/
theorem retry_loop_total (u : DataPacket) :
    ∀ (fuel : Nat) (script : List (Int × Option Reply)) (tt : Int) (rc : Nat)
      (rep : UnitReport), tt ≤ 0 → rc < MAX_TRIES → MAX_TRIES ≤ fuel + rc →
      (∀ x ∈ rep.transmitted, x = u) → rep.transmitted.length = rc →
      ∃ net' rep', retry_loop scripted u fuel script tt rc rep = some (net', rep') ∧
        rep'.resendCt ≤ MAX_TRIES ∧ (∀ x ∈ rep'.transmitted, x = u) ∧
        rep'.transmitted.length = (if rep'.exited then rep'.resendCt else rep'.resendCt + 1) ∧
        (rep'.exited = true ↔ rep'.resendCt = MAX_TRIES) := by
  intro fuel
  induction fuel with
  | zero => intro _ _ _ _ _ h1 h2; omega
  | succ f ih =>
    intro script tt rc rep htt hrc hfuel hall hlen
    obtain ⟨net', t', d, hn⟩ : ∃ net' t' d, scripted script u = some (net', t', d) := by
      cases script with
      | nil => exact ⟨[], -1, none, rfl⟩
      | cons o rest => exact ⟨rest, o.1, o.2, rfl⟩
    rw [retry_loop_step scripted u f _ _ tt t' rc rep d htt hrc hn]
    have hall' : ∀ x ∈ rep.transmitted ++ [u], x = u := by
      intro x hx
      rcases List.mem_append.mp hx with h | h
      · exact hall x h
      · simpa using h
    by_cases ht : t' ≤ 0
    · by_cases hx : rc + 1 ≥ MAX_TRIES
      · simp only [ht, if_true, hx]
        refine ⟨net', _, rfl, ?_, hall', ?_, ?_⟩
        · simp only; omega
        · simp [hlen]
        · simp only [true_iff]; omega
      · simp only [ht, if_true, hx, if_false]
        exact ih net' t' (rc + 1) _ ht (by omega) (by omega) hall' (by simp [hlen])
    · simp only [ht, if_false]
      refine ⟨net', _, rfl, ?_, hall', ?_, ?_⟩
      · simp only; omega
      · simp [hlen]
      · simp only [Bool.false_eq_true, false_iff]; omega

/-- A session on a list of units goes on after a part that did not exit. -/
theorem send_units_append {σ : Type} (network : Network σ) (l : List DataPacket) :
    ∀ (pre : List DataPacket) (net net1 : σ) (reports : List UnitReport),
      send_units network net pre = some (net1, reports) →
      (∀ r ∈ reports, r.exited = false) →
      send_units network net (pre ++ l) =
        (send_units network net1 l).map (fun x => (x.1, reports ++ x.2)) := by
  intro pre
  induction pre with
  | nil =>
    intro net net1 reports h _
    simp only [send_units, Option.some.injEq, Prod.mk.injEq] at h
    obtain ⟨rfl, rfl⟩ := h
    cases hl : send_units network net l <;> simp [hl]
  | cons u rest ih =>
    intro net net1 reports h hne
    simp only [send_units] at h
    cases hu : send_unit network net u with
    | none => simp [hu] at h
    | some r =>
      obtain ⟨net', report⟩ := r
      simp only [hu] at h
      by_cases hex : report.exited = true
      · simp only [hex, if_true, Option.some.injEq, Prod.mk.injEq] at h
        obtain ⟨-, rfl⟩ := h
        have := hne report (by simp)
        rw [hex] at this
        cases this
      · simp only [hex] at h
        cases hr : send_units network net' rest with
        | none => simp [hr] at h
        | some r' =>
          obtain ⟨net'', reports'⟩ := r'
          simp only [hr, Bool.false_eq_true, if_false, Option.some.injEq,
            Prod.mk.injEq] at h
          obtain ⟨rfl, rfl⟩ := h
          have hne' : ∀ r ∈ reports', r.exited = false :=
            fun r hr' => hne r (List.mem_cons_of_mem _ hr')
          rw [List.cons_append, send_units]
          simp only [hu, hex, Bool.false_eq_true, if_false]
          rw [ih net' net'' reports' hr hne']
          cases hl : send_units network net'' l <;> simp

/-- A session on a scripted network returns, whatever the script and the units are: at
most one report per unit, each with its counter at most `MAX_TRIES` and with as many
transmissions as the counter, plus one unless the unit ended in `exit(0)`. -/
theorem send_units_total : ∀ (units : List DataPacket)
    (script : List (Int × Option Reply)),
    ∃ net reports, send_units scripted script units = some (net, reports) ∧
      reports.length ≤ units.length ∧
      ∀ r ∈ reports, r.resendCt ≤ MAX_TRIES ∧
        r.transmitted.length = (if r.exited then r.resendCt else r.resendCt + 1) := by
  intro units
  induction units with
  | nil => intro script; exact ⟨script, [], rfl, le_refl _, fun _ h => by simp at h⟩
  | cons v rest ih =>
    intro script
    obtain ⟨net, rep, hu, hle, -, hlen, -⟩ := retry_loop_total v MAX_TRIES script 0 0
      { transmitted := [], resendCt := 0, seen := [], messages := [], exited := false }
      (le_refl _) (by decide) (by decide) (by simp) rfl
    have hu' : send_unit scripted script v = some (net, rep) := hu
    by_cases hex : rep.exited = true
    · refine ⟨net, [rep], by simp [send_units, hu', hex], by simp, ?_⟩
      intro r hr
      simp only [List.mem_singleton] at hr
      rw [hr]
      exact ⟨hle, hlen⟩
    · obtain ⟨net2, reports, hrun, hlen2, hall⟩ := ih net
      refine ⟨net2, rep :: reports, by simp [send_units, hu', hex, hrun], by simp; omega, ?_⟩
      intro r hr
      rcases List.mem_cons.mp hr with h | h
      · rw [h]; exact ⟨hle, hlen⟩
      · exact hall r h

end Client

end Transfer

namespace Auth

namespace Client

/-- One iteration of the retry loop entered with its condition true, on a network that
answers: after a timeout the counter grows and the loop exits at `MAX_TRIES` or goes
on; after a positive count the loop ends with the datagram read. -/
theorem auth_retry_loop_step {σ : Type} (network : Network σ) (u : PermissionPacket) (fuel : Nat)
    (net net' : σ) (tt t' : Int) (rc : Nat) (rep : UnitReport) (d : Option PermissionPacket)
    (htt : tt ≤ 0) (hrc : rc < MAX_TRIES) (hn : network net u = some (net', t', d)) :
    retry_loop network u (fuel + 1) net tt rc rep =
      if t' ≤ 0 then
        if rc + 1 ≥ MAX_TRIES then
          some (net', { transmitted := rep.transmitted ++ [u], resendCt := rc + 1,
                        seen := rep.seen, messages := rep.messages, exited := true })
        else
          retry_loop network u fuel net' t' (rc + 1)
            { transmitted := rep.transmitted ++ [u], resendCt := rc + 1,
              seen := rep.seen, messages := rep.messages, exited := false }
      else
        some (net', { transmitted := rep.transmitted ++ [u], resendCt := rc,
                      seen := rep.seen ++ d.toList,
                      messages := rep.messages ++ d.toList.map classify,
                      exited := false }) := by
  rw [retry_loop.eq_def]
  simp only [htt, hrc, and_self, if_true, hn]
  by_cases ht : t' ≤ 0
  · by_cases hx : rc + 1 ≥ MAX_TRIES
    · simp [ht, hx]
    · simp [ht, hx]
  · have hx : ¬ rc ≥ MAX_TRIES := by omega
    simp only [ht, if_false, hx]
    rw [retry_loop.eq_def]
    simp [ht, hx]

/-- On a scripted network, a unit whose first positive count comes after the timeouts
`timeouts`, fewer than the tries left, is transmitted once per timeout and once more;
the loop ends with the datagram read and does not exit. -/
theorem auth_retry_loop_reply (u : PermissionPacket) (t : Int) (d : Option PermissionPacket)
    (tail : List (Int × Option PermissionPacket)) (ht : 0 < t) :
    ∀ (timeouts : List (Int × Option PermissionPacket)) (fuel : Nat) (tt : Int) (rc : Nat)
      (rep : UnitReport), tt ≤ 0 → (∀ o ∈ timeouts, o.1 ≤ 0) →
      rc + timeouts.length < MAX_TRIES → timeouts.length < fuel →
      retry_loop scripted u fuel (timeouts ++ (t, d) :: tail) tt rc rep =
        some (tail, { transmitted := rep.transmitted ++ List.replicate (timeouts.length + 1) u,
                      resendCt := rc + timeouts.length,
                      seen := rep.seen ++ d.toList,
                      messages := rep.messages ++ d.toList.map classify,
                      exited := false }) := by
  intro timeouts
  induction timeouts with
  | nil =>
    intro fuel tt rc rep htt _ hrc hfuel
    obtain ⟨f, rfl⟩ : ∃ f, fuel = f + 1 := ⟨fuel - 1, by simp at hfuel; omega⟩
    have hn : scripted ((t, d) :: tail) u = some (tail, t, d) := rfl
    rw [List.nil_append, auth_retry_loop_step scripted u f _ _ tt t rc rep d htt
      (by simpa using hrc) hn]
    have : ¬ t ≤ 0 := by omega
    simp [this]
  | cons o rest ih =>
    intro fuel tt rc rep htt hto hrc hfuel
    obtain ⟨t0, d0⟩ := o
    simp only [List.length_cons] at hrc hfuel
    obtain ⟨f, rfl⟩ : ∃ f, fuel = f + 1 := ⟨fuel - 1, by omega⟩
    have ht0 : t0 ≤ 0 := hto (t0, d0) (List.mem_cons_self _ _)
    have hn : scripted ((t0, d0) :: (rest ++ (t, d) :: tail)) u =
        some (rest ++ (t, d) :: tail, t0, d0) := rfl
    rw [List.cons_append, auth_retry_loop_step scripted u f _ _ tt t0 rc rep d0 htt
      (by omega) hn]
    have hx : ¬ rc + 1 ≥ MAX_TRIES := by omega
    simp only [ht0, if_true, hx, if_false]
    rw [ih f t0 (rc + 1) _ ht0 (fun o ho => hto o (List.mem_cons_of_mem _ ho)) (by omega)
      (by omega)]
    simp only [List.length_cons, List.append_assoc, List.singleton_append, Option.some.injEq,
      Prod.mk.injEq, true_and]
    have h1 : u :: List.replicate (rest.length + 1) u =
        List.replicate (rest.length + 1 + 1) u := by simp [List.replicate_succ]
    have h2 : rc + 1 + rest.length = rc + (rest.length + 1) := by omega
    rw [h1, h2]

/-- On a scripted network, when the next outcomes are timeouts for all the tries that
are left, the unit is transmitted once per try left, nothing is read and the loop ends
in `exit(0)`. -/
theorem auth_retry_loop_exhaust (u : PermissionPacket) :
    ∀ (n : Nat) (script : List (Int × Option PermissionPacket)) (fuel : Nat) (tt : Int) (rc : Nat)
      (rep : UnitReport), tt ≤ 0 → 0 < n → rc + n = MAX_TRIES → n ≤ fuel →
      (∀ o ∈ script.take n, o.1 ≤ 0) →
      retry_loop scripted u fuel script tt rc rep =
        some (script.drop n, { transmitted := rep.transmitted ++ List.replicate n u,
                               resendCt := MAX_TRIES,
                               seen := rep.seen,
                               messages := rep.messages,
                               exited := true }) := by
  intro n
  induction n with
  | zero => intro _ _ _ _ _ _ h0; omega
  | succ n ih =>
    intro script fuel tt rc rep htt _ hrc hfuel hto
    obtain ⟨f, rfl⟩ : ∃ f, fuel = f + 1 := ⟨fuel - 1, by omega⟩
    obtain ⟨net', t', d, hn, ht', hdrop, htake⟩ :
        ∃ net' t' d, scripted script u = some (net', t', d) ∧ t' ≤ 0 ∧
          script.drop (n + 1) = net'.drop n ∧ (∀ o ∈ net'.take n, o.1 ≤ 0) := by
      cases script with
      | nil => exact ⟨[], -1, none, rfl, by omega, by simp, by simp⟩
      | cons o rest =>
        obtain ⟨t0, d0⟩ := o
        refine ⟨rest, t0, d0, rfl, hto (t0, d0) (by simp), by simp, ?_⟩
        intro o ho
        exact hto o (by simp [ho])
    rw [auth_retry_loop_step scripted u f _ _ tt t' rc rep d htt (by omega) hn]
    by_cases hlast : n = 0
    · subst hlast
      have hx : rc + 1 ≥ MAX_TRIES := by omega
      simp only [ht', if_true, hx]
      simp [hdrop, hrc]
    · have hx : ¬ rc + 1 ≥ MAX_TRIES := by omega
      simp only [ht', if_true, hx, if_false]
      rw [ih net' f t' (rc + 1) _ ht' (by omega) (by omega) (by omega) htake, hdrop]
      simp [List.replicate_succ]

/-- The retry loop on a scripted network, entered with its condition true and fuel for
the tries that are left, returns; the counter ends at most at `MAX_TRIES`, every datagram
transmitted is the unit, and their number is the counter, plus one unless the loop
ended in `exit(0)`. -/
theorem auth_retry_loop_total (u : PermissionPacket) :
    ∀ (fuel : Nat) (script : List (Int × Option PermissionPacket)) (tt : Int) (rc : Nat)
      (rep : UnitReport), tt ≤ 0 → rc < MAX_TRIES → MAX_TRIES ≤ fuel + rc →
      (∀ x ∈ rep.transmitted, x = u) → rep.transmitted.length = rc →
      ∃ net' rep', retry_loop scripted u fuel script tt rc rep = some (net', rep') ∧
        rep'.resendCt ≤ MAX_TRIES ∧ (∀ x ∈ rep'.transmitted, x = u) ∧
        rep'.transmitted.length = (if rep'.exited then rep'.resendCt else rep'.resendCt + 1) ∧
        (rep'.exited = true ↔ rep'.resendCt = MAX_TRIES) := by
  intro fuel
  induction fuel with
  | zero => intro _ _ _ _ _ h1 h2; omega
  | succ f ih =>
    intro script tt rc rep htt hrc hfuel hall hlen
    obtain ⟨net', t', d, hn⟩ : ∃ net' t' d, scripted script u = some (net', t', d) := by
      cases script with
      | nil => exact ⟨[], -1, none, rfl⟩
      | cons o rest => exact ⟨rest, o.1, o.2, rfl⟩
    rw [auth_retry_loop_step scripted u f _ _ tt t' rc rep d htt hrc hn]
    have hall' : ∀ x ∈ rep.transmitted ++ [u], x = u := by
      intro x hx
      rcases List.mem_append.mp hx with h | h
      · exact hall x h
      · simpa using h
    by_cases ht : t' ≤ 0
    · by_cases hx : rc + 1 ≥ MAX_TRIES
      · simp only [ht, if_true, hx]
        refine ⟨net', _, rfl, ?_, hall', ?_, ?_⟩
        · simp only; omega
        · simp [hlen]
        · simp only [true_iff]; omega
      · simp only [ht, if_true, hx, if_false]
        exact ih net' t' (rc + 1) _ ht (by omega) (by omega) hall' (by simp [hlen])
    · simp only [ht, if_false]
      refine ⟨net', _, rfl, ?_, hall', ?_, ?_⟩
      · simp only; omega
      · simp [hlen]
      · simp only [Bool.false_eq_true, false_iff]; omega

/-- A session on a list of units goes on after a part that did not exit. -/
theorem auth_send_units_append {σ : Type} (network : Network σ) (l : List PermissionPacket) :
    ∀ (pre : List PermissionPacket) (net net1 : σ) (reports : List UnitReport),
      send_units network net pre = some (net1, reports) →
      (∀ r ∈ reports, r.exited = false) →
      send_units network net (pre ++ l) =
        (send_units network net1 l).map (fun x => (x.1, reports ++ x.2)) := by
  intro pre
  induction pre with
  | nil =>
    intro net net1 reports h _
    simp only [send_units, Option.some.injEq, Prod.mk.injEq] at h
    obtain ⟨rfl, rfl⟩ := h
    cases hl : send_units network net l <;> simp [hl]
  | cons u rest ih =>
    intro net net1 reports h hne
    simp only [send_units] at h
    cases hu : send_unit network net u with
    | none => simp [hu] at h
    | some r =>
      obtain ⟨net', report⟩ := r
      simp only [hu] at h
      by_cases hex : report.exited = true
      · simp only [hex, if_true, Option.some.injEq, Prod.mk.injEq] at h
        obtain ⟨-, rfl⟩ := h
        have := hne report (by simp)
        rw [hex] at this
        cases this
      · simp only [hex] at h
        cases hr : send_units network net' rest with
        | none => simp [hr] at h
        | some r' =>
          obtain ⟨net'', reports'⟩ := r'
          simp only [hr, Bool.false_eq_true, if_false, Option.some.injEq,
            Prod.mk.injEq] at h
          obtain ⟨rfl, rfl⟩ := h
          have hne' : ∀ r ∈ reports', r.exited = false :=
            fun r hr' => hne r (List.mem_cons_of_mem _ hr')
          rw [List.cons_append, send_units]
          simp only [hu, hex, Bool.false_eq_true, if_false]
          rw [ih net' net'' reports' hr hne']
          cases hl : send_units network net'' l <;> simp

/-- A session on a scripted network returns, whatever the script and the units are: at
most one report per unit, each with its counter at most `MAX_TRIES` and with as many
transmissions as the counter, plus one unless the unit ended in `exit(0)`. -/
theorem auth_send_units_total : ∀ (units : List PermissionPacket)
    (script : List (Int × Option PermissionPacket)),
    ∃ net reports, send_units scripted script units = some (net, reports) ∧
      reports.length ≤ units.length ∧
      ∀ r ∈ reports, r.resendCt ≤ MAX_TRIES ∧
        r.transmitted.length = (if r.exited then r.resendCt else r.resendCt + 1) := by
  intro units
  induction units with
  | nil => intro script; exact ⟨script, [], rfl, le_refl _, fun _ h => by simp at h⟩
  | cons v rest ih =>
    intro script
    obtain ⟨net, rep, hu, hle, -, hlen, -⟩ := auth_retry_loop_total v MAX_TRIES script 0 0
      { transmitted := [], resendCt := 0, seen := [], messages := [], exited := false }
      (le_refl _) (by decide) (by decide) (by simp) rfl
    have hu' : send_unit scripted script v = some (net, rep) := hu
    by_cases hex : rep.exited = true
    · refine ⟨net, [rep], by simp [send_units, hu', hex], by simp, ?_⟩
      intro r hr
      simp only [List.mem_singleton] at hr
      rw [hr]
      exact ⟨hle, hlen⟩
    · obtain ⟨net2, reports, hrun, hlen2, hall⟩ := ih net
      refine ⟨net2, rep :: reports, by simp [send_units, hu', hex, hrun], by simp; omega, ?_⟩
      intro r hr
      rcases List.mem_cons.mp hr with h | h
      · rw [h]; exact ⟨hle, hlen⟩
      · exact hall r h

end Client

end Auth

/-- C12. Sender retry exhaustion, both profiles, with `MAX_TRIES = 3`. In a session on
a scripted network, when the units before have ended without `exit` and the next three
`recvfrom` outcomes are timeouts (return value at most 0, or nothing arrives any more),
the session ends in `exit(0)` inside the unit in progress: that unit has been passed to
`sendto` exactly 3 times, nothing was read for it, and the reports of the session are
those of the units before and of this unit, whatever units follow. -/
theorem C12_retry_exhaustion
    (script0 script : List (Int × Option Transfer.Reply))
    (pre rest : List Transfer.DataPacket) (u : Transfer.DataPacket)
    (reports : List Transfer.Client.UnitReport)
    (ascript0 ascript : List (Int × Option Auth.PermissionPacket))
    (apre arest : List Auth.PermissionPacket) (au : Auth.PermissionPacket)
    (areports : List Auth.Client.UnitReport)
    (hpre : Transfer.Client.send_units Transfer.Client.scripted script0 pre =
      some (script, reports))
    (hrun : ∀ r ∈ reports, r.exited = false)
    (htimeouts : ∀ o ∈ script.take 3, o.1 ≤ 0)
    (hapre : Auth.Client.send_units Auth.Client.scripted ascript0 apre =
      some (ascript, areports))
    (harun : ∀ r ∈ areports, r.exited = false)
    (hatimeouts : ∀ o ∈ ascript.take 3, o.1 ≤ 0) :
    Transfer.MAX_TRIES = 3 ∧ Auth.Client.MAX_TRIES = 3 ∧
    Transfer.Client.send_units Transfer.Client.scripted script0 (pre ++ u :: rest) =
      some (script.drop 3, reports ++
        [{ transmitted := [u, u, u], resendCt := 3, seen := [], messages := [],
           exited := true }]) ∧
    Auth.Client.send_units Auth.Client.scripted ascript0 (apre ++ au :: arest) =
      some (ascript.drop 3, areports ++
        [{ transmitted := [au, au, au], resendCt := 3, seen := [], messages := [],
           exited := true }]) := by
  refine ⟨rfl, rfl, ?_, ?_⟩
  · rw [Transfer.Client.send_units_append Transfer.Client.scripted (u :: rest) pre script0
      script reports hpre hrun]
    have hu := Transfer.Client.retry_loop_exhaust u 3 script Transfer.MAX_TRIES 0 0
      { transmitted := [], resendCt := 0, seen := [], messages := [], exited := false }
      (le_refl _) (by decide) (by decide) (by decide) htimeouts
    simp only [Transfer.Client.send_units, Transfer.Client.send_unit, hu]
    simp [Transfer.MAX_TRIES, List.replicate]
  · rw [Auth.Client.auth_send_units_append Auth.Client.scripted (au :: arest) apre ascript0
      ascript areports hapre harun]
    have hu := Auth.Client.auth_retry_loop_exhaust au 3 ascript Auth.Client.MAX_TRIES 0 0
      { transmitted := [], resendCt := 0, seen := [], messages := [], exited := false }
      (le_refl _) (by decide) (by decide) (by decide) hatimeouts
    simp only [Auth.Client.send_units, Auth.Client.send_unit, hu]
    simp [Auth.Client.MAX_TRIES, List.replicate]

/-- Witness of C12: in each profile the first unit is answered, then nothing arrives
any more; the second unit is sent three times and the third unit is never sent. -/
theorem C12_retry_exhaustion_witness :
    Transfer.Client.send_units Transfer.Client.scripted
        [(10, some (.ack ⟨0xFFFF, 0xFF, 0xFFF2, none, 0xFFFF⟩))]
        ([⟨0xFFFF, 0xFF, 0xFF1, 1, 1, [97, 0], 0, 0xFFFF⟩] ++
          ⟨0xFFFF, 0xFF, 0xFF1, 2, 1, [98, 0], 0, 0xFFFF⟩ ::
            [⟨0xFFFF, 0xFF, 0xFF1, 3, 1, [99, 0], 0, 0xFFFF⟩]) =
      some (([] : List (Int × Option Transfer.Reply)).drop 3,
        [{ transmitted := [⟨0xFFFF, 0xFF, 0xFF1, 1, 1, [97, 0], 0, 0xFFFF⟩], resendCt := 0,
           seen := [.ack ⟨0xFFFF, 0xFF, 0xFFF2, none, 0xFFFF⟩],
           messages := [.ackReceived], exited := false }] ++
        [{ transmitted := [⟨0xFFFF, 0xFF, 0xFF1, 2, 1, [98, 0], 0, 0xFFFF⟩,
             ⟨0xFFFF, 0xFF, 0xFF1, 2, 1, [98, 0], 0, 0xFFFF⟩,
             ⟨0xFFFF, 0xFF, 0xFF1, 2, 1, [98, 0], 0, 0xFFFF⟩],
           resendCt := 3, seen := [], messages := [], exited := true }]) ∧
    Auth.Client.send_units Auth.Client.scripted
        [(24, some ⟨0xFFFF, 0xFF, some 0xFFFB, 1, 5, 4, 1001, 0xFFFF⟩), (-1, none), (0, none),
          (-1, none), (24, some ⟨0xFFFF, 0xFF, some 0xFFF9, 3, 5, 2, 2002, 0xFFFF⟩)]
        ([⟨0xFFFF, 0xFF, some 0xFFF8, 1, 5, 4, 1001, 0xFFFF⟩] ++
          ⟨0xFFFF, 0xFF, some 0xFFF8, 2, 5, 3, 1001, 0xFFFF⟩ ::
            [⟨0xFFFF, 0xFF, some 0xFFF8, 3, 5, 2, 2002, 0xFFFF⟩]) =
      some (([(-1, none), (0, none), (-1, none),
          (24, some ⟨0xFFFF, 0xFF, some 0xFFF9, 3, 5, 2, 2002, 0xFFFF⟩)] :
            List (Int × Option Auth.PermissionPacket)).drop 3,
        [{ transmitted := [⟨0xFFFF, 0xFF, some 0xFFF8, 1, 5, 4, 1001, 0xFFFF⟩], resendCt := 0,
           seen := [⟨0xFFFF, 0xFF, some 0xFFFB, 1, 5, 4, 1001, 0xFFFF⟩],
           messages := [.accessOk], exited := false }] ++
        [{ transmitted := [⟨0xFFFF, 0xFF, some 0xFFF8, 2, 5, 3, 1001, 0xFFFF⟩,
             ⟨0xFFFF, 0xFF, some 0xFFF8, 2, 5, 3, 1001, 0xFFFF⟩,
             ⟨0xFFFF, 0xFF, some 0xFFF8, 2, 5, 3, 1001, 0xFFFF⟩],
           resendCt := 3, seen := [], messages := [], exited := true }]) :=
  (C12_retry_exhaustion
    [(10, some (.ack ⟨0xFFFF, 0xFF, 0xFFF2, none, 0xFFFF⟩))] []
    [⟨0xFFFF, 0xFF, 0xFF1, 1, 1, [97, 0], 0, 0xFFFF⟩]
    [⟨0xFFFF, 0xFF, 0xFF1, 3, 1, [99, 0], 0, 0xFFFF⟩]
    ⟨0xFFFF, 0xFF, 0xFF1, 2, 1, [98, 0], 0, 0xFFFF⟩
    [{ transmitted := [⟨0xFFFF, 0xFF, 0xFF1, 1, 1, [97, 0], 0, 0xFFFF⟩], resendCt := 0,
       seen := [.ack ⟨0xFFFF, 0xFF, 0xFFF2, none, 0xFFFF⟩],
       messages := [.ackReceived], exited := false }]
    [(24, some ⟨0xFFFF, 0xFF, some 0xFFFB, 1, 5, 4, 1001, 0xFFFF⟩), (-1, none), (0, none),
      (-1, none), (24, some ⟨0xFFFF, 0xFF, some 0xFFF9, 3, 5, 2, 2002, 0xFFFF⟩)]
    [(-1, none), (0, none), (-1, none),
      (24, some ⟨0xFFFF, 0xFF, some 0xFFF9, 3, 5, 2, 2002, 0xFFFF⟩)]
    [⟨0xFFFF, 0xFF, some 0xFFF8, 1, 5, 4, 1001, 0xFFFF⟩]
    [⟨0xFFFF, 0xFF, some 0xFFF8, 3, 5, 2, 2002, 0xFFFF⟩]
    ⟨0xFFFF, 0xFF, some 0xFFF8, 2, 5, 3, 1001, 0xFFFF⟩
    [{ transmitted := [⟨0xFFFF, 0xFF, some 0xFFF8, 1, 5, 4, 1001, 0xFFFF⟩], resendCt := 0,
       seen := [⟨0xFFFF, 0xFF, some 0xFFFB, 1, 5, 4, 1001, 0xFFFF⟩],
       messages := [.accessOk], exited := false }]
    (by decide) (by decide) (by decide) (by decide) (by decide) (by decide)).2.2

/-- C13. Sender retry rule, both profiles. On a scripted network, for every unit `u`
whose first positive `recvfrom` count comes after `k < 3` timeouts: the work for the unit
returns, `u` was passed to `sendto` exactly `k + 1` times, the retry counter is `k`, the
datagram read (whatever its kind) is the only one seen, there is no `exit`, and only the
`k + 1` outcomes of the script were consumed; the session on the units that follow
returns with some reports, and the session on `u` and those units returns with the
report of `u` put before them. For every script, the work for a unit returns with
counter at most 3, every datagram sent is the unit itself and their number is the
counter plus one, or the counter, 3, when the loop ended in `exit(0)`; and the session on
any list of units returns. -/
theorem C13_retry_rule
    (timeouts tail : List (Int × Option Transfer.Reply)) (t : Int)
    (d : Option Transfer.Reply) (u : Transfer.DataPacket) (rest : List Transfer.DataPacket)
    (atimeouts atail : List (Int × Option Auth.PermissionPacket)) (at' : Int)
    (ad : Option Auth.PermissionPacket) (au : Auth.PermissionPacket)
    (arest : List Auth.PermissionPacket)
    (hto : ∀ o ∈ timeouts, o.1 ≤ 0) (hk : timeouts.length < 3) (ht : 0 < t)
    (hato : ∀ o ∈ atimeouts, o.1 ≤ 0) (hak : atimeouts.length < 3) (hat : 0 < at') :
    (Transfer.Client.send_unit Transfer.Client.scripted (timeouts ++ (t, d) :: tail) u =
        some (tail, { transmitted := List.replicate (timeouts.length + 1) u,
                      resendCt := timeouts.length, seen := d.toList,
                      messages := d.toList.map Transfer.Client.classify,
                      exited := false }) ∧
      ∃ net reports,
        Transfer.Client.send_units Transfer.Client.scripted tail rest = some (net, reports) ∧
        Transfer.Client.send_units Transfer.Client.scripted (timeouts ++ (t, d) :: tail)
            (u :: rest) =
          some (net, { transmitted := List.replicate (timeouts.length + 1) u,
                       resendCt := timeouts.length, seen := d.toList,
                       messages := d.toList.map Transfer.Client.classify,
                       exited := false } :: reports)) ∧
    (∀ (script : List (Int × Option Transfer.Reply)) (v : Transfer.DataPacket),
      ∃ net rep, Transfer.Client.send_unit Transfer.Client.scripted script v =
          some (net, rep) ∧
        rep.resendCt ≤ 3 ∧ (∀ x ∈ rep.transmitted, x = v) ∧
        rep.transmitted.length = (if rep.exited then rep.resendCt else rep.resendCt + 1) ∧
        (rep.exited = true ↔ rep.resendCt = 3)) ∧
    (∀ (script : List (Int × Option Transfer.Reply)) (units : List Transfer.DataPacket),
      ∃ net reports, Transfer.Client.send_units Transfer.Client.scripted script units =
          some (net, reports) ∧ reports.length ≤ units.length) ∧
    (Auth.Client.send_unit Auth.Client.scripted (atimeouts ++ (at', ad) :: atail) au =
        some (atail, { transmitted := List.replicate (atimeouts.length + 1) au,
                       resendCt := atimeouts.length, seen := ad.toList,
                       messages := ad.toList.map Auth.Client.classify,
                       exited := false }) ∧
      ∃ net reports,
        Auth.Client.send_units Auth.Client.scripted atail arest = some (net, reports) ∧
        Auth.Client.send_units Auth.Client.scripted (atimeouts ++ (at', ad) :: atail)
            (au :: arest) =
          some (net, { transmitted := List.replicate (atimeouts.length + 1) au,
                       resendCt := atimeouts.length, seen := ad.toList,
                       messages := ad.toList.map Auth.Client.classify,
                       exited := false } :: reports)) ∧
    (∀ (script : List (Int × Option Auth.PermissionPacket)) (v : Auth.PermissionPacket),
      ∃ net rep, Auth.Client.send_unit Auth.Client.scripted script v = some (net, rep) ∧
        rep.resendCt ≤ 3 ∧ (∀ x ∈ rep.transmitted, x = v) ∧
        rep.transmitted.length = (if rep.exited then rep.resendCt else rep.resendCt + 1) ∧
        (rep.exited = true ↔ rep.resendCt = 3)) ∧
    (∀ (script : List (Int × Option Auth.PermissionPacket))
        (units : List Auth.PermissionPacket),
      ∃ net reports, Auth.Client.send_units Auth.Client.scripted script units =
          some (net, reports) ∧ reports.length ≤ units.length) := by
  have hu := Transfer.Client.retry_loop_reply u t d tail ht timeouts Transfer.MAX_TRIES 0 0
    { transmitted := [], resendCt := 0, seen := [], messages := [], exited := false }
    (le_refl _) hto (by simpa [Transfer.MAX_TRIES] using hk)
    (by simpa [Transfer.MAX_TRIES] using hk)
  simp only [List.nil_append, Nat.zero_add] at hu
  have hau := Auth.Client.auth_retry_loop_reply au at' ad atail hat atimeouts
    Auth.Client.MAX_TRIES 0 0
    { transmitted := [], resendCt := 0, seen := [], messages := [], exited := false }
    (le_refl _) hato (by simpa [Auth.Client.MAX_TRIES] using hak)
    (by simpa [Auth.Client.MAX_TRIES] using hak)
  simp only [List.nil_append, Nat.zero_add] at hau
  refine ⟨⟨hu, ?_⟩, ?_, ?_, ⟨hau, ?_⟩, ?_, ?_⟩
  · obtain ⟨net, reports, hrun, -, -⟩ := Transfer.Client.send_units_total rest tail
    refine ⟨net, reports, hrun, ?_⟩
    rw [Transfer.Client.send_units]
    simp only [Transfer.Client.send_unit, hu, hrun, Bool.false_eq_true, if_false]
  · intro script v
    exact Transfer.Client.retry_loop_total v Transfer.MAX_TRIES script 0 0
      { transmitted := [], resendCt := 0, seen := [], messages := [], exited := false }
      (le_refl _) (by decide) (by decide) (by simp) rfl
  · intro script units
    obtain ⟨net, reports, hrun, hlen, -⟩ := Transfer.Client.send_units_total units script
    exact ⟨net, reports, hrun, hlen⟩
  · obtain ⟨net, reports, hrun, -, -⟩ := Auth.Client.auth_send_units_total arest atail
    refine ⟨net, reports, hrun, ?_⟩
    rw [Auth.Client.send_units]
    simp only [Auth.Client.send_unit, hau, hrun, Bool.false_eq_true, if_false]
  · intro script v
    exact Auth.Client.auth_retry_loop_total v Auth.Client.MAX_TRIES script 0 0
      { transmitted := [], resendCt := 0, seen := [], messages := [], exited := false }
      (le_refl _) (by decide) (by decide) (by simp) rfl
  · intro script units
    obtain ⟨net, reports, hrun, hlen, -⟩ := Auth.Client.auth_send_units_total units script
    exact ⟨net, reports, hrun, hlen⟩

/-- Witness of C13: in the transfer profile a REJECT arrives after two timeouts, and the
unit was sent three times; in the authorization profile a response arrives at once, and
the unit was sent once. -/
theorem C13_retry_rule_witness :
    Transfer.Client.send_unit Transfer.Client.scripted
        ([(-1, none), (0, none)] ++
          (12, some (.reject ⟨0xFFFF, 0xFF, 0xFFF3, some 0xFFF5, none, 0xFFFF⟩)) ::
            [(10, some (.ack ⟨0xFFFF, 0xFF, 0xFFF2, none, 0xFFFF⟩))])
        ⟨0xFFFF, 0xFF, 0xFF1, 1, 9, [97, 0], 0, 0xFFFF⟩ =
      some ([(10, some (.ack ⟨0xFFFF, 0xFF, 0xFFF2, none, 0xFFFF⟩))],
        { transmitted := List.replicate
            (([(-1, none), (0, none)] : List (Int × Option Transfer.Reply)).length + 1)
            ⟨0xFFFF, 0xFF, 0xFF1, 1, 9, [97, 0], 0, 0xFFFF⟩,
          resendCt := ([(-1, none), (0, none)] :
            List (Int × Option Transfer.Reply)).length,
          seen := (some (Transfer.Reply.reject
            ⟨0xFFFF, 0xFF, 0xFFF3, some 0xFFF5, none, 0xFFFF⟩)).toList,
          messages := (some (Transfer.Reply.reject
            ⟨0xFFFF, 0xFF, 0xFFF3, some 0xFFF5, none, 0xFFFF⟩)).toList.map
              Transfer.Client.classify,
          exited := false }) ∧
    Auth.Client.send_unit Auth.Client.scripted
        ([] ++ (24, some ⟨0xFFFF, 0xFF, some 0xFFFB, 1, 5, 4, 1001, 0xFFFF⟩) :: [])
        ⟨0xFFFF, 0xFF, some 0xFFF8, 1, 5, 4, 1001, 0xFFFF⟩ =
      some ([],
        { transmitted := List.replicate
            (([] : List (Int × Option Auth.PermissionPacket)).length + 1)
            ⟨0xFFFF, 0xFF, some 0xFFF8, 1, 5, 4, 1001, 0xFFFF⟩,
          resendCt := ([] : List (Int × Option Auth.PermissionPacket)).length,
          seen := (some (⟨0xFFFF, 0xFF, some 0xFFFB, 1, 5, 4, 1001, 0xFFFF⟩ :
            Auth.PermissionPacket)).toList,
          messages := (some (⟨0xFFFF, 0xFF, some 0xFFFB, 1, 5, 4, 1001, 0xFFFF⟩ :
            Auth.PermissionPacket)).toList.map Auth.Client.classify,
          exited := false }) :=
  match C13_retry_rule [(-1, none), (0, none)]
    [(10, some (.ack ⟨0xFFFF, 0xFF, 0xFFF2, none, 0xFFFF⟩))] 12
    (some (.reject ⟨0xFFFF, 0xFF, 0xFFF3, some 0xFFF5, none, 0xFFFF⟩))
    ⟨0xFFFF, 0xFF, 0xFF1, 1, 9, [97, 0], 0, 0xFFFF⟩ []
    [] [] 24 (some ⟨0xFFFF, 0xFF, some 0xFFFB, 1, 5, 4, 1001, 0xFFFF⟩)
    ⟨0xFFFF, 0xFF, some 0xFFF8, 1, 5, 4, 1001, 0xFFFF⟩ []
    (by decide) (by decide) (by decide) (by decide) (by decide) (by decide) with
  | ⟨⟨h, _⟩, _, _, ⟨ha, _⟩, _, _⟩ => ⟨h, ha⟩

namespace Transfer

namespace Client

theorem fgets_chars_length : ∀ (n : Nat) (file : List Nat), (fgets_chars n file).1.length ≤ n := by
  intro n
  induction n with
  | zero => intro file; simp [fgets_chars]
  | succ n ih =>
    intro file
    cases file with
    | nil => simp [fgets_chars]
    | cons c cs =>
      by_cases hc : c = 10
      · simp [fgets_chars, hc]
      · have := ih cs
        simp [fgets_chars, hc]
        omega

/-- `fgets` with the 255-byte buffer of the sender stores at most 254 characters, and
returns NULL only at the end of the file. -/
theorem fgets_spec (file : List Nat) :
    (file = [] ∧ fgets 255 file = none) ∨
      (file ≠ [] ∧ ∃ fpload rest, fgets 255 file = some (fpload, rest) ∧ fpload.length ≤ 254) := by
  by_cases h : file = []
  · exact Or.inl ⟨h, by simp [fgets, h]⟩
  · refine Or.inr ⟨h, (fgets_chars 254 file).1, (fgets_chars 254 file).2, by simp [fgets, h], ?_⟩
    exact fgets_chars_length 254 file

theorem strlen_append_zero : ∀ (s rest : List Nat), (∀ c ∈ s, c ≠ 0) →
    strlen (s ++ [0] ++ rest) = s.length := by
  intro s
  induction s with
  | nil => intro rest _; simp [strlen]
  | cons c cs ih =>
    intro rest h
    have hc : c ≠ 0 := h c (List.mem_cons_self _ _)
    have := ih rest (fun x hx => h x (List.mem_cons_of_mem _ hx))
    simp only [List.cons_append, strlen, hc, if_false, List.length_cons]
    simp only [List.append_assoc, List.singleton_append] at this
    simp [this]

/-- After `strcpy` the string length of the destination is that of the source, at most
the number of characters of the source. -/
theorem strlen_strcpy (dst src : List Nat) : strlen (strcpy dst src) ≤ src.length := by
  unfold strcpy
  rw [strlen_append_zero _ _ (fun c hc => by simpa using (List.mem_takeWhile_imp hc))]
  exact (List.takeWhile_prefix _).length_le

/-- The fields of the packet prepared for the unit with counter `seqNo`. -/
theorem prepare_spec (seqNo : Nat) (dataPacket : DataPacket) (fpload : Option (List Nat)) :
    (prepare seqNo dataPacket fpload).seg_no =
      (if seqNo = 7 then (seqNo % 256 + 8) % 256 else if seqNo = 10 then 1 else seqNo % 256) ∧
    (prepare seqNo dataPacket fpload).end_packet_identifier =
      (if seqNo = 9 then 0 else 0xFFFF) ∧
    (prepare seqNo dataPacket fpload).pload =
      (match fpload with
        | some src => strcpy dataPacket.pload src
        | none => dataPacket.pload) ∧
    (prepare seqNo dataPacket fpload).plen =
      (if seqNo = 8 then (strlen (prepare seqNo dataPacket fpload).pload % 256 + 6) % 256
        else strlen (prepare seqNo dataPacket fpload).pload % 256) ∧
    (prepare seqNo dataPacket fpload).start_packet_identifier =
      dataPacket.start_packet_identifier ∧
    (prepare seqNo dataPacket fpload).client_id = dataPacket.client_id ∧
    (prepare seqNo dataPacket fpload).packet_type = dataPacket.packet_type := by
  unfold prepare
  cases fpload <;>
    (by_cases h7 : seqNo = 7 <;> by_cases h8 : seqNo = 8 <;> by_cases h9 : seqNo = 9 <;>
      by_cases h10 : seqNo = 10 <;> simp [h7, h8, h9, h10, END_PACKET_IDENTIFIER])

/-- The packets of the `for` loop, unit by unit: the wire sequence number, the end
marker and the declared length of the unit with counter `s`, and a payload string of at
most 254 characters once a line has been read. -/
theorem main_units_spec : ∀ (n seqNo : Nat) (dataPacket : DataPacket) (file : List Nat),
    (file ≠ [] ∨ strlen dataPacket.pload ≤ 254) →
    List.Forall₂ (fun (u : DataPacket) (s : Nat) =>
        u.seg_no = (if s = 7 then (s % 256 + 8) % 256 else if s = 10 then 1 else s % 256) ∧
        u.end_packet_identifier = (if s = 9 then 0 else 0xFFFF) ∧
        strlen u.pload ≤ 254 ∧
        u.plen = (if s = 8 then (strlen u.pload + 6) % 256 else strlen u.pload))
      (main_units n seqNo dataPacket file) (List.range' (seqNo + 1) n) := by
  intro n
  induction n with
  | zero => intro _ _ _ _; simp [main_units]
  | succ n ih =>
    intro seqNo dataPacket file hinv
    have key : ∀ fpload : Option (List Nat),
        strlen (prepare (seqNo + 1) dataPacket fpload).pload ≤ 254 →
        (prepare (seqNo + 1) dataPacket fpload).seg_no =
          (if seqNo + 1 = 7 then ((seqNo + 1) % 256 + 8) % 256
            else if seqNo + 1 = 10 then 1 else (seqNo + 1) % 256) ∧
        (prepare (seqNo + 1) dataPacket fpload).end_packet_identifier =
          (if seqNo + 1 = 9 then 0 else 0xFFFF) ∧
        strlen (prepare (seqNo + 1) dataPacket fpload).pload ≤ 254 ∧
        (prepare (seqNo + 1) dataPacket fpload).plen =
          (if seqNo + 1 = 8 then (strlen (prepare (seqNo + 1) dataPacket fpload).pload + 6) % 256
            else strlen (prepare (seqNo + 1) dataPacket fpload).pload) := by
      intro fpload hlen
      obtain ⟨h1, h2, -, h4, -, -, -⟩ := prepare_spec (seqNo + 1) dataPacket fpload
      refine ⟨h1, h2, hlen, ?_⟩
      rw [h4]
      have hmod : strlen (prepare (seqNo + 1) dataPacket fpload).pload % 256 =
          strlen (prepare (seqNo + 1) dataPacket fpload).pload := Nat.mod_eq_of_lt (by omega)
      rw [hmod]
    rcases fgets_spec file with ⟨hnil, hf⟩ | ⟨-, fpload, rest, hf, hlen⟩
    · have hold : strlen dataPacket.pload ≤ 254 := by
        rcases hinv with h | h
        · exact absurd hnil h
        · exact h
      have hp : strlen (prepare (seqNo + 1) dataPacket none).pload ≤ 254 := by
        rw [(prepare_spec (seqNo + 1) dataPacket none).2.2.1]; exact hold
      simp only [main_units, hf, List.range'_succ]
      exact List.Forall₂.cons (key none hp) (ih (seqNo + 1) _ file (Or.inr hp))
    · have hp : strlen (prepare (seqNo + 1) dataPacket (some fpload)).pload ≤ 254 := by
        rw [(prepare_spec (seqNo + 1) dataPacket (some fpload)).2.2.1]
        exact le_trans (strlen_strcpy _ _) hlen
      simp only [main_units, hf, List.range'_succ]
      exact List.Forall₂.cons (key (some fpload) hp) (ih (seqNo + 1) _ rest (Or.inr hp))

/-- Once a line has been read, every packet of the `for` loop holds a NUL byte in its
payload array: `strcpy` wrote it. -/
theorem main_units_mem_zero : ∀ (n seqNo : Nat) (dataPacket : DataPacket) (file : List Nat),
    (file ≠ [] ∨ 0 ∈ dataPacket.pload) →
    ∀ u ∈ main_units n seqNo dataPacket file, 0 ∈ u.pload := by
  intro n
  induction n with
  | zero => intro _ _ _ _ u hu; simp [main_units] at hu
  | succ n ih =>
    intro seqNo dataPacket file hinv u hu
    rcases fgets_spec file with ⟨hnil, hf⟩ | ⟨-, fpload, rest, hf, -⟩
    · have hold : 0 ∈ dataPacket.pload := by
        rcases hinv with h | h
        · exact absurd hnil h
        · exact h
      have hp : 0 ∈ (prepare (seqNo + 1) dataPacket none).pload := by
        rw [(prepare_spec (seqNo + 1) dataPacket none).2.2.1]; exact hold
      simp only [main_units, hf, List.mem_cons] at hu
      rcases hu with hu | hu
      · rw [hu]; exact hp
      · exact ih (seqNo + 1) _ file (Or.inr hp) u hu
    · have hp : 0 ∈ (prepare (seqNo + 1) dataPacket (some fpload)).pload := by
        rw [(prepare_spec (seqNo + 1) dataPacket (some fpload)).2.2.1]
        simp [strcpy]
      simp only [main_units, hf, List.mem_cons] at hu
      rcases hu with hu | hu
      · rw [hu]; exact hp
      · exact ih (seqNo + 1) _ rest (Or.inr hp) u hu

/-- The wire sequence numbers of the `for` loop, whatever the file holds. -/
theorem main_units_seg_no : ∀ (n seqNo : Nat) (dataPacket : DataPacket) (file : List Nat),
    (main_units n seqNo dataPacket file).map (fun u => u.seg_no) =
      (List.range' (seqNo + 1) n).map (fun s =>
        if s = 7 then (s % 256 + 8) % 256 else if s = 10 then 1 else s % 256) := by
  intro n
  induction n with
  | zero => intro _ _ _; simp [main_units]
  | succ n ih =>
    intro seqNo dataPacket file
    cases hf : fgets 255 file with
    | none =>
      simp only [main_units, hf, List.range'_succ, List.map_cons, ih]
      rw [(prepare_spec (seqNo + 1) dataPacket none).1]
    | some r =>
      obtain ⟨fpload, rest⟩ := r
      simp only [main_units, hf, List.range'_succ, List.map_cons, ih]
      rw [(prepare_spec (seqNo + 1) dataPacket (some fpload)).1]

end Client

end Transfer

namespace Transfer

/-- The arm of the chain depends on the packet only through its sequence number, on
whether its declared length is its string length, and on whether its end marker is
0xFFFF. -/
theorem Server.chain_congr (count e : Int) (p q : DataPacket) (hseg : p.seg_no = q.seg_no)
    (hlen : Server.payloadLength p = some p.plen ↔ Server.payloadLength q = some q.plen)
    (hend : p.end_packet_identifier = 0xFFFF ↔ q.end_packet_identifier = 0xFFFF) :
    Server.chain count e (Server.payloadLength p) p =
      Server.chain count e (Server.payloadLength q) q := by
  unfold Server.chain
  simp only [hseg, END_PACKET_IDENTIFIER, ne_eq, hlen, hend]

/-- Two packets that agree in sequence number, in the consistency of the declared
length and in the validity of the end marker lead to the same next state and to replies
with the same codes. -/
theorem Server.main_iteration_congr (st : Server.State) (p q : DataPacket)
    (hseg : p.seg_no = q.seg_no)
    (hlen : Server.payloadLength p = some p.plen ↔ Server.payloadLength q = some q.plen)
    (hend : p.end_packet_identifier = 0xFFFF ↔ q.end_packet_identifier = 0xFFFF) :
    (Server.main_iteration st p).map (fun o => (o.state, o.branch, o.codes)) =
      (Server.main_iteration st q).map (fun o => (o.state, o.branch, o.codes)) := by
  by_cases h : p.seg_no < 50
  · have h' : q.seg_no < 50 := hseg ▸ h
    obtain ⟨o, ho, hbuf, hb, he, -⟩ := Server.main_iteration_spec st p h
    obtain ⟨o', ho', hbuf', hb', he', -⟩ := Server.main_iteration_spec st q h'
    have hidx : (⟨p.seg_no, h⟩ : Fin 50) = ⟨q.seg_no, h'⟩ := Fin.ext hseg
    have hc := Server.chain_congr (st.seq_buffer ⟨p.seg_no, h⟩ + 1) st.expectedPackNum p q
      hseg hlen hend
    have hbr : o.branch = o'.branch := by rw [hb, hb', hc, hidx]
    have hst : o.state = o'.state := by
      cases hs : o.state with
      | mk e1 b1 =>
        cases hs' : o'.state with
        | mk e2 b2 =>
          rw [hs] at hbuf he
          rw [hs'] at hbuf' he'
          simp only at hbuf he hbuf' he'
          rw [he, he', hbuf, hbuf', hidx]
    have ha := Server.answer_eq st p h
    have ha' := Server.answer_eq st q h'
    rw [ho] at ha
    rw [ho'] at ha'
    simp only [Option.map_some', Option.some.injEq] at ha ha'
    rw [ho, ho']
    simp only [Option.map_some', Option.some.injEq, Prod.mk.injEq]
    refine ⟨hst, hbr, ?_⟩
    rw [ha, ha', hc, hidx]
  · have h' : ¬ q.seg_no < 50 := hseg ▸ h
    simp [Server.main_iteration, h, h']

/-- Two streams that agree packet by packet in sequence number, in the consistency of
the declared length and in the validity of the end marker get replies with the same
codes. -/
theorem Server.main_loop_congr (pkts pkts' : List DataPacket)
    (hkey : List.Forall₂ (fun p q : DataPacket => p.seg_no = q.seg_no ∧
      (Server.payloadLength p = some p.plen ↔ Server.payloadLength q = some q.plen) ∧
      (p.end_packet_identifier = 0xFFFF ↔ q.end_packet_identifier = 0xFFFF)) pkts pkts') :
    ∀ st : Server.State,
      (Server.main_loop st pkts).map (fun r => (r.1, r.2.map Reply.codes)) =
        (Server.main_loop st pkts').map (fun r => (r.1, r.2.map Reply.codes)) := by
  induction hkey with
  | nil => intro st; rfl
  | @cons p q ps qs hpq _ ih =>
    intro st
    have hstep := Server.main_iteration_congr st p q hpq.1 hpq.2.1 hpq.2.2
    cases ho : Server.main_iteration st p with
    | none =>
      rw [ho] at hstep
      cases ho' : Server.main_iteration st q with
      | none => simp [Server.main_loop, ho, ho']
      | some o' => rw [ho'] at hstep; simp at hstep
    | some o =>
      rw [ho] at hstep
      cases ho' : Server.main_iteration st q with
      | none => rw [ho'] at hstep; simp at hstep
      | some o' =>
        rw [ho'] at hstep
        simp only [Option.map_some', Option.some.injEq, Prod.mk.injEq] at hstep
        obtain ⟨hst, -, hcodes⟩ := hstep
        have hih := ih o.state
        rw [hst] at hih
        simp only [Server.Outcome.codes] at hcodes
        simp only [Server.main_loop, ho, ho']
        rw [hst]
        cases h1 : Server.main_loop o'.state ps with
        | none =>
          rw [h1] at hih
          cases h2 : Server.main_loop o'.state qs with
          | none => rfl
          | some r2 => rw [h2] at hih; simp at hih
        | some r1 =>
          rw [h1] at hih
          cases h2 : Server.main_loop o'.state qs with
          | none => rw [h2] at hih; simp at hih
          | some r2 =>
            rw [h2] at hih
            simp only [Option.map_some', Option.some.injEq, Prod.mk.injEq] at hih
            simp only [Option.map_some', Option.some.injEq, Prod.mk.injEq, List.map_append]
            exact ⟨hih.1, by rw [hcodes, hih.2]⟩

/-- The receive loop on a stream in two parts. -/
theorem Server.server_main_loop_append (xs ys : List DataPacket) :
    ∀ (st st1 : Server.State) (replies : List Reply),
      Server.main_loop st xs = some (st1, replies) →
      Server.main_loop st (xs ++ ys) =
        (Server.main_loop st1 ys).map (fun r => (r.1, replies ++ r.2)) := by
  induction xs with
  | nil =>
    intro st st1 replies h
    simp only [Server.main_loop, Option.some.injEq, Prod.mk.injEq] at h
    obtain ⟨rfl, rfl⟩ := h
    cases hl : Server.main_loop st ys <;> simp [hl]
  | cons x rest ih =>
    intro st st1 replies h
    simp only [Server.main_loop] at h
    cases ho : Server.main_iteration st x with
    | none => simp [ho] at h
    | some o =>
      simp only [ho] at h
      cases hr : Server.main_loop o.state rest with
      | none => simp [hr] at h
      | some r =>
        obtain ⟨st2, replies2⟩ := r
        simp only [hr, Option.some.injEq, Prod.mk.injEq] at h
        obtain ⟨rfl, rfl⟩ := h
        rw [List.cons_append, Server.main_loop]
        simp only [ho]
        rw [ih o.state st2 replies2 hr]
        cases hl : Server.main_loop st2 ys <;> simp

/-- On the channel without loss a session transmits each unit once and reads for it the
reply that the receive loop sends for it. -/
theorem send_units_lossless_eq (units : List DataPacket) :
    ∀ st : Server.State, (∀ u ∈ units, u.seg_no < 50) →
      ∃ st' replies, Server.main_loop st units = some (st', replies) ∧
        replies.length = units.length ∧
        Client.send_units lossless st units = some (st',
          List.zipWith (fun u r =>
            ({ transmitted := [u], resendCt := 0, seen := [r],
               messages := [Client.classify r], exited := false } : Client.UnitReport))
            units replies) := by
  induction units with
  | nil => intro st _; exact ⟨st, [], rfl, rfl, rfl⟩
  | cons u rest ih =>
    intro st hs
    obtain ⟨o, r, ho, hsent, hsend⟩ := send_unit_lossless st u (hs u (List.mem_cons_self _ _))
    obtain ⟨st', replies, hrun, hlen, hsess⟩ :=
      ih o.state (fun v hv => hs v (List.mem_cons_of_mem _ hv))
    refine ⟨st', r :: replies, ?_, by simp [hlen], ?_⟩
    · simp [Server.main_loop, ho, hrun, hsent]
    · simp [Client.send_units, hsend, hsess]

/-- A stream of packets that have not been seen and whose sequence numbers `a`,
`a + 1`, ... stay one behind the expected number is rejected packet by packet as out of
sequence. -/
theorem Server.skipped_run (later : List DataPacket) :
    ∀ (st : Server.State) (a : Nat), st.expectedPackNum = (a : Int) + 1 →
      (∀ i : Fin 50, a ≤ i.val → st.seq_buffer i = 0) →
      later.map (fun u => u.seg_no) = List.range' a later.length →
      a + later.length ≤ 50 →
      ∃ st', Server.main_loop st later =
        some (st', later.map (fun u => Server.rejectWith u REJECT_OUT_OF_SEQUENCE)) := by
  induction later with
  | nil => intro st _ _ _ _ _; exact ⟨st, rfl⟩
  | cons u rest ih =>
    intro st a he hzero hseq hlen
    simp only [List.map_cons, List.length_cons, List.range'_succ, List.cons.injEq] at hseq
    simp only [List.length_cons] at hlen
    have hu : u.seg_no < 50 := by omega
    obtain ⟨o, ho, hbuf, hb, hexp, hsent⟩ := Server.main_iteration_spec st u hu
    have h0 : st.seq_buffer ⟨u.seg_no, hu⟩ = 0 := hzero _ (by simp [hseq.1])
    have hne : ¬ (u.seg_no : Int) = st.expectedPackNum := by rw [he, hseq.1]; omega
    have hc : o.branch = .outOfSequence := by
      rw [hb]; simp [Server.chain, h0, hne]
    rw [hc] at hsent
    have hzero' : ∀ i : Fin 50, a + 1 ≤ i.val → o.state.seq_buffer i = 0 := by
      intro i hi
      have hni : i ≠ ⟨u.seg_no, hu⟩ := by
        intro heq
        have := congrArg Fin.val heq
        simp at this
        omega
      rw [hbuf, Server.bump_other _ hni]
      exact hzero i (by omega)
    obtain ⟨st', hrun⟩ := ih o.state (a + 1) (by rw [hexp, he]; push_cast; ring) hzero'
      hseq.2 (by omega)
    exact ⟨st', by simp [Server.main_loop, ho, hrun, hsent]⟩

end Transfer

namespace Transfer

theorem zipWith_left {α β γ : Type} (f : α → γ) : ∀ (l : List α) (l' : List β),
    l.length = l'.length → List.zipWith (fun a _ => f a) l l' = l.map f := by
  intro l
  induction l with
  | nil => intro l' _; simp
  | cons a l ih =>
    intro l' h
    cases l' with
    | nil => simp at h
    | cons b l' => simp [ih l' (by simpa using h)]

theorem zipWith_right {α β γ : Type} (f : β → γ) : ∀ (l : List α) (l' : List β),
    l.length = l'.length → List.zipWith (fun _ b => f b) l l' = l'.map f := by
  intro l
  induction l with
  | nil => intro l' h; cases l' with
    | nil => rfl
    | cons b l' => simp at h
  | cons a l ih =>
    intro l' h
    cases l' with
    | nil => simp at h
    | cons b l' => simp [ih l' (by simpa using h)]

theorem forall₂_imp_mem {α β : Type} {R R' : α → β → Prop} {l : List α} {l' : List β}
    (h : List.Forall₂ R l l') (himp : ∀ a b, b ∈ l' → R a b → R' a b) :
    List.Forall₂ R' l l' := by
  induction h with
  | nil => exact List.Forall₂.nil
  | @cons a b l l' hab _ ih =>
    exact List.Forall₂.cons (himp a b (List.mem_cons_self _ _) hab)
      (ih (fun a' b' hb' => himp a' b' (List.mem_cons_of_mem _ hb')))

theorem forall₂_imp_mem_left {α β : Type} {R R' : α → β → Prop} {l : List α} {l' : List β}
    (h : List.Forall₂ R l l') (himp : ∀ a b, a ∈ l → R a b → R' a b) :
    List.Forall₂ R' l l' := by
  induction h with
  | nil => exact List.Forall₂.nil
  | @cons a b l l' hab _ ih =>
    exact List.Forall₂.cons (himp a b (List.mem_cons_self _ _) hab)
      (ih (fun a' b' ha' => himp a' b' (List.mem_cons_of_mem _ ha')))

theorem packetOf_strlen_one (seg_no plen end_packet_identifier : Nat) :
    strlen (packetOf seg_no plen [97] end_packet_identifier).pload = 1 := rfl

theorem packetOf_payloadLength_one (seg_no plen end_packet_identifier : Nat) :
    Server.payloadLength (packetOf seg_no plen [97] end_packet_identifier) = some 1 := rfl

/-- The replies that the fresh receiver sends for the ten units of the sender, for every
content of a file that is not empty. -/
theorem Client.script_replies (uninit : DataPacket) (file : List Nat) (hfile : file ≠ []) :
    (Server.main_loop Server.State.init
        (Client.main_units 10 0 (Client.initializeDataPacket uninit) file)).map
      (fun r => r.2.map Reply.codes) =
      some [(0xFFF2, none), (0xFFF2, none), (0xFFF2, none), (0xFFF2, none), (0xFFF2, none),
        (0xFFF2, none), (0xFFF3, some 0xFFF4), (0xFFF3, some 0xFFF5), (0xFFF3, some 0xFFF6),
        (0xFFF3, some 0xFFF7)] := by
  have hspec := Client.main_units_spec 10 0 (Client.initializeDataPacket uninit) file
    (Or.inl hfile)
  have hkey : List.Forall₂ (fun p q : DataPacket => p.seg_no = q.seg_no ∧
      (Server.payloadLength p = some p.plen ↔ Server.payloadLength q = some q.plen) ∧
      (p.end_packet_identifier = 0xFFFF ↔ q.end_packet_identifier = 0xFFFF))
      (Client.main_units 10 0 (Client.initializeDataPacket uninit) file)
      ((List.range' (0 + 1) 10).map (fun s =>
        packetOf (if s = 7 then (s % 256 + 8) % 256 else if s = 10 then 1 else s % 256)
          (if s = 8 then 7 else 1) [97] (if s = 9 then 0 else 0xFFFF))) := by
    rw [List.forall₂_map_right_iff]
    refine forall₂_imp_mem_left hspec ?_
    intro u s hu ⟨h1, h2, h3, h4⟩
    have h0 : 0 ∈ u.pload :=
      Client.main_units_mem_zero 10 0 (Client.initializeDataPacket uninit) file
        (Or.inl hfile) u hu
    refine ⟨h1, ?_, ?_⟩
    · rw [packetOf_payloadLength_one, Server.payloadLength_of_mem u h0, h4]
      show _ ↔ some 1 = some (if s = 8 then 7 else 1)
      by_cases h8 : s = 8
      · simp only [h8, if_true, Option.some.injEq]
        constructor
        · intro h; omega
        · intro h; omega
      · simp [h8]
    · rw [h2]
      show _ ↔ (if s = 9 then 0 else 0xFFFF) = 0xFFFF
      exact Iff.rfl
  have hcongr := congrArg (Option.map Prod.snd)
    (Server.main_loop_congr _ _ hkey Server.State.init)
  simp only [Option.map_map] at hcongr
  have hfun : (Prod.snd ∘ fun (r : Server.State × List Reply) => (r.1, r.2.map Reply.codes)) =
      fun r => r.2.map Reply.codes := rfl
  rw [hfun] at hcongr
  rw [hcongr]
  decide

/-- C14, as amended. Sender sequence numbers. For every content of `payload.txt` the
sequence numbers that the transfer sender places on the wire for its ten units are, in
order, 1, 2, 3, 4, 5, 6, 15, 8, 9, 1: they are positive, those of the first nine units
are pairwise distinct, and the tenth unit carries the number 1 of the first unit. -/
theorem C14_wire_sequence_numbers (uninit : DataPacket) (file : List Nat) :
    (Client.main_units 10 0 (Client.initializeDataPacket uninit) file).map
      (fun u => u.seg_no) = [1, 2, 3, 4, 5, 6, 15, 8, 9, 1] ∧
    (∀ s ∈ (Client.main_units 10 0 (Client.initializeDataPacket uninit) file).map
      (fun u => u.seg_no), 0 < s) ∧
    (((Client.main_units 10 0 (Client.initializeDataPacket uninit) file).map
      (fun u => u.seg_no)).take 9).Nodup ∧
    ((Client.main_units 10 0 (Client.initializeDataPacket uninit) file).map
      (fun u => u.seg_no)).get? 9 =
    ((Client.main_units 10 0 (Client.initializeDataPacket uninit) file).map
      (fun u => u.seg_no)).get? 0 := by
  have h : (Client.main_units 10 0 (Client.initializeDataPacket uninit) file).map
      (fun u => u.seg_no) = [1, 2, 3, 4, 5, 6, 15, 8, 9, 1] := by
    rw [Client.main_units_seg_no]; decide
  rw [h]
  exact ⟨rfl, by decide, by decide, by decide⟩

/-- Counterexample to C14 as stated: with a file of two lines the ten wire sequence
numbers are 1, 2, 3, 4, 5, 6, 15, 8, 9, 1, which are not pairwise distinct. -/
theorem C14_counterexample :
    (Client.main_units 10 0 (Client.initializeDataPacket (packetOf 0 0 [] 0))
        [104, 105, 10, 97, 10]).map (fun u => u.seg_no) = [1, 2, 3, 4, 5, 6, 15, 8, 9, 1] ∧
    ¬ ((Client.main_units 10 0 (Client.initializeDataPacket (packetOf 0 0 [] 0))
        [104, 105, 10, 97, 10]).map (fun u => u.seg_no)).Nodup := by
  refine ⟨by decide, by decide⟩

/-- C19. End-to-end scripted session. For every content of `payload.txt` that is not
empty, the ten units of the transfer sender carry the wire sequence numbers 1, 2, 3, 4,
5, 6, 15, 8, 9, 1; every payload string has at most 254 characters; the declared length
is the string length, except for unit 8 where it is the string length plus 6 modulo 256;
the end marker is 0xFFFF, except for unit 9 where it is 0. Delivered without loss to the
fresh receiver, each unit is passed to `sendto` exactly once, with retry counter 0 and
without `exit`, and the replies read are ACK for units 1 to 6, then REJECT with subcode
OUT_OF_SEQUENCE 0xFFF4, LENGTH_MISMATCH 0xFFF5, FRAMING_INVALID 0xFFF6 and DUPLICATE
0xFFF7 for units 7, 8, 9 and 10. -/
theorem C19_scripted_session (uninit : DataPacket) (file : List Nat) (hfile : file ≠ []) :
    List.Forall₂ (fun (u : DataPacket) (s : Nat) =>
        u.seg_no = (if s = 7 then 15 else if s = 10 then 1 else s) ∧
        u.end_packet_identifier = (if s = 9 then 0 else 0xFFFF) ∧
        strlen u.pload ≤ 254 ∧
        u.plen = (if s = 8 then (strlen u.pload + 6) % 256 else strlen u.pload))
      (Client.main_units 10 0 (Client.initializeDataPacket uninit) file)
      [1, 2, 3, 4, 5, 6, 7, 8, 9, 10] ∧
    ∃ net reports, Client.main lossless Server.State.init uninit file = some (net, reports) ∧
      reports.map (fun r => r.transmitted) =
        (Client.main_units 10 0 (Client.initializeDataPacket uninit) file).map
          (fun u => [u]) ∧
      reports.map (fun r => (r.resendCt, r.exited)) =
        (Client.main_units 10 0 (Client.initializeDataPacket uninit) file).map
          (fun _ => (0, false)) ∧
      reports.map (fun r => r.seen.map Reply.codes) =
        [[(0xFFF2, none)], [(0xFFF2, none)], [(0xFFF2, none)], [(0xFFF2, none)],
          [(0xFFF2, none)], [(0xFFF2, none)], [(0xFFF3, some 0xFFF4)],
          [(0xFFF3, some 0xFFF5)], [(0xFFF3, some 0xFFF6)], [(0xFFF3, some 0xFFF7)]] := by
  constructor
  · have hspec := Client.main_units_spec 10 0 (Client.initializeDataPacket uninit) file
      (Or.inl hfile)
    have hr : List.range' (0 + 1) 10 = [1, 2, 3, 4, 5, 6, 7, 8, 9, 10] := by decide
    rw [hr] at hspec
    refine forall₂_imp_mem hspec ?_
    intro u s hs ⟨h1, h2, h3, h4⟩
    refine ⟨?_, h2, h3, h4⟩
    rw [h1]
    have hle : s ≤ 10 := by
      simp only [List.mem_cons, List.mem_singleton, List.not_mem_nil, or_false] at hs
      omega
    by_cases h7 : s = 7
    · simp [h7]
    · by_cases h10 : s = 10
      · simp [h10]
      · simp only [h7, h10, if_false]
        exact Nat.mod_eq_of_lt (by omega)
  · have hseg : (Client.main_units 10 0 (Client.initializeDataPacket uninit) file).map
        (fun u => u.seg_no) = [1, 2, 3, 4, 5, 6, 15, 8, 9, 1] := by
      rw [Client.main_units_seg_no]; decide
    have hlt : ∀ u ∈ Client.main_units 10 0 (Client.initializeDataPacket uninit) file,
        u.seg_no < 50 := by
      intro u hu
      have hm : u.seg_no ∈ (Client.main_units 10 0 (Client.initializeDataPacket uninit)
          file).map (fun u => u.seg_no) := List.mem_map_of_mem _ hu
      rw [hseg] at hm
      simp at hm
      omega
    obtain ⟨st', replies, hrun, hlen, hsess⟩ := send_units_lossless_eq _ Server.State.init hlt
    have hcodes := Client.script_replies uninit file hfile
    rw [hrun] at hcodes
    simp only [Option.map_some', Option.some.injEq] at hcodes
    refine ⟨st', _, hsess, ?_, ?_, ?_⟩
    · rw [List.map_zipWith]
      exact zipWith_left (fun u => [u]) _ _ hlen.symm
    · rw [List.map_zipWith]
      exact zipWith_left (fun _ => (0, false)) _ _ hlen.symm
    · rw [List.map_zipWith]
      have := zipWith_right (α := DataPacket) (fun r : Reply => [r.codes])
        (Client.main_units 10 0 (Client.initializeDataPacket uninit) file) replies hlen.symm
      simp only [List.map_cons, List.map_nil]
      rw [this]
      have h2 : replies.map (fun r => [r.codes]) =
          (replies.map Reply.codes).map (fun c => [c]) := by simp
      rw [h2, hcodes]
      rfl

end Transfer

namespace Transfer

/-- Witness of C19: the file holds the single line "hi". -/
theorem C19_scripted_session_witness :
    ([104, 105, 10] : List Nat) ≠ [] ∧
    ∃ net reports, Client.main lossless Server.State.init (packetOf 0 0 [] 0) [104, 105, 10] =
        some (net, reports) ∧
      reports.map (fun r => r.seen.map Reply.codes) =
        [[(0xFFF2, none)], [(0xFFF2, none)], [(0xFFF2, none)], [(0xFFF2, none)],
          [(0xFFF2, none)], [(0xFFF2, none)], [(0xFFF3, some 0xFFF4)],
          [(0xFFF3, some 0xFFF5)], [(0xFFF3, some 0xFFF6)], [(0xFFF3, some 0xFFF7)]] :=
  ⟨by decide,
   match C19_scripted_session (packetOf 0 0 [] 0) [104, 105, 10] (by decide) with
   | ⟨_, net, reports, hmain, _, _, hcodes⟩ => ⟨net, reports, hmain, hcodes⟩⟩

/-- C20. Off-by-one after a genuine duplicate. When the fresh receiver gets units with
the sequence numbers 1, 2, ..., k in order (k at least 1), then a packet with sequence
number k again, and then packets with the sequence numbers k + 1, k + 2, ... (all below
50) in order, the run returns: it sends one reply for each of the first k units, answers
the second copy of unit k with REJECT / DUPLICATE and every later packet, well-formed or
not, with REJECT / OUT_OF_SEQUENCE, so that no ACK is sent after the duplicate. When the
first k units are well-formed, their replies are the k ACKs. -/
theorem C20_off_by_one_after_duplicate (k : Nat) (pre later : List DataPacket)
    (dup : DataPacket) (hk : 1 ≤ k)
    (hpre : pre.map (fun u => u.seg_no) = List.range' 1 k) (hdup : dup.seg_no = k)
    (hlater : later.map (fun u => u.seg_no) = List.range' (k + 1) later.length)
    (hbound : k + later.length < 50) :
    ∃ st' before, Server.main_loop Server.State.init (pre ++ dup :: later) =
        some (st', before ++ Server.rejectWith dup REJECT_DUPLICATE_PACKET ::
          later.map (fun u => Server.rejectWith u REJECT_OUT_OF_SEQUENCE)) ∧
      before.length = pre.length ∧
      ((∀ u ∈ pre, WellFormedUnit u) →
        before = pre.map (fun u => Reply.ack (Server.initializeAck u))) ∧
      (Server.rejectWith dup REJECT_DUPLICATE_PACKET).codes = (0xFFF3, some 0xFFF7) ∧
      (∀ r ∈ later.map (fun u => Server.rejectWith u REJECT_OUT_OF_SEQUENCE),
        r.codes = (0xFFF3, some 0xFFF4)) ∧
      st'.expectedPackNum = (k : Int) + 2 + later.length := by
  have hlen : pre.length = k := by
    have := congrArg List.length hpre
    simpa using this
  have hsegs : ∀ u ∈ pre, 1 ≤ u.seg_no ∧ u.seg_no ≤ k := by
    intro u hu
    have hm : u.seg_no ∈ pre.map (fun u => u.seg_no) := List.mem_map_of_mem _ hu
    rw [hpre, List.mem_range'_1] at hm
    omega
  have hlt : ∀ u ∈ pre, u.seg_no < 50 := fun u hu => by have := hsegs u hu; omega
  obtain ⟨st1, replies1, hrun1, hexp1, hlen1, hcnt1⟩ := Server.main_loop_spec pre hlt
    Server.State.init
  have hinit : ∀ i : Fin 50, Server.State.init.seq_buffer i = 0 := fun _ => rfl
  have hdlt : dup.seg_no < 50 := by omega
  -- the duplicate
  obtain ⟨o, ho, hbuf, hb, hexp2, hsent⟩ := Server.main_iteration_spec st1 dup hdlt
  have hseen : 0 < (pre.filter (fun q => q.seg_no = (⟨dup.seg_no, hdlt⟩ : Fin 50).val)).length := by
    have hkm : k ∈ pre.map (fun u => u.seg_no) := by
      rw [hpre, List.mem_range'_1]; omega
    obtain ⟨q, hq, hqk⟩ := List.mem_map.mp hkm
    exact List.length_pos_of_mem (List.mem_filter.mpr ⟨hq, by simp [hqk, hdup]⟩)
  have hcount : st1.seq_buffer ⟨dup.seg_no, hdlt⟩ + 1 ≠ 1 := by
    rw [hcnt1, hinit]; omega
  have hc : o.branch = .duplicate := by
    rw [hb]; simp [Server.chain, hcount]
  rw [hc] at hsent
  -- the later packets
  have hzero : ∀ i : Fin 50, k + 1 ≤ i.val → o.state.seq_buffer i = 0 := by
    intro i hi
    have hni : i ≠ ⟨dup.seg_no, hdlt⟩ := by
      intro heq
      have := congrArg Fin.val heq
      simp at this
      omega
    rw [hbuf, Server.bump_other _ hni, hcnt1, hinit]
    have hnone : pre.filter (fun q => q.seg_no = i.val) = [] := by
      rw [List.filter_eq_nil_iff]
      intro q hq
      have := hsegs q hq
      simp only [decide_eq_true_eq]
      omega
    simp [hnone]
  have hexp3 : o.state.expectedPackNum = ((k + 1 : Nat) : Int) + 1 := by
    rw [hexp2, hexp1, hlen]; simp [Server.State.init]; ring
  obtain ⟨st3, hrun3⟩ := Server.skipped_run later o.state (k + 1) hexp3 hzero hlater
    (by omega)
  have hlatlt : ∀ u ∈ later, u.seg_no < 50 := by
    intro u hu
    have hm : u.seg_no ∈ later.map (fun u => u.seg_no) := List.mem_map_of_mem _ hu
    rw [hlater, List.mem_range'_1] at hm
    omega
  obtain ⟨st3', replies3, hrun3', hexp4, -, -⟩ := Server.main_loop_spec later hlatlt o.state
  rw [hrun3] at hrun3'
  simp only [Option.some.injEq, Prod.mk.injEq] at hrun3'
  obtain ⟨rfl, -⟩ := hrun3'
  refine ⟨st3, replies1, ?_, by rw [hlen1], ?_, rfl, ?_, ?_⟩
  · rw [Server.server_main_loop_append pre (dup :: later) Server.State.init st1 _ hrun1]
    simp [Server.main_loop, ho, hrun3, hsent]
  · intro hwf
    obtain ⟨⟨st1', hrun1'⟩, -⟩ := in_order_run pre Server.State.init 1 rfl (fun _ _ => rfl)
      hwf (by rw [hlen]; exact hpre) (by omega)
    rw [hrun1] at hrun1'
    simp only [Option.some.injEq, Prod.mk.injEq] at hrun1'
    exact hrun1'.2
  · intro r hr
    obtain ⟨u, -, rfl⟩ := List.mem_map.mp hr
    rfl
  · rw [hexp4, hexp3]; push_cast; ring

set_option maxRecDepth 10000 in
/-- Witness of C20: the well-formed units 1 and 2, unit 2 again, then the units 3 and 4
are answered ACK, ACK, DUPLICATE, OUT_OF_SEQUENCE, OUT_OF_SEQUENCE. When the first unit
instead carries 255 payload bytes without NUL and a non-zero alignment byte it is
answered REJECT / LENGTH_MISMATCH, and the copy and the later units are answered alike. -/
theorem C20_off_by_one_after_duplicate_witness :
    (∀ u ∈ [packetOf 1 1 [97] 0xFFFF, packetOf 2 1 [98] 0xFFFF], WellFormedUnit u) ∧
    (∃ st', Server.main_loop Server.State.init
        ([packetOf 1 1 [97] 0xFFFF, packetOf 2 1 [98] 0xFFFF] ++ packetOf 2 1 [98] 0xFFFF ::
          [packetOf 3 1 [99] 0xFFFF, packetOf 4 1 [100] 0xFFFF]) =
      some (st', [packetOf 1 1 [97] 0xFFFF, packetOf 2 1 [98] 0xFFFF].map
          (fun u => Reply.ack (Server.initializeAck u)) ++
        Server.rejectWith (packetOf 2 1 [98] 0xFFFF) REJECT_DUPLICATE_PACKET ::
          [packetOf 3 1 [99] 0xFFFF, packetOf 4 1 [100] 0xFFFF].map
            (fun u => Server.rejectWith u REJECT_OUT_OF_SEQUENCE))) ∧
    (Server.main_loop Server.State.init
        ([{ packetOf 1 255 (List.replicate 255 97) 0xFFFF with padding := 1 },
            packetOf 2 1 [98] 0xFFFF] ++ packetOf 2 1 [98] 0xFFFF ::
          [packetOf 3 1 [99] 0xFFFF, packetOf 4 1 [100] 0xFFFF])).map
      (fun r => r.2.map Reply.codes) =
      some [(0xFFF3, some 0xFFF5), (0xFFF2, none), (0xFFF3, some 0xFFF7),
        (0xFFF3, some 0xFFF4), (0xFFF3, some 0xFFF4)] :=
  ⟨by decide,
   match C20_off_by_one_after_duplicate 2
     [packetOf 1 1 [97] 0xFFFF, packetOf 2 1 [98] 0xFFFF]
     [packetOf 3 1 [99] 0xFFFF, packetOf 4 1 [100] 0xFFFF] (packetOf 2 1 [98] 0xFFFF)
     (by decide) (by decide) (by decide) (by decide) (by decide) with
   | ⟨st', _, hrun, _, hack, _⟩ => ⟨st', hack (by decide) ▸ hrun⟩,
   by decide⟩

end Transfer

namespace Transfer

namespace Server

/-- The accepting arm is taken only by a packet that carries the expected number. -/
theorem chain_accept (count e : Int) (len : Option Nat) (p : DataPacket)
    (h : chain count e len p = .accept) : (p.seg_no : Int) = e := by
  unfold chain at h
  split_ifs at h; simp_all

/-- An iteration with an index inside the table sends one datagram, and that datagram is
an ACK only if the packet carries the expected number. -/
theorem main_iteration_ack (st : State) (p : DataPacket) (h : p.seg_no < 50) :
    ∃ o r, main_iteration st p = some o ∧ o.sent = [r] ∧
      o.state.expectedPackNum = st.expectedPackNum + 1 ∧
      (r.packet_type = ACK → (p.seg_no : Int) = st.expectedPackNum) := by
  obtain ⟨o, ho, -, hb, he, hsent⟩ := main_iteration_spec st p h
  have hne := chain_ne_fallThrough (st.seq_buffer ⟨p.seg_no, h⟩ + 1) st.expectedPackNum
    (Server.payloadLength p) p
  rw [← hb] at hne
  have hrej : ∀ code, (rejectWith p code).packet_type = ACK → (p.seg_no : Int) = st.expectedPackNum := by
    intro code hc
    simp [rejectWith, Reply.packet_type, initializeReject, REJECT, ACK] at hc
  cases hbr : o.branch with
  | fallThrough => exact absurd hbr hne
  | accept =>
    refine ⟨o, _, ho, by rw [hsent, hbr], he, fun _ => ?_⟩
    exact chain_accept _ _ _ p (hb ▸ hbr)
  | duplicate => exact ⟨o, _, ho, by rw [hsent, hbr], he, hrej _⟩
  | outOfSequence => exact ⟨o, _, ho, by rw [hsent, hbr], he, hrej _⟩
  | lengthMismatch => exact ⟨o, _, ho, by rw [hsent, hbr], he, hrej _⟩
  | endMissing => exact ⟨o, _, ho, by rw [hsent, hbr], he, hrej _⟩

/-- In a run of the receive loop from any state, the acknowledged sequence numbers are
at least the expected number at the start and strictly increasing. -/
theorem acknowledged_run (pkts : List DataPacket) :
    ∀ st : State, (∀ q ∈ pkts, q.seg_no < 50) →
      ∃ st' replies, main_loop st pkts = some (st', replies) ∧
        replies.length = pkts.length ∧
        (∀ s ∈ acknowledged pkts replies, st.expectedPackNum ≤ (s : Int)) ∧
        List.Pairwise (fun a b => a < b) (acknowledged pkts replies) := by
  induction pkts with
  | nil =>
    intro st _
    exact ⟨st, [], rfl, rfl, by simp [acknowledged], by simp [acknowledged]⟩
  | cons p rest ih =>
    intro st hs
    obtain ⟨o, r, ho, hsent, he, hack⟩ := main_iteration_ack st p (hs p (List.mem_cons_self _ _))
    obtain ⟨st', replies, hrun, hlen, hge, hpw⟩ :=
      ih o.state (fun q hq => hs q (List.mem_cons_of_mem _ hq))
    refine ⟨st', r :: replies, by simp [main_loop, ho, hrun, hsent], by simp [hlen], ?_, ?_⟩
    · intro s hsm
      by_cases hr : r.packet_type = ACK
      · simp only [acknowledged, List.zip_cons_cons, List.filter_cons, hr, decide_True,
          if_true, List.map_cons, List.mem_cons] at hsm
        rcases hsm with rfl | hsm
        · rw [hack hr]
        · have := hge s hsm
          rw [he] at this
          omega
      · simp only [acknowledged, List.zip_cons_cons, List.filter_cons, hr, decide_False,
          Bool.false_eq_true, if_false] at hsm
        have := hge s hsm
        rw [he] at this
        omega
    · by_cases hr : r.packet_type = ACK
      · simp only [acknowledged, List.zip_cons_cons, List.filter_cons, hr, decide_True,
          if_true, List.map_cons, List.pairwise_cons]
        refine ⟨fun s hsm => ?_, hpw⟩
        have h1 := hge s hsm
        have h2 := hack hr
        rw [he] at h1
        omega
      · simp only [acknowledged, List.zip_cons_cons, List.filter_cons, hr, decide_False,
          Bool.false_eq_true, if_false]
        exact hpw

/-- C21. ACK position invariant. In a run of the transfer receiver from its initial
state on a stream of packets with sequence numbers below 50, the reply to the packet at
any position has packet type ACK only if the sequence number of the packet is the
number of packets received before it, plus 1; the acknowledged sequence numbers of the
run are strictly increasing, so none is acknowledged twice. -/
theorem C21_ack_position (pre post : List DataPacket) (p : DataPacket)
    (hs : ∀ q ∈ pre ++ p :: post, q.seg_no < 50) :
    (∃ st' before r after, main_loop State.init (pre ++ p :: post) =
        some (st', before ++ r :: after) ∧
      before.length = pre.length ∧ after.length = post.length ∧
      (r.packet_type = ACK → p.seg_no = pre.length + 1)) ∧
    (∃ st' replies, main_loop State.init (pre ++ p :: post) = some (st', replies) ∧
      replies.length = (pre ++ p :: post).length ∧
      List.Pairwise (fun a b => a < b) (acknowledged (pre ++ p :: post) replies) ∧
      (acknowledged (pre ++ p :: post) replies).Nodup) := by
  have hpre : ∀ q ∈ pre, q.seg_no < 50 := fun q hq => hs q (List.mem_append_left _ hq)
  have hp : p.seg_no < 50 := hs p (by simp)
  have hpost : ∀ q ∈ post, q.seg_no < 50 := fun q hq => hs q (by simp [hq])
  constructor
  · obtain ⟨st1, before, hrun1, hexp1, hlen1, -⟩ := main_loop_spec pre hpre State.init
    obtain ⟨o, r, ho, hsent, -, hack⟩ := main_iteration_ack st1 p hp
    obtain ⟨st2, after, hrun2, -, hlen2, -⟩ := main_loop_spec post hpost o.state
    refine ⟨st2, before, r, after, ?_, hlen1, hlen2, ?_⟩
    · rw [server_main_loop_append pre (p :: post) State.init st1 before hrun1]
      simp [main_loop, ho, hrun2, hsent]
    · intro hr
      have h1 := hack hr
      rw [hexp1] at h1
      have h2 : State.init.expectedPackNum = 1 := rfl
      rw [h2] at h1
      omega
  · obtain ⟨st', replies, hrun, hlen, -, hpw⟩ := acknowledged_run (pre ++ p :: post) State.init hs
    exact ⟨st', replies, hrun, hlen, hpw, hpw.imp (fun h => Nat.ne_of_lt h)⟩

/-- Witness of C21: the stream 1, 7, 3, 3 at the fresh receiver, seen from its third
packet. -/
theorem C21_ack_position_witness :
    (∀ q ∈ [packetOf 1 1 [97] 0xFFFF, packetOf 7 1 [98] 0xFFFF] ++
      packetOf 3 1 [99] 0xFFFF :: [packetOf 3 1 [99] 0xFFFF], q.seg_no < 50) ∧
    ∃ st' before r after, main_loop State.init
        ([packetOf 1 1 [97] 0xFFFF, packetOf 7 1 [98] 0xFFFF] ++
          packetOf 3 1 [99] 0xFFFF :: [packetOf 3 1 [99] 0xFFFF]) =
        some (st', before ++ r :: after) ∧
      before.length = [packetOf 1 1 [97] 0xFFFF, packetOf 7 1 [98] 0xFFFF].length ∧
      after.length = [packetOf 3 1 [99] 0xFFFF].length ∧
      (r.packet_type = ACK → (packetOf 3 1 [99] 0xFFFF).seg_no =
        [packetOf 1 1 [97] 0xFFFF, packetOf 7 1 [98] 0xFFFF].length + 1) :=
  ⟨by decide,
   (C21_ack_position [packetOf 1 1 [97] 0xFFFF, packetOf 7 1 [98] 0xFFFF]
     [packetOf 3 1 [99] 0xFFFF] (packetOf 3 1 [99] 0xFFFF) (by decide)).1⟩

end Server

end Transfer

namespace Transfer

namespace Server

set_option maxRecDepth 10000 in
/-- C22. The outcome is not a function of sequence number, declared length, payload and
end marker: `strlen(dataPacket.pload)` reads past a payload array without NUL. The first
packet with 255 payload bytes `a`, declared length 255 and end marker 0xFFFF is answered
ACK when the alignment byte behind the array is 0 and REJECT / LENGTH_MISMATCH when it is
1, all seven fields being equal. Apart from that the header is ignored: for every
receiver state, two inbound packets that agree in sequence number, declared length,
payload and end marker, and whose payload holds a NUL byte or whose alignment bytes agree
too, lead to the same next state, take the same arm of the chain and get replies with
the same packet type and subcode, whatever their start markers, client ids and packet
types are; and the fresh receiver acknowledges a well-formed first packet whose start
marker is 0x1234, whose client id is 7 and whose packet type is ACK 0xFFF2 instead of
DATA. -/
theorem C22_strlen_reads_past_payload (st : State) (p q : DataPacket)
    (hseg : p.seg_no = q.seg_no) (hplen : p.plen = q.plen) (hpload : p.pload = q.pload)
    (hend : p.end_packet_identifier = q.end_packet_identifier)
    (hnul : 0 ∈ p.pload ∨ p.padding = q.padding) :
    ((packetOf 1 255 (List.replicate 255 97) 0xFFFF).inRange ∧
      ({ packetOf 1 255 (List.replicate 255 97) 0xFFFF with padding := 1 } :
        DataPacket).inRange ∧
      (main_iteration State.init (packetOf 1 255 (List.replicate 255 97) 0xFFFF)).map
        (fun o => (o.branch, o.codes)) = some (.accept, [(0xFFF2, none)]) ∧
      (main_iteration State.init
          { packetOf 1 255 (List.replicate 255 97) 0xFFFF with padding := 1 }).map
        (fun o => (o.branch, o.codes)) = some (.lengthMismatch, [(0xFFF3, some 0xFFF5)])) ∧
    (main_iteration st p).map (fun o => (o.state, o.branch, o.codes)) =
      (main_iteration st q).map (fun o => (o.state, o.branch, o.codes)) ∧
    (main_iteration State.init
        { packetOf 1 1 [97] 0xFFFF with
          start_packet_identifier := 0x1234, client_id := 7, packet_type := 0xFFF2 }).map
      (fun o => (o.branch, o.codes)) = some (.accept, [(0xFFF2, none)]) := by
  refine ⟨⟨by decide, by decide, by decide, by decide⟩,
    main_iteration_congr st p q hseg ?_ ?_, by decide⟩
  · have hlen : payloadLength p = payloadLength q := by
      unfold payloadLength
      rcases hnul with h | h
      · have hq : 0 ∈ q.pload := hpload ▸ h
        simp [h, hq, hpload]
      · rw [hpload, h]
    rw [hlen, hplen]
  · rw [hend]

/-- Witness of C22: the first well-formed packet with the sender's header and with a
foreign header, at the fresh receiver. -/
theorem C22_strlen_reads_past_payload_witness :
    (main_iteration State.init (packetOf 1 1 [97] 0xFFFF)).map
        (fun o => (o.state, o.branch, o.codes)) =
      (main_iteration State.init
        { packetOf 1 1 [97] 0xFFFF with
          start_packet_identifier := 0x1234, client_id := 7, packet_type := 0xFFF2 }).map
        (fun o => (o.state, o.branch, o.codes)) :=
  (C22_strlen_reads_past_payload State.init (packetOf 1 1 [97] 0xFFFF)
    { packetOf 1 1 [97] 0xFFFF with
      start_packet_identifier := 0x1234, client_id := 7, packet_type := 0xFFF2 }
    rfl rfl rfl rfl (Or.inr rfl)).2.1

end Server

set_option maxRecDepth 10000 in
/-- C23. Seen-count table bounds. The table has 50 entries and the sequence number is a
`uint8_t`: an iteration is defined, that is, its table access is in bounds, exactly when
the sequence number of the inbound packet is at most 49, and the packet with sequence
number 50 is within the range of the field and outside the table. On every stream whose
sequence numbers are all at most 49 the receive loop is defined from every state; the
wire sequence numbers of the sender, 1, 2, 3, 4, 5, 6, 15, 8, 9, 1, are all at most 49
for every payload file, so the receive loop is defined on the sender's ten units, and so
is the sender's session on the channel without loss. -/
theorem C23_table_bounds (st : Server.State) (p : DataPacket) (pkts : List DataPacket)
    (uninit : DataPacket) (file : List Nat) (hs : ∀ q ∈ pkts, q.seg_no ≤ 49) :
    ((Server.main_iteration st p).isSome ↔ p.seg_no ≤ 49) ∧
    ((packetOf 50 1 [97] 0xFFFF).inRange ∧
      Server.main_iteration st (packetOf 50 1 [97] 0xFFFF) = none) ∧
    (∃ st' replies, Server.main_loop st pkts = some (st', replies)) ∧
    (∀ u ∈ Client.main_units 10 0 (Client.initializeDataPacket uninit) file,
      u.seg_no ≤ 49) ∧
    (∃ st' replies, Server.main_loop st
      (Client.main_units 10 0 (Client.initializeDataPacket uninit) file) =
        some (st', replies)) ∧
    (∃ net reports, Client.main lossless st uninit file = some (net, reports)) := by
  have hseg : (Client.main_units 10 0 (Client.initializeDataPacket uninit) file).map
      (fun u => u.seg_no) = [1, 2, 3, 4, 5, 6, 15, 8, 9, 1] := by
    rw [Client.main_units_seg_no]; decide
  have hlt : ∀ u ∈ Client.main_units 10 0 (Client.initializeDataPacket uninit) file,
      u.seg_no < 50 := by
    intro u hu
    have hm : u.seg_no ∈ (Client.main_units 10 0 (Client.initializeDataPacket uninit)
        file).map (fun u => u.seg_no) := List.mem_map_of_mem _ hu
    rw [hseg] at hm
    simp at hm
    omega
  refine ⟨?_, ⟨by decide, ?_⟩, ?_, ?_, ?_, ?_⟩
  · by_cases h : p.seg_no < 50
    · obtain ⟨o, ho, -⟩ := Server.main_iteration_spec st p h
      simp [ho]; omega
    · simp [Server.main_iteration, h]; omega
  · have h50 : ¬ (packetOf 50 1 [97] 0xFFFF).seg_no < 50 := by decide
    simp only [Server.main_iteration, h50, dite_false]
  · obtain ⟨st', replies, hrun, -⟩ := Server.main_loop_spec pkts
      (fun q hq => by have := hs q hq; omega) st
    exact ⟨st', replies, hrun⟩
  · intro u hu
    have := hlt u hu
    omega
  · obtain ⟨st', replies, hrun, -⟩ := Server.main_loop_spec _ hlt st
    exact ⟨st', replies, hrun⟩
  · obtain ⟨st', replies, -, -, hsess⟩ := send_units_lossless_eq _ st hlt
    exact ⟨st', _, hsess⟩

/-- Witness of C23: the stream 49, 0, 49 from the fresh receiver. -/
theorem C23_table_bounds_witness :
    (∀ q ∈ [packetOf 49 1 [97] 0xFFFF, packetOf 0 1 [98] 0xFFFF, packetOf 49 1 [97] 0xFFFF],
      q.seg_no ≤ 49) ∧
    ∃ st' replies, Server.main_loop Server.State.init
      [packetOf 49 1 [97] 0xFFFF, packetOf 0 1 [98] 0xFFFF, packetOf 49 1 [97] 0xFFFF] =
        some (st', replies) :=
  ⟨by decide,
   (C23_table_bounds Server.State.init (packetOf 49 1 [97] 0xFFFF)
     [packetOf 49 1 [97] 0xFFFF, packetOf 0 1 [98] 0xFFFF, packetOf 49 1 [97] 0xFFFF]
     (packetOf 0 0 [] 0) [104, 105, 10] (by decide)).2.2.1⟩

end Transfer
